import Mathlib

/-!
Verification of the SLURM gang time-slicing scheduler plugin
(`branches/slurm-1.3/src/plugins/sched/gang/gang.c`).

This file gives a shallow embedding of the scheduler's data model and
operations, translated from the C source, and proves or refutes the
claims of the specification against it.

Modelling conventions:
* `bitstr_t` becomes `List Bool` (bit `i` is the `i`-th element); all
  resmaps of a run share one width, as in the C code (`bit_and`,
  `bit_or`, `bit_copybits` all require equal sizes).
* `uint16_t *` CPU arrays become `Option (List Nat)` (`none` = NULL).
* A `struct gs_job *` stored in a shadow array is a pointer through
  which the code only ever reads `job_id`, `resmap` and `alloc_cpus`
  (`_add_job_to_active`, the identity tests in `_cast_shadow` and
  `_clear_shadow`); shadows are therefore embedded as `ShadowRef`
  records carrying exactly those fields, with pointer identity
  rendered as `job_id` equality (SLURM job ids are globally unique).
* External collaborators (`node_record_table_ptr`,
  `select_g_get_job_cores`, `job_suspend`) are oracle functions in
  `GsConfig` / an `Oracle` argument; `job_suspend`'s return code is
  only ever logged by `_signal_job`, so the oracle feeds the log.
* Emitted suspend/resume RPCs and error logs are collected in output
  lists (`sigs`, `logs`); operations on the shared partition list are
  state-passing functions.  The partition currently operated on is
  threaded as `q` next to the list `others` of the remaining
  partitions, mirroring the `p_ptr` argument plus the global
  `gs_part_list` of the C code.
-/

inductive GrType
  | node
  | socket
  | core
  | cpu
  deriving DecidableEq, Repr

/-- `GS_SUSPEND` / `GS_RESUME`: used both as a job's signal state and as
the kind of an emitted signal, exactly as the C enum `gs_flags` is. -/
inductive SigState
  | suspend
  | resume
  deriving DecidableEq, Repr

/-- `GS_NO_ACTIVE` / `GS_ACTIVE` / `GS_FILLER` (row_state values). -/
inductive RowState
  | noActive
  | active
  | filler
  deriving DecidableEq, Repr

/-- `struct gs_job`. -/
structure GsJob where
  job_id : Nat
  sig_state : SigState
  row_state : RowState
  resmap : List Bool
  alloc_cpus : Option (List Nat)
  deriving DecidableEq, Repr

instance : Inhabited GsJob := ⟨⟨0, SigState.resume, RowState.noActive, [], none⟩⟩

/-- The data reachable through a `struct gs_job *` stored in a shadow
array: the code only ever reads these three fields through such a
pointer. -/
structure ShadowRef where
  job_id : Nat
  resmap : List Bool
  alloc_cpus : Option (List Nat)
  deriving DecidableEq, Repr

def GsJob.toRef (j : GsJob) : ShadowRef := ⟨j.job_id, j.resmap, j.alloc_cpus⟩

/-- `struct gs_part`.  `job_list` keeps insertion order; `shadows` is
the `shadow` array (prefix of length `num_shadows`). -/
structure GsPart where
  part_name : String
  priority : Nat
  job_list : List GsJob
  shadows : List ShadowRef
  jobs_active : Nat
  active_resmap : Option (List Bool)
  active_cpus : Option (List Nat)
  deriving DecidableEq, Repr

instance : Inhabited GsPart := ⟨⟨"", 0, [], [], 0, none, none⟩⟩

/-- Global configuration and external collaborators: the granularity
`gr_type`, the physical-resource run-length table (`gs_cpus_per_res`,
`gs_cpu_count_reps`), the node inventory and the allocation plugin.
`fast_schedule` only selects which inventory figures the oracle
functions report, so it is folded into them. -/
structure GsConfig where
  gr : GrType
  cpus_per_res : List Nat
  cpu_count_reps : List Nat
  node_count : Nat
  sockets_of : Nat → Nat
  cpus_of : Nat → Nat
  cores_of : Nat → Nat
  cores_on : Nat → Nat → Nat → Nat
  resmap_size : Nat

/-- Return code of the external `job_suspend` RPC, per job id and
signal kind (`_signal_job` only logs it). -/
def Oracle : Type := Nat → SigState → Int

structure SigEvent where
  job_id : Nat
  kind : SigState
  deriving DecidableEq, Repr

/-- `_signal_job`: emit the suspend/resume message; a non-zero return
code from the RPC is logged and otherwise ignored. -/
def signalJob (orc : Oracle) (job_id : Nat) (k : SigState) :
    List SigEvent × List String :=
  (⟨job_id, k⟩ :: [],
    if orc job_id k = 0 then [] else ["sched gang error signaling job"] )

/-! ### Bitstring operations (`src/common/bitstring.h`) -/

def bitAnd (a b : List Bool) : List Bool := List.zipWith and a b

def bitOr (a b : List Bool) : List Bool := List.zipWith or a b

def popcount (a : List Bool) : Nat := a.count true

/-! ### Physical-resource table: `_get_phys_res_cnt` -/

/-- `_get_phys_res_cnt`: walk the run-length table, accumulating
repetition counts until the running total strictly exceeds
`res_index`, and return the capacity of the run reached.  The list
recursion subtracts the consumed repetitions instead of accumulating a
position, which is the same comparison (`res_index >= pos`). -/
def getPhysResCnt (caps reps : List Nat) (res_index : Nat) : Nat :=
  match caps, reps with
  | cap :: cs, rep :: rs =>
      if res_index < rep then cap else getPhysResCnt cs rs (res_index - rep)
  | _, _ => 0

/-! ### Fit engine: `_can_cpus_fit` and `_job_fits_in_active_row` -/

/-- Loop body of `_can_cpus_fit`: `n` is the number of remaining bit
positions, `i` the current bit index, `a` the running alignment index
into the job's `alloc_cpus` array (incremented on every set bit of the
job's resmap, after the conflict test for the current bit). -/
def canCpusFitAux (caps reps pc jc : List Nat) (jres setmap : List Bool) :
    Nat → Nat → Nat → Bool
  | 0, _, _ => true
  | n + 1, i, a =>
    if setmap.getD i false = true ∧
        getPhysResCnt caps reps i < pc.getD i 0 + jc.getD a 0 then
      false
    else
      canCpusFitAux caps reps pc jc jres setmap n (i + 1)
        (if jres.getD i false then a + 1 else a)

/-- `_can_cpus_fit`: returns 0 when either CPU array is NULL, else
checks every conflicting bit against the physical capacity. -/
def canCpusFit (cfg : GsConfig) (setmap : List Bool) (j : GsJob)
    (p : GsPart) : Bool :=
  match p.active_cpus, j.alloc_cpus with
  | some pc, some jc =>
      canCpusFitAux cfg.cpus_per_res cfg.cpu_count_reps pc jc
        j.resmap setmap setmap.length 0 0
  | _, _ => false

/-- `_job_fits_in_active_row`. -/
def jobFitsInActiveRow (cfg : GsConfig) (j : GsJob) (p : GsPart) : Bool :=
  match p.active_resmap with
  | none => true
  | some act =>
    if p.jobs_active = 0 then true
    else
      let tmpmap := bitAnd j.resmap act
      if popcount tmpmap = 0 then true
      else if cfg.gr = GrType.node ∨ cfg.gr = GrType.socket then false
      else canCpusFit cfg tmpmap j p

/-! ### `_add_job_to_active` -/

/-- Overwrite branch of the `active_cpus` update (`jobs_active == 0`):
every entry up to the active resmap size is rewritten, set bits of the
job's resmap taking the next `alloc_cpus` entry, other bits zero. -/
def overwriteCpusAux (jres : List Bool) (jc : List Nat) :
    Nat → Nat → Nat → List Nat
  | 0, _, _ => []
  | n + 1, i, a =>
    if jres.getD i false then
      jc.getD a 0 :: overwriteCpusAux jres jc n (i + 1) (a + 1)
    else
      0 :: overwriteCpusAux jres jc n (i + 1) a

/-- Accumulate branch of the `active_cpus` update (`jobs_active > 0`):
set bits of the job's resmap add the next `alloc_cpus` entry, clamped
at the physical resource count (shadows may overcommit); other entries
keep their old value. -/
def addCpusAux (caps reps : List Nat) (jres : List Bool) (jc pc : List Nat) :
    Nat → Nat → Nat → List Nat
  | 0, _, _ => []
  | n + 1, i, a =>
    if jres.getD i false then
      let limit := getPhysResCnt caps reps i
      let v := pc.getD i 0 + jc.getD a 0
      (if limit < v then limit else v) ::
        addCpusAux caps reps jres jc pc n (i + 1) (a + 1)
    else
      pc.getD i 0 :: addCpusAux caps reps jres jc pc n (i + 1) a

/-- `_add_job_to_active`, for a job or a shadow reference.  The three
resmap branches are: allocate (`bit_copy`), overwrite
(`bit_copybits`, when `jobs_active == 0`), and merge (`bit_or`). -/
def addJobToActive (cfg : GsConfig) (r : ShadowRef) (p : GsPart) : GsPart :=
  let act : List Bool :=
    match p.active_resmap with
    | none => r.resmap
    | some a0 => if p.jobs_active = 0 then r.resmap else bitOr a0 r.resmap
  let p1 := { p with active_resmap := some act }
  let p2 :=
    if cfg.gr = GrType.cpu ∨ cfg.gr = GrType.core then
      let sz := act.length
      let pcOld : List Nat :=
        match p1.active_cpus with
        | none => List.replicate sz 0
        | some v => v
      let jc : List Nat := r.alloc_cpus.getD []
      let newCpus :=
        if p.jobs_active = 0 then overwriteCpusAux r.resmap jc sz 0 0
        else addCpusAux cfg.cpus_per_res cfg.cpu_count_reps r.resmap jc
          pcOld sz 0 0
      { p1 with active_cpus := some newCpus }
    else p1
  { p2 with jobs_active := p2.jobs_active + 1 }

/-! ### Shadow propagation: `_cast_shadow` and `_clear_shadow` -/

def shadowHasId (p : GsPart) (id : Nat) : Bool :=
  p.shadows.any (fun s => s.job_id == id)

/-- One partition's step of `_cast_shadow`: skip partitions of equal or
higher priority, deduplicate by identity, else append. -/
def castShadowPart (r : ShadowRef) (prio : Nat) (p : GsPart) : GsPart :=
  if prio ≤ p.priority then p
  else if shadowHasId p r.job_id then p
  else { p with shadows := p.shadows ++ [r] }

/-- Remove the first identity match (the shift-down loop of
`_clear_shadow`); duplicates cannot arise because `_cast_shadow`
deduplicates. -/
def removeFirstShadow : List ShadowRef → Nat → List ShadowRef
  | [], _ => []
  | s :: rest, id => if s.job_id = id then rest else s :: removeFirstShadow rest id

/-- One partition's step of `_clear_shadow`. -/
def clearShadowPart (r : ShadowRef) (p : GsPart) : GsPart :=
  if shadowHasId p r.job_id then
    { p with shadows := removeFirstShadow p.shadows r.job_id }
  else p

/-- `_cast_shadow` over the whole partition list (the current
partition `q` plus all `others`); the priority filter makes it a no-op
on `q` itself. -/
def castShadowAll (r : ShadowRef) (prio : Nat) (q : GsPart)
    (os : List GsPart) : GsPart × List GsPart :=
  (castShadowPart r prio q, os.map (castShadowPart r prio))

/-- `_clear_shadow` over the whole partition list. -/
def clearShadowAll (r : ShadowRef) (q : GsPart) (os : List GsPart) :
    GsPart × List GsPart :=
  (clearShadowPart r q, os.map (clearShadowPart r))

/-! ### Row updater: `_update_active_row` -/

/-- Result of an operation on the partition currently pointed at
(`q`), the rest of the global partition list (`others`), and the
collected suspend/resume RPCs and error-log lines. -/
structure OpRes where
  q : GsPart
  others : List GsPart
  sigs : List SigEvent
  logs : List String
  deriving Repr

/-- Result of one job-list pass (the processed job list is returned
separately; the C code mutates the jobs in place while `job_list`
itself is not reordered by `_update_active_row`). -/
structure PassRes where
  jobs : List GsJob
  q : GsPart
  others : List GsPart
  sigs : List SigEvent
  logs : List String
  deriving Repr

/-- The shadow loop at the start of `_update_active_row` (and of
`_build_active_row`): apply every shadow to the active row. -/
def shadowPhase (cfg : GsConfig) (q : GsPart) : GsPart :=
  q.shadows.foldl (fun acc s => addJobToActive cfg s acc) q

/-- The two middle loops of `_update_active_row`, parameterised by the
row state they re-seat (`GS_ACTIVE`, then `GS_FILLER`; the loop bodies
are identical in the C code).  A job that no longer fits is suspended
(if it was running), its shadows are cleared, and it drops to
`GS_NO_ACTIVE` while keeping its place in the job list. -/
def seatPass (cfg : GsConfig) (orc : Oracle) (target : RowState) :
    List GsJob → GsPart → List GsPart → PassRes
  | [], q, os => ⟨[], q, os, [], []⟩
  | j :: rest, q, os =>
    if j.row_state = target then
      if jobFitsInActiveRow cfg j q then
        let q1 := addJobToActive cfg j.toRef q
        let (q2, os2) := castShadowAll j.toRef q1.priority q1 os
        let r := seatPass cfg orc target rest q2 os2
        ⟨j :: r.jobs, r.q, r.others, r.sigs, r.logs⟩
      else if j.sig_state ≠ SigState.suspend then
        let (sg, lg) := signalJob orc j.job_id SigState.suspend
        let (q1, os1) := clearShadowAll j.toRef q os
        let j1 := { j with sig_state := SigState.suspend,
                           row_state := RowState.noActive }
        let r := seatPass cfg orc target rest q1 os1
        ⟨j1 :: r.jobs, r.q, r.others, sg ++ r.sigs, lg ++ r.logs⟩
      else
        let j1 := { j with row_state := RowState.noActive }
        let r := seatPass cfg orc target rest q os
        ⟨j1 :: r.jobs, r.q, r.others, r.sigs, r.logs⟩
    else
      let r := seatPass cfg orc target rest q os
      ⟨j :: r.jobs, r.q, r.others, r.sigs, r.logs⟩

/-- The final loop of `_update_active_row`: admit `GS_NO_ACTIVE` jobs
that now fit, seating them as `GS_FILLER` and resuming them if they
were suspended. -/
def newPass (cfg : GsConfig) (orc : Oracle) :
    List GsJob → GsPart → List GsPart → PassRes
  | [], q, os => ⟨[], q, os, [], []⟩
  | j :: rest, q, os =>
    if j.row_state = RowState.noActive then
      if jobFitsInActiveRow cfg j q then
        let q1 := addJobToActive cfg j.toRef q
        let (q2, os2) := castShadowAll j.toRef q1.priority q1 os
        if j.sig_state = SigState.suspend then
          let (sg, lg) := signalJob orc j.job_id SigState.resume
          let j1 := { j with row_state := RowState.filler,
                             sig_state := SigState.resume }
          let r := newPass cfg orc rest q2 os2
          ⟨j1 :: r.jobs, r.q, r.others, sg ++ r.sigs, lg ++ r.logs⟩
        else
          let j1 := { j with row_state := RowState.filler }
          let r := newPass cfg orc rest q2 os2
          ⟨j1 :: r.jobs, r.q, r.others, r.sigs, r.logs⟩
      else
        let r := newPass cfg orc rest q os
        ⟨j :: r.jobs, r.q, r.others, r.sigs, r.logs⟩
    else
      let r := newPass cfg orc rest q os
      ⟨j :: r.jobs, r.q, r.others, r.sigs, r.logs⟩

/-- `_update_active_row`: zero the run count, apply shadows, re-seat
`GS_ACTIVE` jobs, re-seat `GS_FILLER` jobs, then (when `add_new_jobs`)
admit `GS_NO_ACTIVE` jobs. -/
def updateActiveRow (cfg : GsConfig) (orc : Oracle) (addNewJobs : Bool)
    (q : GsPart) (os : List GsPart) : OpRes :=
  let q1 := shadowPhase cfg { q with jobs_active := 0 }
  let rA := seatPass cfg orc RowState.active q.job_list q1 os
  let rF := seatPass cfg orc RowState.filler rA.jobs rA.q rA.others
  if addNewJobs then
    let rN := newPass cfg orc rF.jobs rF.q rF.others
    ⟨{ rN.q with job_list := rN.jobs }, rN.others,
      rA.sigs ++ rF.sigs ++ rN.sigs, rA.logs ++ rF.logs ++ rN.logs⟩
  else
    ⟨{ rF.q with job_list := rF.jobs }, rF.others,
      rA.sigs ++ rF.sigs, rA.logs ++ rF.logs⟩

/-! ### Timeslicer core: `_build_active_row` and `_cycle_job_list` -/

/-- The job loop of `_build_active_row`: walk the job list in order;
every job that fits joins the row and becomes `GS_ACTIVE`. -/
def buildJobsPass (cfg : GsConfig) : List GsJob → GsPart → List GsJob × GsPart
  | [], q => ([], q)
  | j :: rest, q =>
    if jobFitsInActiveRow cfg j q then
      let r := buildJobsPass cfg rest (addJobToActive cfg j.toRef q)
      ({ j with row_state := RowState.active } :: r.1, r.2)
    else
      let r := buildJobsPass cfg rest q
      (j :: r.1, r.2)

/-- `_build_active_row`: note the early return when the job list is
empty happens before the shadow loop, so a job-less partition ends
with `jobs_active = 0` even when it holds shadows. -/
def buildActiveRow (cfg : GsConfig) (q : GsPart) : GsPart :=
  let q0 := { q with jobs_active := 0 }
  if q.job_list.isEmpty then q0
  else
    let r := buildJobsPass cfg q.job_list (shadowPhase cfg q0)
    { r.2 with job_list := r.1 }

/-- The reordering loop at the top of `_cycle_job_list`.  The C loop
scans positions left to right; at each position it repeatedly moves a
`GS_ACTIVE` job to the back of the list, de-activating it first, until
the position holds a non-active job; a `GS_FILLER` job is de-activated
in place.  Because every moved job is already `GS_NO_ACTIVE` when the
scan reaches its new position (where it is left untouched), this is
the same as a single walk that queues de-activated `GS_ACTIVE` jobs
behind the rest, in order. -/
def cycleReorderAux : List GsJob → List GsJob → List GsJob
  | [], moved => moved
  | j :: rest, moved =>
    if j.row_state = RowState.active then
      cycleReorderAux rest (moved ++ [{ j with row_state := RowState.noActive }])
    else if j.row_state = RowState.filler then
      { j with row_state := RowState.noActive } :: cycleReorderAux rest moved
    else
      j :: cycleReorderAux rest moved

def cycleReorder (l : List GsJob) : List GsJob := cycleReorderAux l []

/-- The fourth loop of `_cycle_job_list`: suspend running jobs that
ended up `GS_NO_ACTIVE`, clearing their shadows. -/
def cycleSuspendPass (orc : Oracle) :
    List GsJob → GsPart → List GsPart → PassRes
  | [], q, os => ⟨[], q, os, [], []⟩
  | j :: rest, q, os =>
    if j.row_state = RowState.noActive ∧ j.sig_state = SigState.resume then
      let (sg, lg) := signalJob orc j.job_id SigState.suspend
      let j1 := { j with sig_state := SigState.suspend }
      let (q1, os1) := clearShadowAll j.toRef q os
      let r := cycleSuspendPass orc rest q1 os1
      ⟨j1 :: r.jobs, r.q, r.others, sg ++ r.sigs, lg ++ r.logs⟩
    else
      let r := cycleSuspendPass orc rest q os
      ⟨j :: r.jobs, r.q, r.others, r.sigs, r.logs⟩

/-- The fifth loop of `_cycle_job_list`: resume suspended jobs that
were seated `GS_ACTIVE`, casting their shadows. -/
def cycleResumePass (orc : Oracle) :
    List GsJob → GsPart → List GsPart → PassRes
  | [], q, os => ⟨[], q, os, [], []⟩
  | j :: rest, q, os =>
    if j.row_state = RowState.active ∧ j.sig_state = SigState.suspend then
      let (sg, lg) := signalJob orc j.job_id SigState.resume
      let j1 := { j with sig_state := SigState.resume }
      let (q1, os1) := castShadowAll j.toRef q.priority q os
      let r := cycleResumePass orc rest q1 os1
      ⟨j1 :: r.jobs, r.q, r.others, sg ++ r.sigs, lg ++ r.logs⟩
    else
      let r := cycleResumePass orc rest q os
      ⟨j :: r.jobs, r.q, r.others, r.sigs, r.logs⟩

/-- `_cycle_job_list`. -/
def cycleJobList (cfg : GsConfig) (orc : Oracle) (q : GsPart)
    (os : List GsPart) : OpRes :=
  let q1 := { q with job_list := cycleReorder q.job_list }
  let q2 := buildActiveRow cfg q1
  let rS := cycleSuspendPass orc q2.job_list q2 os
  let rR := cycleResumePass orc rS.jobs rS.q rS.others
  ⟨{ rR.q with job_list := rR.jobs }, rR.others,
    rS.sigs ++ rR.sigs, rS.logs ++ rR.logs⟩

/-! ### `_sort_partitions` -/

/-- The inner scan of the exchange sort in `_sort_partitions`:
`cur` holds the slot being filled (`gs_part_sorted[j]`), the list the
remaining slots; a strictly higher-priority element is swapped into
the slot, the displaced value taking its position. -/
def selectPass {α : Type} (key : α → Nat) (cur : α) :
    List α → α × List α
  | [] => (cur, [])
  | x :: xs =>
    if key cur < key x then
      let p := selectPass key x xs
      (p.1, cur :: p.2)
    else
      let p := selectPass key cur xs
      (p.1, x :: p.2)

theorem selectPass_snd_length {α : Type} (key : α → Nat) (cur : α)
    (l : List α) : ((selectPass key cur l).2).length = l.length := by
  induction l generalizing cur with
  | nil => rfl
  | cons x xs ih =>
    simp only [selectPass]
    split
    · simp [ih]
    · simp [ih]

/-- The double loop of `_sort_partitions`: each outer step runs one
inner scan, leaving the selected maximum in the slot. -/
def exchangeSortOuter {α : Type} (key : α → Nat) : Nat → List α → List α
  | 0, l => l
  | _ + 1, [] => []
  | n + 1, x :: xs =>
    let p := selectPass key x xs
    p.1 :: exchangeSortOuter key n p.2

/-- The outer loop runs exactly `size` times (`for (j = 0; j < size;
j++)`), each iteration fixing one slot via the inner scan. -/
def exchangeSort {α : Type} (key : α → Nat) (l : List α) : List α :=
  exchangeSortOuter key l.length l

/-- `_sort_partitions` applied to the partition list itself (the C
code sorts an array of pointers; priority descending). -/
def sortParts (ps : List GsPart) : List GsPart :=
  exchangeSort (fun p => p.priority) ps

/-- `_sort_partitions` expressed on indices into the unsorted list:
the pointer array is a permutation of positions, sorted by the same
exchange sort comparing priorities. -/
def sortedIndices (ps : List GsPart) : List Nat :=
  exchangeSort (fun i => (ps.getD i default).priority)
    (List.range ps.length)

/-! ### Operations addressed by position in the global partition list -/

/-- Run `_update_active_row` on the partition at position `k` of the
global list (splitting it off as `q`, the rest as `others`, and
re-inserting the results at the same positions). -/
def updateRowAt (cfg : GsConfig) (orc : Oracle) (addNewJobs : Bool)
    (ps : List GsPart) (k : Nat) :
    List GsPart × List SigEvent × List String :=
  if k < ps.length then
    let q := ps.getD k default
    let os := ps.take k ++ ps.drop (k + 1)
    let r := updateActiveRow cfg orc addNewJobs q os
    (r.others.take k ++ r.q :: r.others.drop k, r.sigs, r.logs)
  else (ps, [], [])

/-- Run `_cycle_job_list` on the partition at position `k`. -/
def cycleAt (cfg : GsConfig) (orc : Oracle) (ps : List GsPart) (k : Nat) :
    List GsPart × List SigEvent × List String :=
  if k < ps.length then
    let q := ps.getD k default
    let os := ps.take k ++ ps.drop (k + 1)
    let r := cycleJobList cfg orc q os
    (r.others.take k ++ r.q :: r.others.drop k, r.sigs, r.logs)
  else (ps, [], [])

/-- `_update_all_active_rows`: sort the partitions, then update each
row in priority-descending order (so shadows cast by higher-priority
partitions are in place before lower ones are evaluated). -/
def updateAllActiveRows (cfg : GsConfig) (orc : Oracle)
    (ps : List GsPart) : List GsPart × List SigEvent × List String :=
  (sortedIndices ps).foldl
    (fun acc k =>
      let r := updateRowAt cfg orc true acc.1 k
      (r.1, acc.2.1 ++ r.2.1, acc.2.2 ++ r.2.2))
    (ps, [], [])

/-- One iteration of `_timeslicer_thread`: sort, then cycle every
partition in which something cannot currently be seated. -/
def timeslicerTick (cfg : GsConfig) (orc : Oracle) (ps : List GsPart) :
    List GsPart × List SigEvent × List String :=
  (sortedIndices ps).foldl
    (fun acc k =>
      let p := acc.1.getD k default
      if p.jobs_active < p.job_list.length + p.shadows.length then
        let r := cycleAt cfg orc acc.1 k
        (r.1, acc.2.1 ++ r.2.1, acc.2.2 ++ r.2.2)
      else acc)
    (ps, [], [])

/-! ### Job construction: `_compute_resources`, `_get_resmap`,
`_load_alloc_cpus` -/

def computeResources (cfg : GsConfig) (i : Nat) (socket_count : Bool) : Nat :=
  if cfg.gr = GrType.node then 1
  else if cfg.gr = GrType.cpu then
    if socket_count then 1 else cfg.cpus_of i
  else if socket_count ∨ cfg.gr = GrType.socket then cfg.sockets_of i
  else cfg.cores_of i

/-- The node walk of `_get_resmap` for `GS_SOCKET` / `GS_CORE`:
`n` nodes remain, `i` is the node index, `alloc_index` counts the
allocated nodes seen so far. -/
def socketMapAux (cfg : GsConfig) (job_id : Nat) (origmap : List Bool) :
    Nat → Nat → Nat → List Bool
  | 0, _, _ => []
  | n + 1, i, alloc_index =>
    let sockets := computeResources cfg i true
    if origmap.getD i false then
      ((List.range sockets).map
          (fun s => decide (0 < cfg.cores_on job_id alloc_index s)))
        ++ socketMapAux cfg job_id origmap n (i + 1) (alloc_index + 1)
    else
      List.replicate sockets false
        ++ socketMapAux cfg job_id origmap n (i + 1) alloc_index

/-- `_get_resmap`.  The C code calls `fatal` when the node bitmap size
has changed (a missed reconfigure); that aborts the program, modelled
here by the empty resmap, and is exercised by no claim. -/
def getResmap (cfg : GsConfig) (origmap : List Bool) (job_id : Nat) :
    List Bool :=
  if origmap.length ≠ cfg.node_count then []
  else if cfg.gr = GrType.node ∨ cfg.gr = GrType.cpu then origmap
  else
    let bits := socketMapAux cfg job_id origmap cfg.node_count 0 0
    bits.take cfg.resmap_size
      ++ List.replicate (cfg.resmap_size - bits.length) false

/-- The node walk of `_load_alloc_cpus`: emit one entry per socket on
which the allocator reports a positive core count, in node order. -/
def allocCpusAux (cfg : GsConfig) (job_id : Nat) (nodemap : List Bool) :
    Nat → Nat → Nat → List Nat
  | 0, _, _ => []
  | n + 1, i, alloc_index =>
    if nodemap.getD i false then
      (((List.range (computeResources cfg i true)).map
            (fun s => cfg.cores_on job_id alloc_index s)).filter
          (fun c => decide (0 < c)))
        ++ allocCpusAux cfg job_id nodemap n (i + 1) (alloc_index + 1)
    else allocCpusAux cfg job_id nodemap n (i + 1) alloc_index

def loadAllocCpus (cfg : GsConfig) (job_id : Nat) (nodemap : List Bool) :
    List Nat :=
  allocCpusAux cfg job_id nodemap cfg.node_count 0 0

/-! ### `_find_job_index`, `_remove_job_from_part`, `_add_job_to_part` -/

def findJobIndex (q : GsPart) (job_id : Nat) : Option Nat :=
  q.job_list.findIdx? (fun j => j.job_id == job_id)

/-- `_remove_job_from_part`: guard against a zero job id, find the job
(returning unchanged when absent), clear its shadows everywhere, shift
the job list down, and resume the job if it was left suspended. -/
def removeJobFromPart (orc : Oracle) (job_id : Nat) (q : GsPart)
    (os : List GsPart) : OpRes :=
  if job_id = 0 then ⟨q, os, [], []⟩
  else
    match findJobIndex q job_id with
    | none => ⟨q, os, [], []⟩
    | some i =>
      let j := q.job_list.getD i default
      let (q1, os1) := clearShadowAll j.toRef q os
      let q2 := { q1 with job_list := q1.job_list.eraseIdx i }
      let sl :=
        if j.sig_state = SigState.suspend then
          signalJob orc j.job_id SigState.resume
        else ([], [])
      ⟨q2, os1, sl.1, sl.2⟩

/-- The `!p_ptr` guard of `_remove_job_from_part`: a NULL partition
pointer returns immediately with nothing touched. -/
def removeJobOpt (orc : Oracle) (job_id : Nat)
    (pq : Option (GsPart × List GsPart)) :
    Option (GsPart × List GsPart) × List SigEvent × List String :=
  match pq with
  | none => (none, [], [])
  | some (q, os) =>
    let r := removeJobFromPart orc job_id q os
    (some (r.q, r.others), r.sigs, r.logs)

/-- Job construction in `_add_job_to_part`: all jobs start running and
outside the active row; `alloc_cpus` is loaded for `GS_CORE`/`GS_CPU`
only. -/
def mkGsJob (cfg : GsConfig) (job_id : Nat) (bitmap : List Bool) : GsJob :=
  { job_id := job_id
    sig_state := SigState.resume
    row_state := RowState.noActive
    resmap := getResmap cfg bitmap job_id
    alloc_cpus :=
      if cfg.gr = GrType.core ∨ cfg.gr = GrType.cpu then
        some (loadAllocCpus cfg job_id bitmap)
      else none }

/-- `_add_job_to_part`.  A duplicate id is removed first and the row
rebuilt without admission; the new job is appended, then either seated
as a filler (casting its shadow) or suspended.  Returns the job's
resulting signal state, as the C function does.  The fit test runs
before the append in this embedding; `_job_fits_in_active_row` reads
only the active row, so the order is immaterial. -/
def addJobToPart (cfg : GsConfig) (orc : Oracle) (q : GsPart)
    (os : List GsPart) (job_id : Nat) (bitmap : List Bool) :
    OpRes × SigState :=
  let step1 : GsPart × List GsPart × List SigEvent × List String :=
    if (findJobIndex q job_id).isSome then
      let r1 := removeJobFromPart orc job_id q os
      let r2 := updateActiveRow cfg orc false r1.q r1.others
      (r2.q, r2.others, r1.sigs ++ r2.sigs, r1.logs ++ r2.logs)
    else (q, os, [], [])
  let q0 := step1.1
  let os0 := step1.2.1
  let j := mkGsJob cfg job_id bitmap
  if jobFitsInActiveRow cfg j q0 then
    let j1 := { j with row_state := RowState.filler }
    let qA := { q0 with job_list := q0.job_list ++ [j1] }
    let qB := addJobToActive cfg j.toRef qA
    let (qC, osC) := castShadowAll j.toRef qB.priority qB os0
    (⟨qC, osC, step1.2.2.1, step1.2.2.2⟩, SigState.resume)
  else
    let sl := signalJob orc job_id SigState.suspend
    let j1 := { j with sig_state := SigState.suspend }
    (⟨{ q0 with job_list := q0.job_list ++ [j1] }, os0,
        step1.2.2.1 ++ sl.1, step1.2.2.2 ++ sl.2⟩,
      SigState.suspend)

/-! ### `gs_job_start` -/

def findPartIdx (ps : List GsPart) (nm : String) : Option Nat :=
  ps.findIdx? (fun p => p.part_name == nm)

/-- `gs_job_start`: find the partition by name (logging and leaving
the job unmanaged when absent), add the job, and if it entered running
rebuild all active rows. -/
def jobStart (cfg : GsConfig) (orc : Oracle) (ps : List GsPart)
    (partName : String) (job_id : Nat) (bitmap : List Bool) :
    List GsPart × List SigEvent × List String :=
  match findPartIdx ps partName with
  | none => (ps, [], ["sched gang could not find partition for job"])
  | some k =>
    let q := ps.getD k default
    let os := ps.take k ++ ps.drop (k + 1)
    let r := addJobToPart cfg orc q os job_id bitmap
    let ps1 := r.1.others.take k ++ r.1.q :: r.1.others.drop k
    if r.2 = SigState.resume then
      let u := updateAllActiveRows cfg orc ps1
      (u.1, r.1.sigs ++ u.2.1, r.1.logs ++ u.2.2)
    else (ps1, r.1.sigs, r.1.logs)

/-! ## Helper lemmas -/

/-- Alignment index of `_can_cpus_fit` / `_add_job_to_active`: the
number of set bits of the job's resmap strictly below bit `i`. -/
def alignIdx (jres : List Bool) (i : Nat) : Nat := (jres.take i).count true

/-- Set bits of `jres` in the window `[i, i+m)`. -/
def countSet (jres : List Bool) (i m : Nat) : Nat :=
  ((jres.drop i).take m).count true

theorem countSet_zero (jres : List Bool) (i : Nat) : countSet jres i 0 = 0 := by
  simp [countSet]

theorem countSet_succ (jres : List Bool) (i m : Nat) :
    countSet jres i (m + 1) =
      (if jres.getD i false then 1 else 0) + countSet jres (i + 1) m := by
  induction jres generalizing i with
  | nil => simp [countSet]
  | cons x xs ih =>
    cases i with
    | zero =>
      simp only [countSet, List.drop_zero, List.take_succ_cons,
        List.count_cons, List.drop_succ_cons]
      cases x
      · simp
      · simp
        omega
    | succ i =>
      simpa [countSet, List.getD_cons_succ] using ih i

theorem countSet_from_zero (jres : List Bool) (m : Nat) :
    countSet jres 0 m = alignIdx jres m := by
  simp [countSet, alignIdx]

theorem canCpusFitAux_true_iff (caps reps pc jc : List Nat)
    (jres setmap : List Bool) :
    ∀ n i a, canCpusFitAux caps reps pc jc jres setmap n i a = true ↔
      ∀ m, m < n → setmap.getD (i + m) false = true →
        pc.getD (i + m) 0 + jc.getD (a + countSet jres i m) 0 ≤
          getPhysResCnt caps reps (i + m) := by
  intro n
  induction n with
  | zero =>
    intro i a
    simp [canCpusFitAux]
  | succ n ih =>
    intro i a
    rw [canCpusFitAux]
    by_cases hb : setmap.getD i false = true ∧
        getPhysResCnt caps reps i < pc.getD i 0 + jc.getD a 0
    · rw [if_pos hb]
      constructor
      · intro h
        exact absurd h (by simp)
      · intro h
        exfalso
        have h0 := h 0 (Nat.succ_pos n) (by simpa using hb.1)
        rw [countSet_zero] at h0
        simp only [Nat.add_zero] at h0
        omega
    · rw [if_neg hb]
      rw [ih]
      push_neg at hb
      constructor
      · intro h m hm hs
        cases m with
        | zero =>
          rw [countSet_zero]
          simp only [Nat.add_zero] at hs ⊢
          exact hb hs
        | succ m =>
          have harr : i + (m + 1) = i + 1 + m := by omega
          rw [harr] at hs ⊢
          have hrec := h m (by omega) hs
          rw [countSet_succ]
          by_cases hj : jres.getD i false = true
          · simp only [if_pos hj] at hrec ⊢
            have hidx : a + (1 + countSet jres (i + 1) m) =
                a + 1 + countSet jres (i + 1) m := by omega
            rw [hidx]
            exact hrec
          · simp only [if_neg hj] at hrec ⊢
            have hidx : a + (0 + countSet jres (i + 1) m) =
                a + countSet jres (i + 1) m := by omega
            rw [hidx]
            exact hrec
      · intro h m hm hs
        have harr : i + 1 + m = i + (m + 1) := by omega
        rw [harr] at hs ⊢
        have hrec := h (m + 1) (by omega) hs
        rw [countSet_succ] at hrec
        by_cases hj : jres.getD i false = true
        · simp only [if_pos hj] at hrec ⊢
          have hidx : a + (1 + countSet jres (i + 1) m) =
              a + 1 + countSet jres (i + 1) m := by omega
          rw [hidx] at hrec
          exact hrec
        · simp only [if_neg hj] at hrec ⊢
          have hidx : a + (0 + countSet jres (i + 1) m) =
              a + countSet jres (i + 1) m := by omega
          rw [hidx] at hrec
          exact hrec

/-! ## Concrete fixtures used by witnesses and counterexamples -/

/-- RPC oracle that always succeeds. -/
def orcZero : Oracle := fun _ _ => 0

/-- Two-node cluster, `GS_NODE` granularity (the physical-resource
table is empty for node/socket granularity, as `_load_phys_res_cnt`
returns early). -/
def cfgNodeT : GsConfig :=
  { gr := GrType.node, cpus_per_res := [], cpu_count_reps := [],
    node_count := 2, sockets_of := fun _ => 1, cpus_of := fun _ => 1,
    cores_of := fun _ => 1, cores_on := fun _ _ _ => 0, resmap_size := 2 }

/-- One node with two sockets of four cores, `GS_CORE` granularity:
run-length table is one run of capacity 4 covering 2 bits. -/
def cfgCoreT : GsConfig :=
  { gr := GrType.core, cpus_per_res := [4], cpu_count_reps := [2],
    node_count := 1, sockets_of := fun _ => 2, cpus_of := fun _ => 8,
    cores_of := fun _ => 4, cores_on := fun _ _ _ => 0, resmap_size := 2 }

/-! ## C8 -/

/-- C8: for every bit index `i` covered by the run-length capacity
table, `_get_phys_res_cnt` returns the capacity `cap_k` of the unique
run `k` whose repetition prefix sum first strictly exceeds `i`. -/
theorem c8_cap_lookup :
    ∀ (k : Nat) (caps reps : List Nat) (i : Nat),
      (reps.take k).sum ≤ i → i < (reps.take (k + 1)).sum →
      getPhysResCnt caps reps i = caps.getD k 0 := by
  intro k
  induction k with
  | zero =>
    intro caps reps i h1 h2
    cases reps with
    | nil => simp at h2
    | cons r rs =>
      cases caps with
      | nil => simp [getPhysResCnt]
      | cons c cs =>
        simp only [List.take_succ_cons, List.take_zero, List.sum_cons,
          List.sum_nil, Nat.add_zero] at h2
        simp [getPhysResCnt, h2]
  | succ k ih =>
    intro caps reps i h1 h2
    cases reps with
    | nil => simp at h2
    | cons r rs =>
      cases caps with
      | nil => simp [getPhysResCnt]
      | cons c cs =>
        simp only [List.take_succ_cons, List.sum_cons] at h1 h2
        have hge : ¬ i < r := by omega
        rw [getPhysResCnt, if_neg hge]
        have := ih cs rs (i - r) (by omega) (by omega)
        simpa [List.getD_cons_succ] using this

/-- C8 witness: table `caps = [4, 2]`, `reps = [3, 5]`; bit 6 lies in
the second run, so the capacity is 2. -/
theorem c8_cap_lookup_witness :
    (([3, 5] : List Nat).take 1).sum ≤ 6 ∧
    6 < (([3, 5] : List Nat).take 2).sum ∧
    getPhysResCnt [4, 2] [3, 5] 6 = 2 :=
  ⟨by decide, by decide,
    c8_cap_lookup 1 [4, 2] [3, 5] 6 (by decide) (by decide)⟩

/-! ## C9 -/

/-- C9 (implicit): removing a job id that is not present in the
partition (including id 0, and including a NULL partition pointer)
leaves the partition, the other partitions, the shadow lists and the
active row untouched, and emits no signal. -/
theorem c9_remove_absent_noop (orc : Oracle) (job_id : Nat) (q : GsPart)
    (os : List GsPart)
    (h : job_id = 0 ∨ findJobIndex q job_id = none) :
    removeJobFromPart orc job_id q os = ⟨q, os, [], []⟩
    ∧ removeJobOpt orc job_id none = (none, [], []) := by
  constructor
  · rcases h with h | h
    · simp [removeJobFromPart, h]
    · by_cases h0 : job_id = 0
      · simp [removeJobFromPart, h0]
      · simp [removeJobFromPart, h0, h]
  · rfl

/-- C9 witness: a partition holding job 5; removing absent id 7 is a
no-op. -/
theorem c9_remove_absent_noop_witness :
    (7 = 0 ∨ findJobIndex
        ⟨"p", 1, [⟨5, SigState.resume, RowState.filler, [true], none⟩],
          [], 1, some [true], none⟩ 7 = none)
    ∧ removeJobFromPart orcZero 7
        ⟨"p", 1, [⟨5, SigState.resume, RowState.filler, [true], none⟩],
          [], 1, some [true], none⟩ []
      = ⟨⟨"p", 1, [⟨5, SigState.resume, RowState.filler, [true], none⟩],
          [], 1, some [true], none⟩, [], [], []⟩ :=
  ⟨Or.inr (by decide),
    (c9_remove_absent_noop orcZero 7 _ [] (Or.inr (by decide))).1⟩

/-! ## C10 -/

/-- C10 (implicit): at Core/CPU granularity, with a non-empty active
row and a genuine resmap overlap, a missing (NULL) CPU vector on
either side makes `_job_fits_in_active_row` reject the job instead of
attempting the per-bit sum check. -/
theorem c10_null_cpu_vectors_reject (cfg : GsConfig) (j : GsJob)
    (q : GsPart) (act : List Bool)
    (hgr : cfg.gr = GrType.core ∨ cfg.gr = GrType.cpu)
    (hact : q.active_resmap = some act)
    (hja : q.jobs_active ≠ 0)
    (hov : popcount (bitAnd j.resmap act) ≠ 0)
    (hnull : q.active_cpus = none ∨ j.alloc_cpus = none) :
    jobFitsInActiveRow cfg j q = false := by
  have hns : ¬ (cfg.gr = GrType.node ∨ cfg.gr = GrType.socket) := by
    rcases hgr with h | h
    · rw [h]
      intro hc
      rcases hc with hc | hc
      · cases hc
      · cases hc
    · rw [h]
      intro hc
      rcases hc with hc | hc
      · cases hc
      · cases hc
  simp only [jobFitsInActiveRow, hact, hja, if_neg hja, if_neg hov,
    if_neg hns]
  rcases hnull with h | h
  · simp [canCpusFit, h]
  · simp only [canCpusFit, h]
    cases q.active_cpus
    · rfl
    · rfl

/-- C10 witness: core granularity, both CPU vectors NULL, overlapping
single-bit resmaps. -/
theorem c10_null_cpu_vectors_reject_witness :
    jobFitsInActiveRow cfgCoreT
      ⟨9, SigState.resume, RowState.noActive, [true, false], none⟩
      ⟨"p", 1, [], [], 1, some [true, false], none⟩ = false :=
  c10_null_cpu_vectors_reject cfgCoreT _ _ [true, false]
    (Or.inl rfl) rfl (by decide) (by decide) (Or.inr rfl)

/-! ## C3 -/

/-- C3: full characterization of `_job_fits_in_active_row`: true when
the active resmap is absent or the run count is zero; true when the
job's resmap shares no set bit with the active resmap; false on any
overlap at Node/Socket granularity; and at Core/CPU granularity (with
both CPU vectors present) true exactly when every shared bit `i`
satisfies `active_cpus[i] + alloc_cpus[a(i)] ≤ cap(i)`, where `a(i)`
counts the set bits of the job's resmap strictly below `i`. -/
theorem c3_fits_characterization (cfg : GsConfig) (j : GsJob) (q : GsPart) :
    (q.active_resmap = none ∨ q.jobs_active = 0 →
      jobFitsInActiveRow cfg j q = true)
    ∧ ∀ act, q.active_resmap = some act → q.jobs_active ≠ 0 →
        ((popcount (bitAnd j.resmap act) = 0 →
            jobFitsInActiveRow cfg j q = true)
        ∧ ((cfg.gr = GrType.node ∨ cfg.gr = GrType.socket) →
            popcount (bitAnd j.resmap act) ≠ 0 →
            jobFitsInActiveRow cfg j q = false)
        ∧ ∀ pc jc, (cfg.gr = GrType.core ∨ cfg.gr = GrType.cpu) →
            q.active_cpus = some pc → j.alloc_cpus = some jc →
            popcount (bitAnd j.resmap act) ≠ 0 →
            (jobFitsInActiveRow cfg j q = true ↔
              ∀ i, i < (bitAnd j.resmap act).length →
                (bitAnd j.resmap act).getD i false = true →
                pc.getD i 0 + jc.getD (alignIdx j.resmap i) 0 ≤
                  getPhysResCnt cfg.cpus_per_res cfg.cpu_count_reps i)) := by
  constructor
  · intro h
    rcases h with h | h
    · simp [jobFitsInActiveRow, h]
    · cases hact : q.active_resmap with
      | none => simp [jobFitsInActiveRow, hact]
      | some act => simp [jobFitsInActiveRow, hact, h]
  · intro act hact hja
    refine ⟨?_, ?_, ?_⟩
    · intro hov
      simp [jobFitsInActiveRow, hact, hja, hov]
    · intro hgr hov
      simp [jobFitsInActiveRow, hact, hja, hov, hgr]
    · intro pc jc hgr hpc hjc hov
      have hns : ¬ (cfg.gr = GrType.node ∨ cfg.gr = GrType.socket) := by
        rcases hgr with h | h
        · rw [h]
          rintro (hc | hc)
          · cases hc
          · cases hc
        · rw [h]
          rintro (hc | hc)
          · cases hc
          · cases hc
      simp only [jobFitsInActiveRow, hact, if_neg hja, if_neg hov,
        if_neg hns]
      rw [canCpusFit, hpc, hjc]
      rw [canCpusFitAux_true_iff]
      constructor
      · intro h i hlt hbit
        have := h i hlt (by simpa using hbit)
        rw [countSet_from_zero] at this
        simpa using this
      · intro h m hlt hbit
        have := h m hlt (by simpa using hbit)
        rw [countSet_from_zero]
        simpa using this

/-- C3 witness: core granularity, one socket of capacity 4 shared;
the active row holds 2 CPUs on the shared socket and the job wants 2,
so the characterization instance yields a successful fit. -/
theorem c3_fits_characterization_witness :
    jobFitsInActiveRow cfgCoreT
      ⟨9, SigState.resume, RowState.noActive, [true, false], some [2]⟩
      ⟨"p", 1, [], [], 1, some [true, false], some [2, 0]⟩ = true :=
  ((c3_fits_characterization cfgCoreT
      ⟨9, SigState.resume, RowState.noActive, [true, false], some [2]⟩
      ⟨"p", 1, [], [], 1, some [true, false], some [2, 0]⟩).2
    [true, false] rfl (by decide)).2.2 [2, 0] [2]
    (Or.inl rfl) rfl rfl (by decide) |>.mpr (by decide)

/-! ## C1 (scenario S1) -/

/-- Look up the signal state of job `id` across the partition list
(`GS_RESUME` = Running, `GS_SUSPEND` = Suspended). -/
def sigOf (ps : List GsPart) (id : Nat) : Option SigState :=
  (((ps.map (fun p => p.job_list)).flatten).find?
    (fun j => j.job_id == id)).map (fun j => j.sig_state)

/-- Scenario S1: two nodes, one partition, Node granularity. -/
def partS1 : GsPart := ⟨"p", 1, [], [], 0, none, none⟩

/-- State after `gs_job_start` of job A (id 1) on node set `{n0}`. -/
def s1AfterA : List GsPart :=
  (jobStart cfgNodeT orcZero [partS1] "p" 1 [true, false]).1

/-- State after `gs_job_start` of job B (id 2), also on `{n0}`. -/
def s1AfterB : List GsPart :=
  (jobStart cfgNodeT orcZero s1AfterA "p" 2 [true, false]).1

/-- State after one timeslicer tick (which cycles the partition, since
`jobs_active = 1 < 2` jobs). -/
def s1Tick1 : List GsPart := (timeslicerTick cfgNodeT orcZero s1AfterB).1

/-- State after a second tick. -/
def s1Tick2 : List GsPart := (timeslicerTick cfgNodeT orcZero s1Tick1).1

/-- C1 counterexample: in scenario S1 the part of the claim about the
state after one cycle is false.  Job A is seated by `_add_job_to_part`
as a `GS_FILLER`, and `_cycle_job_list` moves only `GS_ACTIVE` jobs to
the back of the list, so after one cycle A is re-seated first (now as
`GS_ACTIVE`) and is still Running, while B is still Suspended — not
the other way around as the claim states. -/
theorem c1_one_cycle_counterexample :
    sigOf s1AfterB 1 = some SigState.resume
    ∧ sigOf s1AfterB 2 = some SigState.suspend
    ∧ sigOf s1Tick1 1 = some SigState.resume
    ∧ sigOf s1Tick1 2 = some SigState.suspend
    ∧ ¬ (sigOf s1Tick1 2 = some SigState.resume
          ∧ sigOf s1Tick1 1 = some SigState.suspend) := by
  decide

/-- C1 amended: after `job_start(A)` then `job_start(B)`, A is Running
and B is Suspended (as claimed); after one cycle of the partition A is
still Running — now seated as `GS_ACTIVE` — and B still Suspended
(fillers do not rotate); after a second cycle B is Running and A is
Suspended. -/
theorem c1_amended_two_cycles :
    sigOf s1AfterB 1 = some SigState.resume
    ∧ sigOf s1AfterB 2 = some SigState.suspend
    ∧ sigOf s1Tick1 1 = some SigState.resume
    ∧ sigOf s1Tick1 2 = some SigState.suspend
    ∧ sigOf s1Tick2 2 = some SigState.resume
    ∧ sigOf s1Tick2 1 = some SigState.suspend := by
  decide

/-! ## C5 counterexample -/

/-- A single Core-granularity partition (capacity 4 per socket, two
sockets): job 2 is suspended and unseated, job 1 is a running filler;
each job's allocation (5 cores) exceeds the physical capacity of its
socket, which the overwrite branch of `_add_job_to_active` stores
unclamped while the accumulate branch clamps. -/
def c5Part : GsPart :=
  ⟨"p", 1,
    [⟨2, SigState.suspend, RowState.noActive, [false, true], some [5]⟩,
     ⟨1, SigState.resume, RowState.filler, [true, false], some [5]⟩],
    [], 1, none, none⟩

def c5Once : List GsPart := (updateAllActiveRows cfgCoreT orcZero [c5Part]).1

def c5Twice : List GsPart := (updateAllActiveRows cfgCoreT orcZero c5Once).1

/-- C5 counterexample: `_update_all_active_rows` is not idempotent.
After the first rebuild job 2 is admitted in the final (new-job) pass,
so the active CPU vector is built seating job 1 first (`[5, 4]`, the
second entry clamped).  The second rebuild seats both as fillers in
job-list order, job 2 first, giving `[4, 5]` — a different state. -/
theorem c5_rebuild_all_not_idempotent :
    c5Twice ≠ c5Once
    ∧ (c5Once.getD 0 default).active_cpus = some [5, 4]
    ∧ (c5Twice.getD 0 default).active_cpus = some [4, 5] := by
  decide

/-! ## C2 counterexample -/

/-- A partition with one shadow and no jobs. -/
def c2Part : GsPart :=
  ⟨"low", 1, [], [⟨7, [true, false], none⟩], 1, some [true, false], none⟩

/-- Number of jobs whose `row_state` is `GS_ACTIVE` or `GS_FILLER`. -/
def countRow (s : RowState) (js : List GsJob) : Nat :=
  js.countP (fun j => j.row_state == s)

def countSeated (js : List GsJob) : Nat :=
  countRow RowState.active js + countRow RowState.filler js

/-- C2 counterexample: after `_cycle_job_list` on a partition with one
shadow and zero jobs, `jobs_active` is 0 (the early return in
`_build_active_row` precedes the shadow loop), so the claimed equality
`active.count = seated + |shadows|` fails: `0 ≠ 0 + 1`. -/
theorem c2_cycle_shadows_only_counterexample :
    ¬ ((cycleJobList cfgNodeT orcZero c2Part []).q.jobs_active =
        countSeated (cycleJobList cfgNodeT orcZero c2Part []).q.job_list +
        (cycleJobList cfgNodeT orcZero c2Part []).q.shadows.length) := by
  decide

/-! ## Field-preservation helper lemmas -/

theorem addJobToActive_jobs_active (cfg : GsConfig) (r : ShadowRef)
    (p : GsPart) : (addJobToActive cfg r p).jobs_active = p.jobs_active + 1 := by
  unfold addJobToActive
  repeat' split
  all_goals rfl

theorem addJobToActive_shadows (cfg : GsConfig) (r : ShadowRef) (p : GsPart) :
    (addJobToActive cfg r p).shadows = p.shadows := by
  unfold addJobToActive
  repeat' split
  all_goals rfl

theorem addJobToActive_priority (cfg : GsConfig) (r : ShadowRef) (p : GsPart) :
    (addJobToActive cfg r p).priority = p.priority := by
  unfold addJobToActive
  repeat' split
  all_goals rfl

theorem addJobToActive_job_list (cfg : GsConfig) (r : ShadowRef) (p : GsPart) :
    (addJobToActive cfg r p).job_list = p.job_list := by
  unfold addJobToActive
  repeat' split
  all_goals rfl

theorem castShadowPart_self (r : ShadowRef) (p : GsPart) :
    castShadowPart r p.priority p = p := by
  simp [castShadowPart]

theorem clearShadowPart_absent (r : ShadowRef) (p : GsPart)
    (h : shadowHasId p r.job_id = false) : clearShadowPart r p = p := by
  simp [clearShadowPart, h]

theorem shadowHasId_congr {p p' : GsPart} (h : p.shadows = p'.shadows)
    (id : Nat) : shadowHasId p id = shadowHasId p' id := by
  simp [shadowHasId, h]

theorem toRef_job_id (j : GsJob) : j.toRef.job_id = j.job_id := rfl

/-- The shadow loop adds one run per shadow and touches no other
bookkeeping field. -/
theorem shadowFold_spec (cfg : GsConfig) (l : List ShadowRef) :
    ∀ q : GsPart,
      ((l.foldl (fun acc s => addJobToActive cfg s acc) q).jobs_active =
          q.jobs_active + l.length)
      ∧ (l.foldl (fun acc s => addJobToActive cfg s acc) q).shadows = q.shadows
      ∧ (l.foldl (fun acc s => addJobToActive cfg s acc) q).priority = q.priority
      ∧ (l.foldl (fun acc s => addJobToActive cfg s acc) q).job_list = q.job_list := by
  induction l with
  | nil => intro q; simp
  | cons s rest ih =>
    intro q
    simp only [List.foldl_cons]
    have h := ih (addJobToActive cfg s q)
    refine ⟨?_, ?_, ?_, ?_⟩
    · rw [h.1, addJobToActive_jobs_active]
      simp only [List.length_cons]
      omega
    · rw [h.2.1, addJobToActive_shadows]
    · rw [h.2.2.1, addJobToActive_priority]
    · rw [h.2.2.2, addJobToActive_job_list]

theorem shadowPhase_spec (cfg : GsConfig) (q : GsPart) :
    (shadowPhase cfg q).jobs_active = q.jobs_active + q.shadows.length
    ∧ (shadowPhase cfg q).shadows = q.shadows
    ∧ (shadowPhase cfg q).priority = q.priority
    ∧ (shadowPhase cfg q).job_list = q.job_list :=
  shadowFold_spec cfg q.shadows q
theorem countRow_cons (s : RowState) (j : GsJob) (l : List GsJob) :
    countRow s (j :: l) = countRow s l + (if j.row_state = s then 1 else 0) := by
  simp [countRow, List.countP_cons]

theorem seatPass_spec (cfg : GsConfig) (orc : Oracle) (target : RowState)
    (hT : target ≠ RowState.noActive) :
    ∀ (todo : List GsJob) (q : GsPart) (os : List GsPart),
      (∀ j ∈ todo, shadowHasId q j.job_id = false) →
      ((seatPass cfg orc target todo q os).q.jobs_active =
          q.jobs_active + countRow target (seatPass cfg orc target todo q os).jobs)
      ∧ (seatPass cfg orc target todo q os).q.shadows = q.shadows
      ∧ (seatPass cfg orc target todo q os).q.priority = q.priority
      ∧ (∀ s, s ≠ target → s ≠ RowState.noActive →
          countRow s (seatPass cfg orc target todo q os).jobs = countRow s todo)
      ∧ (seatPass cfg orc target todo q os).jobs.map (fun j => j.job_id) =
          todo.map (fun j => j.job_id) := by
  intro todo
  induction todo with
  | nil =>
    intro q os hAbs
    simp [seatPass, countRow]
  | cons j rest ih =>
    intro q os hAbs
    rw [seatPass]
    by_cases h1 : j.row_state = target
    · rw [if_pos h1]
      by_cases h2 : jobFitsInActiveRow cfg j q = true
      · rw [if_pos h2]
        simp only [castShadowAll, castShadowPart_self]
        have hsh : (addJobToActive cfg j.toRef q).shadows = q.shadows :=
          addJobToActive_shadows cfg j.toRef q
        have hyp' : ∀ x ∈ rest,
            shadowHasId (addJobToActive cfg j.toRef q) x.job_id = false := by
          intro x hx
          rw [shadowHasId_congr hsh]
          exact hAbs x (List.mem_cons_of_mem _ hx)
        have IH := ih (addJobToActive cfg j.toRef q)
          (os.map (castShadowPart j.toRef (addJobToActive cfg j.toRef q).priority))
          hyp'
        refine ⟨?_, ?_, ?_, ?_, ?_⟩
        · rw [IH.1, countRow_cons, if_pos h1, addJobToActive_jobs_active]
          omega
        · rw [IH.2.1, hsh]
        · rw [IH.2.2.1, addJobToActive_priority]
        · intro s hs1 hs2
          rw [countRow_cons, IH.2.2.2.1 s hs1 hs2, countRow_cons]
        · simp only [List.map_cons, IH.2.2.2.2]
      · rw [if_neg h2]
        by_cases h3 : j.sig_state ≠ SigState.suspend
        · rw [if_pos h3]
          simp only [clearShadowAll]
          have habs0 : shadowHasId q j.toRef.job_id = false := by
            rw [toRef_job_id]
            exact hAbs j (List.mem_cons_self j rest)
          rw [clearShadowPart_absent j.toRef q habs0]
          have IH := ih q (os.map (clearShadowPart j.toRef))
            (fun x hx => hAbs x (List.mem_cons_of_mem _ hx))
          refine ⟨?_, IH.2.1, IH.2.2.1, ?_, ?_⟩
          · rw [IH.1, countRow_cons]
            have : ¬ (RowState.noActive = target) := fun hc => hT hc.symm
            rw [if_neg this]
            omega
          · intro s hs1 hs2
            rw [countRow_cons, IH.2.2.2.1 s hs1 hs2, countRow_cons]
            have hj1 : ¬ (RowState.noActive = s) := fun hc => hs2 hc.symm
            have hj : ¬ j.row_state = s := by rw [h1]; exact fun hc => hs1 hc.symm
            rw [if_neg hj1, if_neg hj]
          · simp only [List.map_cons, IH.2.2.2.2]
        · rw [if_neg h3]
          have IH := ih q os (fun x hx => hAbs x (List.mem_cons_of_mem _ hx))
          refine ⟨?_, IH.2.1, IH.2.2.1, ?_, ?_⟩
          · rw [IH.1, countRow_cons]
            have : ¬ (RowState.noActive = target) := fun hc => hT hc.symm
            rw [if_neg this]
            omega
          · intro s hs1 hs2
            rw [countRow_cons, IH.2.2.2.1 s hs1 hs2, countRow_cons]
            have hj1 : ¬ (RowState.noActive = s) := fun hc => hs2 hc.symm
            have hj : ¬ j.row_state = s := by rw [h1]; exact fun hc => hs1 hc.symm
            rw [if_neg hj1, if_neg hj]
          · simp only [List.map_cons, IH.2.2.2.2]
    · rw [if_neg h1]
      have IH := ih q os (fun x hx => hAbs x (List.mem_cons_of_mem _ hx))
      refine ⟨?_, IH.2.1, IH.2.2.1, ?_, ?_⟩
      · rw [IH.1, countRow_cons, if_neg h1]
        omega
      · intro s hs1 hs2
        rw [countRow_cons, IH.2.2.2.1 s hs1 hs2, countRow_cons]
      · simp only [List.map_cons, IH.2.2.2.2]

theorem newPass_spec (cfg : GsConfig) (orc : Oracle) :
    ∀ (todo : List GsJob) (q : GsPart) (os : List GsPart),
      ((newPass cfg orc todo q os).q.jobs_active +
          countRow RowState.filler todo =
        q.jobs_active + countRow RowState.filler (newPass cfg orc todo q os).jobs)
      ∧ (newPass cfg orc todo q os).q.shadows = q.shadows
      ∧ (newPass cfg orc todo q os).q.priority = q.priority
      ∧ countRow RowState.active (newPass cfg orc todo q os).jobs =
          countRow RowState.active todo
      ∧ (newPass cfg orc todo q os).jobs.map (fun j => j.job_id) =
          todo.map (fun j => j.job_id) := by
  intro todo
  induction todo with
  | nil =>
    intro q os
    simp [newPass, countRow]
  | cons j rest ih =>
    intro q os
    rw [newPass]
    by_cases h1 : j.row_state = RowState.noActive
    · rw [if_pos h1]
      by_cases h2 : jobFitsInActiveRow cfg j q = true
      · rw [if_pos h2]
        simp only [castShadowAll, castShadowPart_self]
        have hsh : (addJobToActive cfg j.toRef q).shadows = q.shadows :=
          addJobToActive_shadows cfg j.toRef q
        have IH := ih (addJobToActive cfg j.toRef q)
          (os.map (castShadowPart j.toRef (addJobToActive cfg j.toRef q).priority))
        have e1 := IH.1
        rw [addJobToActive_jobs_active] at e1
        by_cases h3 : j.sig_state = SigState.suspend
        · rw [if_pos h3]
          refine ⟨?_, ?_, ?_, ?_, ?_⟩
          · try dsimp only
            simp only [countRow_cons]
            simp [h1]
            omega
          · rw [IH.2.1, hsh]
          · rw [IH.2.2.1, addJobToActive_priority]
          · try dsimp only
            simp only [countRow_cons, IH.2.2.2.1]
            simp [h1]
          · simp only [List.map_cons, IH.2.2.2.2]
        · rw [if_neg h3]
          refine ⟨?_, ?_, ?_, ?_, ?_⟩
          · try dsimp only
            simp only [countRow_cons]
            simp [h1]
            omega
          · rw [IH.2.1, hsh]
          · rw [IH.2.2.1, addJobToActive_priority]
          · try dsimp only
            simp only [countRow_cons, IH.2.2.2.1]
            simp [h1]
          · simp only [List.map_cons, IH.2.2.2.2]
      · rw [if_neg h2]
        have IH := ih q os
        have e1 := IH.1
        refine ⟨?_, IH.2.1, IH.2.2.1, ?_, ?_⟩
        · try dsimp only
          simp only [countRow_cons]
          simp [h1]
          omega
        · try dsimp only
          simp only [countRow_cons, IH.2.2.2.1]
        · simp only [List.map_cons, IH.2.2.2.2]
    · rw [if_neg h1]
      have IH := ih q os
      have e1 := IH.1
      refine ⟨?_, IH.2.1, IH.2.2.1, ?_, ?_⟩
      · try dsimp only
        simp only [countRow_cons]
        omega
      · try dsimp only
        simp only [countRow_cons, IH.2.2.2.1]
      · simp only [List.map_cons, IH.2.2.2.2]

theorem buildJobsPass_spec (cfg : GsConfig) :
    ∀ (todo : List GsJob) (q : GsPart),
      (∀ j ∈ todo, j.row_state = RowState.noActive) →
      ((buildJobsPass cfg todo q).2.jobs_active =
          q.jobs_active + countRow RowState.active (buildJobsPass cfg todo q).1)
      ∧ (buildJobsPass cfg todo q).2.shadows = q.shadows
      ∧ (buildJobsPass cfg todo q).2.priority = q.priority
      ∧ countRow RowState.filler (buildJobsPass cfg todo q).1 = 0
      ∧ (buildJobsPass cfg todo q).1.map (fun j => j.job_id) =
          todo.map (fun j => j.job_id) := by
  intro todo
  induction todo with
  | nil =>
    intro q hND
    simp [buildJobsPass, countRow]
  | cons j rest ih =>
    intro q hND
    rw [buildJobsPass]
    by_cases h2 : jobFitsInActiveRow cfg j q = true
    · rw [if_pos h2]
      have IH := ih (addJobToActive cfg j.toRef q)
        (fun x hx => hND x (List.mem_cons_of_mem _ hx))
      have e1 := IH.1
      rw [addJobToActive_jobs_active] at e1
      refine ⟨?_, ?_, ?_, ?_, ?_⟩
      · try dsimp only
        simp only [countRow_cons]
        simp
        omega
      · rw [IH.2.1, addJobToActive_shadows]
      · rw [IH.2.2.1, addJobToActive_priority]
      · try dsimp only
        simp only [countRow_cons, IH.2.2.2.1]
        simp
      · simp only [List.map_cons, IH.2.2.2.2]
    · rw [if_neg h2]
      have IH := ih q (fun x hx => hND x (List.mem_cons_of_mem _ hx))
      have e1 := IH.1
      have h1 := hND j (List.mem_cons_self j rest)
      refine ⟨?_, IH.2.1, IH.2.2.1, ?_, ?_⟩
      · try dsimp only
        simp only [countRow_cons]
        simp [h1]
        omega
      · try dsimp only
        simp only [countRow_cons, IH.2.2.2.1]
        simp [h1]
      · simp only [List.map_cons, IH.2.2.2.2]

theorem cycleReorderAux_spec :
    ∀ (l moved : List GsJob),
      (∀ j ∈ moved, j.row_state = RowState.noActive) →
      (∀ j ∈ cycleReorderAux l moved, j.row_state = RowState.noActive)
      ∧ (∀ j ∈ cycleReorderAux l moved,
          j.job_id ∈ l.map (fun x => x.job_id)
          ∨ j.job_id ∈ moved.map (fun x => x.job_id))
      ∧ (cycleReorderAux l moved).length = l.length + moved.length := by
  intro l
  induction l with
  | nil =>
    intro moved hM
    refine ⟨?_, ?_, ?_⟩
    · intro j hj
      exact hM j hj
    · intro j hj
      exact Or.inr (List.mem_map_of_mem _ hj)
    · simp [cycleReorderAux]
  | cons j rest ih =>
    intro moved hM
    rw [cycleReorderAux]
    by_cases h1 : j.row_state = RowState.active
    · rw [if_pos h1]
      have hM' : ∀ x ∈ moved ++ [{ j with row_state := RowState.noActive }],
          x.row_state = RowState.noActive := by
        intro x hx
        rcases List.mem_append.1 hx with hx | hx
        · exact hM x hx
        · rcases List.mem_singleton.1 hx with rfl
          rfl
      have IH := ih (moved ++ [{ j with row_state := RowState.noActive }]) hM'
      refine ⟨IH.1, ?_, ?_⟩
      · intro x hx
        rcases IH.2.1 x hx with h | h
        · exact Or.inl (List.mem_cons_of_mem _ h)
        · rw [List.map_append] at h
          rcases List.mem_append.1 h with h | h
          · exact Or.inr h
          · simp only [List.map_cons, List.map_nil, List.mem_singleton] at h
            exact Or.inl (by simp [h])
      · rw [IH.2.2]
        simp
        omega
    · rw [if_neg h1]
      by_cases h2 : j.row_state = RowState.filler
      · rw [if_pos h2]
        have IH := ih moved hM
        refine ⟨?_, ?_, ?_⟩
        · intro x hx
          rcases List.mem_cons.1 hx with rfl | hx
          · rfl
          · exact IH.1 x hx
        · intro x hx
          rcases List.mem_cons.1 hx with rfl | hx
          · exact Or.inl (by simp)
          · rcases IH.2.1 x hx with h | h
            · exact Or.inl (List.mem_cons_of_mem _ h)
            · exact Or.inr h
        · simp [IH.2.2]
          omega
      · rw [if_neg h2]
        have IH := ih moved hM
        have h0 : j.row_state = RowState.noActive := by
          cases h : j.row_state
          · rfl
          · exact absurd h h1
          · exact absurd h h2
        refine ⟨?_, ?_, ?_⟩
        · intro x hx
          rcases List.mem_cons.1 hx with rfl | hx
          · exact h0
          · exact IH.1 x hx
        · intro x hx
          rcases List.mem_cons.1 hx with rfl | hx
          · exact Or.inl (by simp)
          · rcases IH.2.1 x hx with h | h
            · exact Or.inl (List.mem_cons_of_mem _ h)
            · exact Or.inr h
        · simp [IH.2.2]
          omega

theorem cycleSuspendPass_spec (orc : Oracle) :
    ∀ (todo : List GsJob) (q : GsPart) (os : List GsPart),
      (∀ j ∈ todo, shadowHasId q j.job_id = false) →
      (cycleSuspendPass orc todo q os).q = q
      ∧ (∀ s, countRow s (cycleSuspendPass orc todo q os).jobs =
          countRow s todo)
      ∧ (cycleSuspendPass orc todo q os).jobs.map (fun j => j.job_id) =
          todo.map (fun j => j.job_id) := by
  intro todo
  induction todo with
  | nil =>
    intro q os hAbs
    exact ⟨rfl, fun s => rfl, rfl⟩
  | cons j rest ih =>
    intro q os hAbs
    rw [cycleSuspendPass]
    by_cases h1 : j.row_state = RowState.noActive ∧ j.sig_state = SigState.resume
    · rw [if_pos h1]
      simp only [clearShadowAll]
      have habs0 : shadowHasId q j.toRef.job_id = false := by
        rw [toRef_job_id]
        exact hAbs j (List.mem_cons_self j rest)
      rw [clearShadowPart_absent j.toRef q habs0]
      have IH := ih q (os.map (clearShadowPart j.toRef))
        (fun x hx => hAbs x (List.mem_cons_of_mem _ hx))
      refine ⟨IH.1, ?_, ?_⟩
      · intro s
        try dsimp only
        simp only [countRow_cons, IH.2.1]
      · simp only [List.map_cons, IH.2.2]
    · rw [if_neg h1]
      have IH := ih q os (fun x hx => hAbs x (List.mem_cons_of_mem _ hx))
      refine ⟨IH.1, ?_, ?_⟩
      · intro s
        try dsimp only
        simp only [countRow_cons, IH.2.1]
      · simp only [List.map_cons, IH.2.2]

theorem cycleResumePass_spec (orc : Oracle) :
    ∀ (todo : List GsJob) (q : GsPart) (os : List GsPart),
      (cycleResumePass orc todo q os).q = q
      ∧ (∀ s, countRow s (cycleResumePass orc todo q os).jobs =
          countRow s todo)
      ∧ (cycleResumePass orc todo q os).jobs.map (fun j => j.job_id) =
          todo.map (fun j => j.job_id) := by
  intro todo
  induction todo with
  | nil =>
    intro q os
    exact ⟨rfl, fun s => rfl, rfl⟩
  | cons j rest ih =>
    intro q os
    rw [cycleResumePass]
    by_cases h1 : j.row_state = RowState.active ∧ j.sig_state = SigState.suspend
    · rw [if_pos h1]
      simp only [castShadowAll, castShadowPart_self]
      have IH := ih q (os.map (castShadowPart j.toRef q.priority))
      refine ⟨IH.1, ?_, ?_⟩
      · intro s
        try dsimp only
        simp only [countRow_cons, IH.2.1]
      · simp only [List.map_cons, IH.2.2]
    · rw [if_neg h1]
      have IH := ih q os
      refine ⟨IH.1, ?_, ?_⟩
      · intro s
        try dsimp only
        simp only [countRow_cons, IH.2.1]
      · simp only [List.map_cons, IH.2.2]

theorem absent_transport {q q' : GsPart} (hsh : q'.shadows = q.shadows)
    {l l' : List GsJob}
    (hid : l'.map (fun j => j.job_id) = l.map (fun j => j.job_id))
    (H : ∀ j ∈ l, shadowHasId q j.job_id = false) :
    ∀ j ∈ l', shadowHasId q' j.job_id = false := by
  intro j hj
  have hm : j.job_id ∈ l'.map (fun j => j.job_id) := List.mem_map_of_mem _ hj
  rw [hid] at hm
  rcases List.mem_map.1 hm with ⟨j', hj', he⟩
  rw [shadowHasId_congr hsh, ← he]
  exact H j' hj'

theorem updateActiveRow_count (cfg : GsConfig) (orc : Oracle)
    (addNewJobs : Bool) (q : GsPart) (os : List GsPart)
    (H : ∀ j ∈ q.job_list, shadowHasId q j.job_id = false) :
    (updateActiveRow cfg orc addNewJobs q os).q.jobs_active =
      countSeated (updateActiveRow cfg orc addNewJobs q os).q.job_list +
      (updateActiveRow cfg orc addNewJobs q os).q.shadows.length := by
  have SPs := shadowPhase_spec cfg { q with jobs_active := 0 }
  have hA : ∀ j ∈ q.job_list,
      shadowHasId (shadowPhase cfg { q with jobs_active := 0 }) j.job_id
        = false :=
    absent_transport SPs.2.1 rfl H
  have SA := seatPass_spec cfg orc RowState.active (by decide) q.job_list
    (shadowPhase cfg { q with jobs_active := 0 }) os hA
  have hF : ∀ j ∈ (seatPass cfg orc RowState.active q.job_list
        (shadowPhase cfg { q with jobs_active := 0 }) os).jobs,
      shadowHasId (seatPass cfg orc RowState.active q.job_list
        (shadowPhase cfg { q with jobs_active := 0 }) os).q j.job_id
        = false :=
    absent_transport (by rw [SA.2.1, SPs.2.1]) SA.2.2.2.2 H
  have SF := seatPass_spec cfg orc RowState.filler (by decide)
    (seatPass cfg orc RowState.active q.job_list
      (shadowPhase cfg { q with jobs_active := 0 }) os).jobs
    (seatPass cfg orc RowState.active q.job_list
      (shadowPhase cfg { q with jobs_active := 0 }) os).q
    (seatPass cfg orc RowState.active q.job_list
      (shadowPhase cfg { q with jobs_active := 0 }) os).others hF
  cases addNewJobs with
  | false =>
    rw [updateActiveRow]
    simp only [Bool.false_eq_true, if_false]
    have e1 := SF.1
    have e2 := SF.2.1
    have e3 := SF.2.2.2.1 RowState.active (by decide) (by decide)
    have e4 := SA.1
    have e5 := SPs.1
    simp only [countSeated]
    rw [e1, e4, e2, SA.2.1, SPs.2.1, e3]
    try dsimp only at e5 ⊢
    omega
  | true =>
    rw [updateActiveRow]
    simp only [if_true]
    have SN := newPass_spec cfg orc
      (seatPass cfg orc RowState.filler
        (seatPass cfg orc RowState.active q.job_list
          (shadowPhase cfg { q with jobs_active := 0 }) os).jobs
        (seatPass cfg orc RowState.active q.job_list
          (shadowPhase cfg { q with jobs_active := 0 }) os).q
        (seatPass cfg orc RowState.active q.job_list
          (shadowPhase cfg { q with jobs_active := 0 }) os).others).jobs
      (seatPass cfg orc RowState.filler
        (seatPass cfg orc RowState.active q.job_list
          (shadowPhase cfg { q with jobs_active := 0 }) os).jobs
        (seatPass cfg orc RowState.active q.job_list
          (shadowPhase cfg { q with jobs_active := 0 }) os).q
        (seatPass cfg orc RowState.active q.job_list
          (shadowPhase cfg { q with jobs_active := 0 }) os).others).q
      (seatPass cfg orc RowState.filler
        (seatPass cfg orc RowState.active q.job_list
          (shadowPhase cfg { q with jobs_active := 0 }) os).jobs
        (seatPass cfg orc RowState.active q.job_list
          (shadowPhase cfg { q with jobs_active := 0 }) os).q
        (seatPass cfg orc RowState.active q.job_list
          (shadowPhase cfg { q with jobs_active := 0 }) os).others).others
    have n1 := SN.1
    have n2 := SN.2.1
    have n4 := SN.2.2.2.1
    have e1 := SF.1
    have e2 := SF.2.1
    have e3 := SF.2.2.2.1 RowState.active (by decide) (by decide)
    have e4 := SA.1
    have e5 := SPs.1
    simp only [countSeated]
    rw [n2, e2, SA.2.1, SPs.2.1, n4, e3]
    try dsimp only at e5 ⊢
    omega

theorem cycleReorder_noActive (l : List GsJob) :
    ∀ j ∈ cycleReorder l, j.row_state = RowState.noActive :=
  (cycleReorderAux_spec l [] (by intro j hj; cases hj)).1

theorem cycleReorder_id_mem (l : List GsJob) :
    ∀ j ∈ cycleReorder l, j.job_id ∈ l.map (fun x => x.job_id) := by
  intro j hj
  rcases (cycleReorderAux_spec l [] (by intro x hx; cases hx)).2.1 j hj with h | h
  · exact h
  · cases h

theorem cycleReorder_length (l : List GsJob) :
    (cycleReorder l).length = l.length := by
  have h := (cycleReorderAux_spec l [] (by intro x hx; cases hx)).2.2
  simpa using h

theorem buildActiveRow_spec (cfg : GsConfig) (p : GsPart)
    (hND : ∀ j ∈ p.job_list, j.row_state = RowState.noActive) :
    (buildActiveRow cfg p).shadows = p.shadows
    ∧ (buildActiveRow cfg p).job_list.map (fun j => j.job_id) =
        p.job_list.map (fun j => j.job_id)
    ∧ countRow RowState.filler (buildActiveRow cfg p).job_list = 0
    ∧ (buildActiveRow cfg p).jobs_active =
        (if p.job_list.isEmpty then 0
         else p.shadows.length +
           countRow RowState.active (buildActiveRow cfg p).job_list) := by
  rw [buildActiveRow]
  by_cases hE : p.job_list.isEmpty = true
  · rw [if_pos hE, if_pos hE]
    refine ⟨rfl, rfl, ?_, rfl⟩
    dsimp only
    rw [countRow, List.countP_eq_zero]
    intro j hj
    simp [hND j hj]
  · rw [if_neg hE, if_neg hE]
    have SPs := shadowPhase_spec cfg { p with jobs_active := 0 }
    have BJ := buildJobsPass_spec cfg p.job_list
      (shadowPhase cfg { p with jobs_active := 0 }) hND
    refine ⟨?_, ?_, ?_, ?_⟩
    · dsimp only
      rw [BJ.2.1, SPs.2.1]
    · dsimp only
      exact BJ.2.2.2.2
    · dsimp only
      exact BJ.2.2.2.1
    · dsimp only
      rw [BJ.1, SPs.1]
      dsimp only
      omega

theorem cycleJobList_count (cfg : GsConfig) (orc : Oracle) (q : GsPart)
    (os : List GsPart)
    (H : ∀ j ∈ q.job_list, shadowHasId q j.job_id = false) :
    (q.job_list ≠ [] →
      (cycleJobList cfg orc q os).q.jobs_active =
        countSeated (cycleJobList cfg orc q os).q.job_list +
        (cycleJobList cfg orc q os).q.shadows.length)
    ∧ (q.job_list = [] →
      (cycleJobList cfg orc q os).q.jobs_active = 0) := by
  have hND : ∀ j ∈ ({ q with job_list := cycleReorder q.job_list} :
      GsPart).job_list, j.row_state = RowState.noActive :=
    cycleReorder_noActive q.job_list
  have BA := buildActiveRow_spec cfg
    { q with job_list := cycleReorder q.job_list } hND
  have hq2abs : ∀ j ∈ (buildActiveRow cfg
        { q with job_list := cycleReorder q.job_list }).job_list,
      shadowHasId (buildActiveRow cfg
        { q with job_list := cycleReorder q.job_list }) j.job_id = false := by
    intro j hj
    have hm : j.job_id ∈ ((buildActiveRow cfg
        { q with job_list := cycleReorder q.job_list }).job_list).map
          (fun x => x.job_id) := List.mem_map_of_mem _ hj
    rw [BA.2.1] at hm
    rcases List.mem_map.1 hm with ⟨j1, hj1, he1⟩
    rcases List.mem_map.1 (cycleReorder_id_mem q.job_list j1 hj1)
      with ⟨j2, hj2, he2⟩
    rw [shadowHasId_congr BA.1, ← he1, ← he2]
    exact H j2 hj2
  have SUS := cycleSuspendPass_spec orc
    (buildActiveRow cfg { q with job_list := cycleReorder q.job_list }).job_list
    (buildActiveRow cfg { q with job_list := cycleReorder q.job_list }) os
    hq2abs
  have RES := cycleResumePass_spec orc
    (cycleSuspendPass orc
      (buildActiveRow cfg
        { q with job_list := cycleReorder q.job_list }).job_list
      (buildActiveRow cfg { q with job_list := cycleReorder q.job_list })
      os).jobs
    (cycleSuspendPass orc
      (buildActiveRow cfg
        { q with job_list := cycleReorder q.job_list }).job_list
      (buildActiveRow cfg { q with job_list := cycleReorder q.job_list })
      os).q
    (cycleSuspendPass orc
      (buildActiveRow cfg
        { q with job_list := cycleReorder q.job_list }).job_list
      (buildActiveRow cfg { q with job_list := cycleReorder q.job_list })
      os).others
  constructor
  · intro hNE
    have hEm : ¬ (({ q with job_list := cycleReorder q.job_list} :
        GsPart).job_list.isEmpty = true) := by
      dsimp only
      rw [List.isEmpty_iff]
      intro hc
      have := cycleReorder_length q.job_list
      rw [hc] at this
      exact hNE (List.length_eq_zero.1 this.symm)
    rw [cycleJobList]
    dsimp only
    have e4 := BA.2.2.2
    rw [if_neg hEm] at e4
    have cseat : countSeated (cycleResumePass orc
        (cycleSuspendPass orc
          (buildActiveRow cfg
            { q with job_list := cycleReorder q.job_list }).job_list
          (buildActiveRow cfg { q with job_list := cycleReorder q.job_list })
          os).jobs
        (cycleSuspendPass orc
          (buildActiveRow cfg
            { q with job_list := cycleReorder q.job_list }).job_list
          (buildActiveRow cfg { q with job_list := cycleReorder q.job_list })
          os).q
        (cycleSuspendPass orc
          (buildActiveRow cfg
            { q with job_list := cycleReorder q.job_list }).job_list
          (buildActiveRow cfg { q with job_list := cycleReorder q.job_list })
          os).others).jobs =
        countRow RowState.active (buildActiveRow cfg
          { q with job_list := cycleReorder q.job_list }).job_list := by
      rw [countSeated, RES.2.1, RES.2.1, SUS.2.1, SUS.2.1, BA.2.2.1]
      omega
    rw [cseat, RES.1, SUS.1, e4, BA.1]
    dsimp only
    omega
  · intro hE
    rw [cycleJobList]
    rw [hE]
    simp [cycleReorder, cycleReorderAux, buildActiveRow, cycleSuspendPass,
      cycleResumePass]

/-! ## C2 amended theorem -/

/-- C2 amended: the count equality `active.count = |{j : row_state ∈
{Active, Filler}}| + |shadows|` holds for the partition an operation
rebuilt: after `_update_active_row` (either admission flag)
unconditionally, and after `_cycle_job_list` provided the partition
has at least one job; when `_cycle_job_list` runs on a partition with
zero jobs, `jobs_active` is reset to 0 regardless of its shadows (the
early return in `_build_active_row` precedes the shadow loop), so the
claimed equality fails there whenever shadows are present.  The
hypothesis `H` — no job of the partition sits in its own shadow list —
always holds in reachable states, since `_cast_shadow` never casts a
job into its own partition. -/
theorem c2_amended_count_invariant (cfg : GsConfig) (orc : Oracle)
    (addNewJobs : Bool) (q : GsPart) (os : List GsPart)
    (H : ∀ j ∈ q.job_list, shadowHasId q j.job_id = false) :
    ((updateActiveRow cfg orc addNewJobs q os).q.jobs_active =
        countSeated (updateActiveRow cfg orc addNewJobs q os).q.job_list +
        (updateActiveRow cfg orc addNewJobs q os).q.shadows.length)
    ∧ (q.job_list ≠ [] →
        (cycleJobList cfg orc q os).q.jobs_active =
          countSeated (cycleJobList cfg orc q os).q.job_list +
          (cycleJobList cfg orc q os).q.shadows.length)
    ∧ (q.job_list = [] →
        (cycleJobList cfg orc q os).q.jobs_active = 0) :=
  ⟨updateActiveRow_count cfg orc addNewJobs q os H,
    (cycleJobList_count cfg orc q os H).1,
    (cycleJobList_count cfg orc q os H).2⟩

/-- Partition used by the C2 witness: two conflicting jobs, one seated
as a filler, one suspended, no shadows. -/
def c2WPart : GsPart :=
  ⟨"p", 1,
    [⟨1, SigState.resume, RowState.filler, [true, false], none⟩,
     ⟨2, SigState.suspend, RowState.noActive, [true, false], none⟩],
    [], 1, some [true, false], none⟩

/-- C2 witness: the amended invariant evaluated on a concrete
partition. -/
theorem c2_amended_count_invariant_witness :
    (∀ j ∈ c2WPart.job_list, shadowHasId c2WPart j.job_id = false)
    ∧ ((updateActiveRow cfgNodeT orcZero true c2WPart []).q.jobs_active =
        countSeated (updateActiveRow cfgNodeT orcZero true c2WPart []).q.job_list +
        (updateActiveRow cfgNodeT orcZero true c2WPart []).q.shadows.length)
    ∧ (cycleJobList cfgNodeT orcZero c2WPart []).q.jobs_active =
        countSeated (cycleJobList cfgNodeT orcZero c2WPart []).q.job_list +
        (cycleJobList cfgNodeT orcZero c2WPart []).q.shadows.length :=
  ⟨by decide,
    (c2_amended_count_invariant cfgNodeT orcZero true c2WPart [] (by decide)).1,
    (c2_amended_count_invariant cfgNodeT orcZero true c2WPart [] (by decide)).2.1
      (by decide)⟩

theorem selectPass_perm {α : Type} (key : α → Nat) :
    ∀ (l : List α) (cur : α),
      ((selectPass key cur l).1 :: (selectPass key cur l).2).Perm (cur :: l) := by
  intro l
  induction l with
  | nil =>
    intro cur
    exact List.Perm.refl _
  | cons x xs ih =>
    intro cur
    rw [selectPass]
    split
    · exact (List.Perm.swap cur _ _).trans (List.Perm.cons cur (ih x))
    · exact ((List.Perm.swap x _ _).trans
        (List.Perm.cons x (ih cur))).trans (List.Perm.swap _ _ _)

theorem selectPass_max {α : Type} (key : α → Nat) :
    ∀ (l : List α) (cur : α),
      key cur ≤ key (selectPass key cur l).1
      ∧ ∀ y ∈ (selectPass key cur l).2, key y ≤ key (selectPass key cur l).1 := by
  intro l
  induction l with
  | nil =>
    intro cur
    exact ⟨Nat.le_refl _, by intro y hy; cases hy⟩
  | cons x xs ih =>
    intro cur
    rw [selectPass]
    split
    · rename_i hlt
      refine ⟨Nat.le_trans (Nat.le_of_lt hlt) (ih x).1, ?_⟩
      intro y hy
      rcases List.mem_cons.1 hy with rfl | hy
      · exact Nat.le_trans (Nat.le_of_lt hlt) (ih x).1
      · exact (ih x).2 y hy
    · rename_i hge
      refine ⟨(ih cur).1, ?_⟩
      intro y hy
      rcases List.mem_cons.1 hy with rfl | hy
      · exact Nat.le_trans (Nat.le_of_not_lt hge) (ih cur).1
      · exact (ih cur).2 y hy

theorem exchangeSortOuter_perm {α : Type} (key : α → Nat) :
    ∀ (n : Nat) (l : List α), (exchangeSortOuter key n l).Perm l := by
  intro n
  induction n with
  | zero =>
    intro l
    exact List.Perm.refl _
  | succ n ih =>
    intro l
    cases l with
    | nil => exact List.Perm.refl _
    | cons x xs =>
      rw [exchangeSortOuter]
      exact (List.Perm.cons _ (ih _)).trans (selectPass_perm key xs x)

theorem exchangeSortOuter_sorted {α : Type} (key : α → Nat) :
    ∀ (n : Nat) (l : List α), l.length ≤ n →
      (exchangeSortOuter key n l).Sorted (fun a b => key b ≤ key a) := by
  intro n
  induction n with
  | zero =>
    intro l h
    have : l = [] := List.length_eq_zero.1 (Nat.le_zero.1 h)
    subst this
    exact List.sorted_nil
  | succ n ih =>
    intro l h
    cases l with
    | nil => exact List.sorted_nil
    | cons x xs =>
      rw [exchangeSortOuter]
      rw [List.sorted_cons]
      constructor
      · intro b hb
        have hbp := (exchangeSortOuter_perm key n
          (selectPass key x xs).2).mem_iff.1 hb
        exact (selectPass_max key xs x).2 b hbp
      · apply ih
        rw [selectPass_snd_length]
        simpa using h

/-! ## C4 -/

def c4P1 : GsPart := ⟨"b", 5, [], [], 0, none, none⟩
def c4P2 : GsPart := ⟨"a", 9, [], [], 0, none, none⟩
def c4P3 : GsPart := ⟨"c", 5, [], [], 0, none, none⟩
def c4P4 : GsPart := ⟨"d", 9, [], [], 0, none, none⟩

/-- C4 counterexample: the exchange sort of `_sort_partitions` is not
stable.  With priorities `[5, 9, 5, 9]`, the first scan swaps the
9-priority partition into slot 0 and parks the displaced 5-priority
partition in its place; the second scan then swaps the other 9 into
slot 1 and parks the first 5 at the end — behind the other 5, although
it preceded it in the input. -/
theorem c4_sort_unstable_counterexample :
    sortParts [c4P1, c4P2, c4P3, c4P4] = [c4P2, c4P4, c4P3, c4P1]
    ∧ c4P1.priority = c4P3.priority
    ∧ List.indexOf c4P1 [c4P1, c4P2, c4P3, c4P4] <
        List.indexOf c4P3 [c4P1, c4P2, c4P3, c4P4]
    ∧ List.indexOf c4P3 (sortParts [c4P1, c4P2, c4P3, c4P4]) <
        List.indexOf c4P1 (sortParts [c4P1, c4P2, c4P3, c4P4]) := by
  decide

/-- C4 amended: `_sort_partitions` produces a permutation of the
partition list sorted by priority descending (ties broken
arbitrarily, not stably), and `_update_all_active_rows` rebuilds the
partitions in exactly that order: `sortedIndices` — the iteration
order of the rebuild loop — is a permutation of all positions along
which priorities are descending. -/
theorem c4_amended_sort_descending (ps : List GsPart) :
    (sortParts ps).Perm ps
    ∧ (sortParts ps).Sorted (fun a b => b.priority ≤ a.priority)
    ∧ (sortedIndices ps).Perm (List.range ps.length)
    ∧ (sortedIndices ps).Sorted
        (fun i k => (ps.getD k default).priority ≤ (ps.getD i default).priority) := by
  refine ⟨?_, ?_, ?_, ?_⟩
  · exact exchangeSortOuter_perm _ _ _
  · exact exchangeSortOuter_sorted (fun p => p.priority) ps.length ps
      (Nat.le_refl _)
  · exact exchangeSortOuter_perm _ _ _
  · exact exchangeSortOuter_sorted (fun i => (ps.getD i default).priority)
      (List.range ps.length).length (List.range ps.length)
      (Nat.le_refl _)

theorem seatPass_orc (cfg : GsConfig) (target : RowState) :
    ∀ (todo : List GsJob) (q : GsPart) (os : List GsPart)
      (orc1 orc2 : Oracle),
      (seatPass cfg orc1 target todo q os).jobs =
        (seatPass cfg orc2 target todo q os).jobs
      ∧ (seatPass cfg orc1 target todo q os).q =
          (seatPass cfg orc2 target todo q os).q
      ∧ (seatPass cfg orc1 target todo q os).others =
          (seatPass cfg orc2 target todo q os).others
      ∧ (seatPass cfg orc1 target todo q os).sigs =
          (seatPass cfg orc2 target todo q os).sigs := by
  intro todo
  induction todo with
  | nil =>
    intro q os orc1 orc2
    exact ⟨rfl, rfl, rfl, rfl⟩
  | cons j rest ih =>
    intro q os orc1 orc2
    rw [seatPass, seatPass]
    by_cases h1 : j.row_state = target
    · simp only [if_pos h1]
      by_cases h2 : jobFitsInActiveRow cfg j q = true
      · simp only [if_pos h2, castShadowAll]
        have IH := ih
          (castShadowPart j.toRef (addJobToActive cfg j.toRef q).priority
            (addJobToActive cfg j.toRef q))
          (os.map (castShadowPart j.toRef
            (addJobToActive cfg j.toRef q).priority)) orc1 orc2
        exact ⟨by rw [IH.1], IH.2.1, IH.2.2.1, IH.2.2.2⟩
      · simp only [if_neg h2]
        by_cases h3 : j.sig_state ≠ SigState.suspend
        · simp only [if_pos h3, clearShadowAll]
          have IH := ih (clearShadowPart j.toRef q)
            (os.map (clearShadowPart j.toRef)) orc1 orc2
          refine ⟨by rw [IH.1], IH.2.1, IH.2.2.1, ?_⟩
          simp only [signalJob]
          rw [IH.2.2.2]
        · simp only [if_neg h3]
          have IH := ih q os orc1 orc2
          exact ⟨by rw [IH.1], IH.2.1, IH.2.2.1, IH.2.2.2⟩
    · simp only [if_neg h1]
      have IH := ih q os orc1 orc2
      exact ⟨by rw [IH.1], IH.2.1, IH.2.2.1, IH.2.2.2⟩

theorem newPass_orc (cfg : GsConfig) :
    ∀ (todo : List GsJob) (q : GsPart) (os : List GsPart)
      (orc1 orc2 : Oracle),
      (newPass cfg orc1 todo q os).jobs = (newPass cfg orc2 todo q os).jobs
      ∧ (newPass cfg orc1 todo q os).q = (newPass cfg orc2 todo q os).q
      ∧ (newPass cfg orc1 todo q os).others =
          (newPass cfg orc2 todo q os).others
      ∧ (newPass cfg orc1 todo q os).sigs =
          (newPass cfg orc2 todo q os).sigs := by
  intro todo
  induction todo with
  | nil =>
    intro q os orc1 orc2
    exact ⟨rfl, rfl, rfl, rfl⟩
  | cons j rest ih =>
    intro q os orc1 orc2
    rw [newPass, newPass]
    by_cases h1 : j.row_state = RowState.noActive
    · simp only [if_pos h1]
      by_cases h2 : jobFitsInActiveRow cfg j q = true
      · simp only [if_pos h2, castShadowAll]
        have IH := ih
          (castShadowPart j.toRef (addJobToActive cfg j.toRef q).priority
            (addJobToActive cfg j.toRef q))
          (os.map (castShadowPart j.toRef
            (addJobToActive cfg j.toRef q).priority)) orc1 orc2
        by_cases h3 : j.sig_state = SigState.suspend
        · simp only [if_pos h3]
          refine ⟨by rw [IH.1], IH.2.1, IH.2.2.1, ?_⟩
          simp only [signalJob]
          rw [IH.2.2.2]
        · simp only [if_neg h3]
          exact ⟨by rw [IH.1], IH.2.1, IH.2.2.1, IH.2.2.2⟩
      · simp only [if_neg h2]
        have IH := ih q os orc1 orc2
        exact ⟨by rw [IH.1], IH.2.1, IH.2.2.1, IH.2.2.2⟩
    · simp only [if_neg h1]
      have IH := ih q os orc1 orc2
      exact ⟨by rw [IH.1], IH.2.1, IH.2.2.1, IH.2.2.2⟩

theorem cycleSuspendPass_orc :
    ∀ (todo : List GsJob) (q : GsPart) (os : List GsPart)
      (orc1 orc2 : Oracle),
      (cycleSuspendPass orc1 todo q os).jobs =
        (cycleSuspendPass orc2 todo q os).jobs
      ∧ (cycleSuspendPass orc1 todo q os).q =
          (cycleSuspendPass orc2 todo q os).q
      ∧ (cycleSuspendPass orc1 todo q os).others =
          (cycleSuspendPass orc2 todo q os).others
      ∧ (cycleSuspendPass orc1 todo q os).sigs =
          (cycleSuspendPass orc2 todo q os).sigs := by
  intro todo
  induction todo with
  | nil =>
    intro q os orc1 orc2
    exact ⟨rfl, rfl, rfl, rfl⟩
  | cons j rest ih =>
    intro q os orc1 orc2
    rw [cycleSuspendPass, cycleSuspendPass]
    by_cases h1 : j.row_state = RowState.noActive ∧ j.sig_state = SigState.resume
    · simp only [if_pos h1, clearShadowAll]
      have IH := ih (clearShadowPart j.toRef q)
        (os.map (clearShadowPart j.toRef)) orc1 orc2
      refine ⟨by rw [IH.1], IH.2.1, IH.2.2.1, ?_⟩
      simp only [signalJob]
      rw [IH.2.2.2]
    · simp only [if_neg h1]
      have IH := ih q os orc1 orc2
      exact ⟨by rw [IH.1], IH.2.1, IH.2.2.1, IH.2.2.2⟩

theorem cycleResumePass_orc :
    ∀ (todo : List GsJob) (q : GsPart) (os : List GsPart)
      (orc1 orc2 : Oracle),
      (cycleResumePass orc1 todo q os).jobs =
        (cycleResumePass orc2 todo q os).jobs
      ∧ (cycleResumePass orc1 todo q os).q =
          (cycleResumePass orc2 todo q os).q
      ∧ (cycleResumePass orc1 todo q os).others =
          (cycleResumePass orc2 todo q os).others
      ∧ (cycleResumePass orc1 todo q os).sigs =
          (cycleResumePass orc2 todo q os).sigs := by
  intro todo
  induction todo with
  | nil =>
    intro q os orc1 orc2
    exact ⟨rfl, rfl, rfl, rfl⟩
  | cons j rest ih =>
    intro q os orc1 orc2
    rw [cycleResumePass, cycleResumePass]
    by_cases h1 : j.row_state = RowState.active ∧ j.sig_state = SigState.suspend
    · simp only [if_pos h1, castShadowAll]
      have IH := ih (castShadowPart j.toRef q.priority q)
        (os.map (castShadowPart j.toRef q.priority)) orc1 orc2
      refine ⟨by rw [IH.1], IH.2.1, IH.2.2.1, ?_⟩
      simp only [signalJob]
      rw [IH.2.2.2]
    · simp only [if_neg h1]
      have IH := ih q os orc1 orc2
      exact ⟨by rw [IH.1], IH.2.1, IH.2.2.1, IH.2.2.2⟩

theorem updateActiveRow_orc (cfg : GsConfig) (b : Bool) (q : GsPart)
    (os : List GsPart) (orc1 orc2 : Oracle) :
    (updateActiveRow cfg orc1 b q os).q = (updateActiveRow cfg orc2 b q os).q
    ∧ (updateActiveRow cfg orc1 b q os).others =
        (updateActiveRow cfg orc2 b q os).others
    ∧ (updateActiveRow cfg orc1 b q os).sigs =
        (updateActiveRow cfg orc2 b q os).sigs := by
  rw [updateActiveRow, updateActiveRow]
  have A := seatPass_orc cfg RowState.active q.job_list
    (shadowPhase cfg { q with jobs_active := 0 }) os orc1 orc2
  have F := seatPass_orc cfg RowState.filler
    (seatPass cfg orc1 RowState.active q.job_list
      (shadowPhase cfg { q with jobs_active := 0 }) os).jobs
    (seatPass cfg orc1 RowState.active q.job_list
      (shadowPhase cfg { q with jobs_active := 0 }) os).q
    (seatPass cfg orc1 RowState.active q.job_list
      (shadowPhase cfg { q with jobs_active := 0 }) os).others orc1 orc2
  have F2 : seatPass cfg orc2 RowState.filler
      (seatPass cfg orc2 RowState.active q.job_list
        (shadowPhase cfg { q with jobs_active := 0 }) os).jobs
      (seatPass cfg orc2 RowState.active q.job_list
        (shadowPhase cfg { q with jobs_active := 0 }) os).q
      (seatPass cfg orc2 RowState.active q.job_list
        (shadowPhase cfg { q with jobs_active := 0 }) os).others =
      seatPass cfg orc2 RowState.filler
      (seatPass cfg orc1 RowState.active q.job_list
        (shadowPhase cfg { q with jobs_active := 0 }) os).jobs
      (seatPass cfg orc1 RowState.active q.job_list
        (shadowPhase cfg { q with jobs_active := 0 }) os).q
      (seatPass cfg orc1 RowState.active q.job_list
        (shadowPhase cfg { q with jobs_active := 0 }) os).others := by
    rw [A.1, A.2.1, A.2.2.1]
  rw [F2]
  cases b with
  | false =>
    simp only [Bool.false_eq_true, if_false]
    refine ⟨?_, ?_, ?_⟩
    · rw [F.1, F.2.1]
    · rw [F.2.2.1]
    · rw [A.2.2.2, F.2.2.2]
  | true =>
    simp only [if_true]
    have N := newPass_orc cfg
      (seatPass cfg orc1 RowState.filler
        (seatPass cfg orc1 RowState.active q.job_list
          (shadowPhase cfg { q with jobs_active := 0 }) os).jobs
        (seatPass cfg orc1 RowState.active q.job_list
          (shadowPhase cfg { q with jobs_active := 0 }) os).q
        (seatPass cfg orc1 RowState.active q.job_list
          (shadowPhase cfg { q with jobs_active := 0 }) os).others).jobs
      (seatPass cfg orc1 RowState.filler
        (seatPass cfg orc1 RowState.active q.job_list
          (shadowPhase cfg { q with jobs_active := 0 }) os).jobs
        (seatPass cfg orc1 RowState.active q.job_list
          (shadowPhase cfg { q with jobs_active := 0 }) os).q
        (seatPass cfg orc1 RowState.active q.job_list
          (shadowPhase cfg { q with jobs_active := 0 }) os).others).q
      (seatPass cfg orc1 RowState.filler
        (seatPass cfg orc1 RowState.active q.job_list
          (shadowPhase cfg { q with jobs_active := 0 }) os).jobs
        (seatPass cfg orc1 RowState.active q.job_list
          (shadowPhase cfg { q with jobs_active := 0 }) os).q
        (seatPass cfg orc1 RowState.active q.job_list
          (shadowPhase cfg { q with jobs_active := 0 }) os).others).others
      orc1 orc2
    have N2 : newPass cfg orc2
        (seatPass cfg orc2 RowState.filler
          (seatPass cfg orc1 RowState.active q.job_list
            (shadowPhase cfg { q with jobs_active := 0 }) os).jobs
          (seatPass cfg orc1 RowState.active q.job_list
            (shadowPhase cfg { q with jobs_active := 0 }) os).q
          (seatPass cfg orc1 RowState.active q.job_list
            (shadowPhase cfg { q with jobs_active := 0 }) os).others).jobs
        (seatPass cfg orc2 RowState.filler
          (seatPass cfg orc1 RowState.active q.job_list
            (shadowPhase cfg { q with jobs_active := 0 }) os).jobs
          (seatPass cfg orc1 RowState.active q.job_list
            (shadowPhase cfg { q with jobs_active := 0 }) os).q
          (seatPass cfg orc1 RowState.active q.job_list
            (shadowPhase cfg { q with jobs_active := 0 }) os).others).q
        (seatPass cfg orc2 RowState.filler
          (seatPass cfg orc1 RowState.active q.job_list
            (shadowPhase cfg { q with jobs_active := 0 }) os).jobs
          (seatPass cfg orc1 RowState.active q.job_list
            (shadowPhase cfg { q with jobs_active := 0 }) os).q
          (seatPass cfg orc1 RowState.active q.job_list
            (shadowPhase cfg { q with jobs_active := 0 }) os).others).others =
        newPass cfg orc2
        (seatPass cfg orc1 RowState.filler
          (seatPass cfg orc1 RowState.active q.job_list
            (shadowPhase cfg { q with jobs_active := 0 }) os).jobs
          (seatPass cfg orc1 RowState.active q.job_list
            (shadowPhase cfg { q with jobs_active := 0 }) os).q
          (seatPass cfg orc1 RowState.active q.job_list
            (shadowPhase cfg { q with jobs_active := 0 }) os).others).jobs
        (seatPass cfg orc1 RowState.filler
          (seatPass cfg orc1 RowState.active q.job_list
            (shadowPhase cfg { q with jobs_active := 0 }) os).jobs
          (seatPass cfg orc1 RowState.active q.job_list
            (shadowPhase cfg { q with jobs_active := 0 }) os).q
          (seatPass cfg orc1 RowState.active q.job_list
            (shadowPhase cfg { q with jobs_active := 0 }) os).others).q
        (seatPass cfg orc1 RowState.filler
          (seatPass cfg orc1 RowState.active q.job_list
            (shadowPhase cfg { q with jobs_active := 0 }) os).jobs
          (seatPass cfg orc1 RowState.active q.job_list
            (shadowPhase cfg { q with jobs_active := 0 }) os).q
          (seatPass cfg orc1 RowState.active q.job_list
            (shadowPhase cfg { q with jobs_active := 0 }) os).others).others := by
      rw [F.1, F.2.1, F.2.2.1]
    rw [N2]
    refine ⟨?_, ?_, ?_⟩
    · rw [N.1, N.2.1]
    · rw [N.2.2.1]
    · rw [A.2.2.2, F.2.2.2, N.2.2.2]

theorem cycleJobList_orc (cfg : GsConfig) (q : GsPart) (os : List GsPart)
    (orc1 orc2 : Oracle) :
    (cycleJobList cfg orc1 q os).q = (cycleJobList cfg orc2 q os).q
    ∧ (cycleJobList cfg orc1 q os).others = (cycleJobList cfg orc2 q os).others
    ∧ (cycleJobList cfg orc1 q os).sigs = (cycleJobList cfg orc2 q os).sigs := by
  rw [cycleJobList, cycleJobList]
  have S := cycleSuspendPass_orc
    (buildActiveRow cfg { q with job_list := cycleReorder q.job_list }).job_list
    (buildActiveRow cfg { q with job_list := cycleReorder q.job_list }) os
    orc1 orc2
  have R := cycleResumePass_orc
    (cycleSuspendPass orc1
      (buildActiveRow cfg
        { q with job_list := cycleReorder q.job_list }).job_list
      (buildActiveRow cfg { q with job_list := cycleReorder q.job_list })
      os).jobs
    (cycleSuspendPass orc1
      (buildActiveRow cfg
        { q with job_list := cycleReorder q.job_list }).job_list
      (buildActiveRow cfg { q with job_list := cycleReorder q.job_list })
      os).q
    (cycleSuspendPass orc1
      (buildActiveRow cfg
        { q with job_list := cycleReorder q.job_list }).job_list
      (buildActiveRow cfg { q with job_list := cycleReorder q.job_list })
      os).others orc1 orc2
  have R2 : cycleResumePass orc2
      (cycleSuspendPass orc2
        (buildActiveRow cfg
          { q with job_list := cycleReorder q.job_list }).job_list
        (buildActiveRow cfg { q with job_list := cycleReorder q.job_list })
        os).jobs
      (cycleSuspendPass orc2
        (buildActiveRow cfg
          { q with job_list := cycleReorder q.job_list }).job_list
        (buildActiveRow cfg { q with job_list := cycleReorder q.job_list })
        os).q
      (cycleSuspendPass orc2
        (buildActiveRow cfg
          { q with job_list := cycleReorder q.job_list }).job_list
        (buildActiveRow cfg { q with job_list := cycleReorder q.job_list })
        os).others =
      cycleResumePass orc2
      (cycleSuspendPass orc1
        (buildActiveRow cfg
          { q with job_list := cycleReorder q.job_list }).job_list
        (buildActiveRow cfg { q with job_list := cycleReorder q.job_list })
        os).jobs
      (cycleSuspendPass orc1
        (buildActiveRow cfg
          { q with job_list := cycleReorder q.job_list }).job_list
        (buildActiveRow cfg { q with job_list := cycleReorder q.job_list })
        os).q
      (cycleSuspendPass orc1
        (buildActiveRow cfg
          { q with job_list := cycleReorder q.job_list }).job_list
        (buildActiveRow cfg { q with job_list := cycleReorder q.job_list })
        os).others := by
    rw [S.1, S.2.1, S.2.2.1]
  rw [R2]
  refine ⟨?_, ?_, ?_⟩
  · rw [R.1, R.2.1]
  · rw [R.2.2.1]
  · rw [S.2.2.2, R.2.2.2]

theorem removeJobFromPart_orc (job_id : Nat) (q : GsPart)
    (os : List GsPart) (orc1 orc2 : Oracle) :
    (removeJobFromPart orc1 job_id q os).q =
      (removeJobFromPart orc2 job_id q os).q
    ∧ (removeJobFromPart orc1 job_id q os).others =
        (removeJobFromPart orc2 job_id q os).others
    ∧ (removeJobFromPart orc1 job_id q os).sigs =
        (removeJobFromPart orc2 job_id q os).sigs := by
  rw [removeJobFromPart, removeJobFromPart]
  by_cases h0 : job_id = 0
  · simp only [if_pos h0]
    refine ⟨?_, ?_, ?_⟩ <;> trivial
  · simp only [if_neg h0]
    cases h : findJobIndex q job_id with
    | none => exact ⟨rfl, rfl, rfl⟩
    | some i =>
      by_cases hs : (q.job_list.getD i default).sig_state = SigState.suspend
      · simp only [if_pos hs, signalJob]
        refine ⟨?_, ?_, ?_⟩ <;> trivial
      · simp only [if_neg hs]
        refine ⟨?_, ?_, ?_⟩ <;> trivial

theorem addJobToPart_orc (cfg : GsConfig) (q : GsPart) (os : List GsPart)
    (job_id : Nat) (bitmap : List Bool) (orc1 orc2 : Oracle) :
    (addJobToPart cfg orc1 q os job_id bitmap).1.q =
      (addJobToPart cfg orc2 q os job_id bitmap).1.q
    ∧ (addJobToPart cfg orc1 q os job_id bitmap).1.others =
        (addJobToPart cfg orc2 q os job_id bitmap).1.others
    ∧ (addJobToPart cfg orc1 q os job_id bitmap).1.sigs =
        (addJobToPart cfg orc2 q os job_id bitmap).1.sigs
    ∧ (addJobToPart cfg orc1 q os job_id bitmap).2 =
        (addJobToPart cfg orc2 q os job_id bitmap).2 := by
  rw [addJobToPart, addJobToPart]
  dsimp only
  have RM := removeJobFromPart_orc job_id q os orc1 orc2
  have UP := updateActiveRow_orc cfg false
    (removeJobFromPart orc1 job_id q os).q
    (removeJobFromPart orc1 job_id q os).others orc1 orc2
  have UP2 : updateActiveRow cfg orc2 false
      (removeJobFromPart orc2 job_id q os).q
      (removeJobFromPart orc2 job_id q os).others =
      updateActiveRow cfg orc2 false
      (removeJobFromPart orc1 job_id q os).q
      (removeJobFromPart orc1 job_id q os).others := by
    rw [RM.1, RM.2.1]
  rw [UP2]
  by_cases hdup : (findJobIndex q job_id).isSome = true
  · simp only [if_pos hdup]
    by_cases hfit : jobFitsInActiveRow cfg (mkGsJob cfg job_id bitmap)
        (updateActiveRow cfg orc1 false
          (removeJobFromPart orc1 job_id q os).q
          (removeJobFromPart orc1 job_id q os).others).q = true
    · have hfit2 : jobFitsInActiveRow cfg (mkGsJob cfg job_id bitmap)
          (updateActiveRow cfg orc2 false
            (removeJobFromPart orc1 job_id q os).q
            (removeJobFromPart orc1 job_id q os).others).q = true := by
        rw [← UP.1]
        exact hfit
      simp only [if_pos hfit, if_pos hfit2, castShadowAll]
      refine ⟨?_, ?_, ?_, by trivial⟩
      · rw [UP.1]
      · rw [UP.1, UP.2.1]
      · rw [RM.2.2, UP.2.2]
    · have hfit2 : ¬ jobFitsInActiveRow cfg (mkGsJob cfg job_id bitmap)
          (updateActiveRow cfg orc2 false
            (removeJobFromPart orc1 job_id q os).q
            (removeJobFromPart orc1 job_id q os).others).q = true := by
        rw [← UP.1]
        exact hfit
      simp only [if_neg hfit, if_neg hfit2, signalJob]
      refine ⟨?_, ?_, ?_, by trivial⟩
      · rw [UP.1]
      · rw [UP.2.1]
      · rw [RM.2.2, UP.2.2]
  · simp only [if_neg hdup]
    by_cases hfit : jobFitsInActiveRow cfg (mkGsJob cfg job_id bitmap) q = true
    · simp only [if_pos hfit, castShadowAll]
      refine ⟨?_, ?_, ?_, ?_⟩ <;> trivial
    · simp only [if_neg hfit, signalJob]
      refine ⟨?_, ?_, ?_, ?_⟩ <;> trivial

/-! ## C7 -/

/-- C7: a failing suspend/resume RPC never changes the scheduler's
behaviour.  The oracle argument is `job_suspend`'s return code; for
any two oracles (e.g. all-success vs all-failure), every
signal-emitting operation — `_update_active_row`, `_cycle_job_list`,
`_remove_job_from_part` and `_add_job_to_part` — produces the same
partition state (job `sig_state`/`row_state`, active row, shadows),
the same state of all other partitions, the same emitted signal
sequence, and (for `_add_job_to_part`) the same returned signal
state; only the error log differs. -/
theorem c7_signal_failure_state_independent (cfg : GsConfig) (b : Bool)
    (q : GsPart) (os : List GsPart) (job_id : Nat) (bitmap : List Bool)
    (orc1 orc2 : Oracle) :
    ((updateActiveRow cfg orc1 b q os).q = (updateActiveRow cfg orc2 b q os).q
      ∧ (updateActiveRow cfg orc1 b q os).others =
          (updateActiveRow cfg orc2 b q os).others
      ∧ (updateActiveRow cfg orc1 b q os).sigs =
          (updateActiveRow cfg orc2 b q os).sigs)
    ∧ ((cycleJobList cfg orc1 q os).q = (cycleJobList cfg orc2 q os).q
      ∧ (cycleJobList cfg orc1 q os).others = (cycleJobList cfg orc2 q os).others
      ∧ (cycleJobList cfg orc1 q os).sigs = (cycleJobList cfg orc2 q os).sigs)
    ∧ ((removeJobFromPart orc1 job_id q os).q =
          (removeJobFromPart orc2 job_id q os).q
      ∧ (removeJobFromPart orc1 job_id q os).others =
          (removeJobFromPart orc2 job_id q os).others
      ∧ (removeJobFromPart orc1 job_id q os).sigs =
          (removeJobFromPart orc2 job_id q os).sigs)
    ∧ ((addJobToPart cfg orc1 q os job_id bitmap).1.q =
          (addJobToPart cfg orc2 q os job_id bitmap).1.q
      ∧ (addJobToPart cfg orc1 q os job_id bitmap).1.others =
          (addJobToPart cfg orc2 q os job_id bitmap).1.others
      ∧ (addJobToPart cfg orc1 q os job_id bitmap).1.sigs =
          (addJobToPart cfg orc2 q os job_id bitmap).1.sigs
      ∧ (addJobToPart cfg orc1 q os job_id bitmap).2 =
          (addJobToPart cfg orc2 q os job_id bitmap).2) :=
  ⟨updateActiveRow_orc cfg b q os orc1 orc2,
    cycleJobList_orc cfg q os orc1 orc2,
    removeJobFromPart_orc job_id q os orc1 orc2,
    addJobToPart_orc cfg q os job_id bitmap orc1 orc2⟩

/-! ## C6: shadow priority monotonicity -/

def jobIds (p : GsPart) : List Nat := p.job_list.map (fun j => j.job_id)

def shadowIds (p : GsPart) : List Nat := p.shadows.map (fun s => s.job_id)

/-- Priority monotonicity: every shadow entry's owning partition (any
partition whose job list contains the entry's job id) has strictly
higher priority than the partition holding the shadow. -/
abbrev ShadowPrioInv (ps : List GsPart) : Prop :=
  ∀ p ∈ ps, ∀ s ∈ p.shadows, ∀ r ∈ ps,
    s.job_id ∈ jobIds r → p.priority < r.priority

theorem mem_removeFirstShadow {s : ShadowRef} :
    ∀ {l : List ShadowRef} {id : Nat}, s ∈ removeFirstShadow l id → s ∈ l := by
  intro l
  induction l with
  | nil => intro id h; cases h
  | cons x xs ih =>
    intro id h
    rw [removeFirstShadow] at h
    by_cases hx : x.job_id = id
    · rw [if_pos hx] at h
      exact List.mem_cons_of_mem _ h
    · rw [if_neg hx] at h
      rcases List.mem_cons.1 h with rfl | h
      · exact List.mem_cons_self _ _
      · exact List.mem_cons_of_mem _ (ih h)

theorem castShadowPart_priority (r : ShadowRef) (prio : Nat) (p : GsPart) :
    (castShadowPart r prio p).priority = p.priority := by
  rw [castShadowPart]
  repeat' split
  all_goals rfl

theorem castShadowPart_jobIds (r : ShadowRef) (prio : Nat) (p : GsPart) :
    jobIds (castShadowPart r prio p) = jobIds p := by
  rw [castShadowPart]
  repeat' split
  all_goals rfl

theorem clearShadowPart_priority (r : ShadowRef) (p : GsPart) :
    (clearShadowPart r p).priority = p.priority := by
  rw [clearShadowPart]
  repeat' split
  all_goals rfl

theorem clearShadowPart_jobIds (r : ShadowRef) (p : GsPart) :
    jobIds (clearShadowPart r p) = jobIds p := by
  rw [clearShadowPart]
  repeat' split
  all_goals rfl

theorem mem_shadows_castShadowPart {s : ShadowRef} {r : ShadowRef}
    {prio : Nat} {p : GsPart} (h : s ∈ (castShadowPart r prio p).shadows) :
    s ∈ p.shadows ∨ (s = r ∧ p.priority < prio) := by
  rw [castShadowPart] at h
  by_cases h1 : prio ≤ p.priority
  · rw [if_pos h1] at h
    exact Or.inl h
  · rw [if_neg h1] at h
    by_cases h2 : shadowHasId p r.job_id = true
    · rw [if_pos h2] at h
      exact Or.inl h
    · rw [if_neg h2] at h
      dsimp only at h
      rcases List.mem_append.1 h with h | h
      · exact Or.inl h
      · rcases List.mem_singleton.1 h with rfl
        exact Or.inr ⟨rfl, Nat.lt_of_not_le h1⟩

theorem mem_shadows_clearShadowPart {s : ShadowRef} {r : ShadowRef}
    {p : GsPart} (h : s ∈ (clearShadowPart r p).shadows) : s ∈ p.shadows := by
  rw [clearShadowPart] at h
  by_cases h1 : shadowHasId p r.job_id = true
  · rw [if_pos h1] at h
    exact mem_removeFirstShadow h
  · rw [if_neg h1] at h
    exact h

theorem shadowPrioInv_mono_q {q q1 : GsPart} {os : List GsPart}
    (hpr : q1.priority = q.priority)
    (hsh : ∀ s ∈ q1.shadows, s ∈ q.shadows)
    (hids : ∀ id, id ∈ jobIds q1 → id ∈ jobIds q)
    (hInv : ShadowPrioInv (q :: os)) : ShadowPrioInv (q1 :: os) := by
  intro p hp s hs t ht hid
  have hget : ∀ u, u ∈ q1 :: os → ∃ u0, u0 ∈ q :: os ∧ u0.priority = u.priority ∧
      (∀ x ∈ u.shadows, x ∈ u0.shadows) ∧
      (∀ id, id ∈ jobIds u → id ∈ jobIds u0) := by
    intro u hu
    rcases List.mem_cons.1 hu with rfl | hu
    · exact ⟨q, List.mem_cons_self _ _, hpr.symm, hsh, hids⟩
    · exact ⟨u, List.mem_cons_of_mem _ hu, rfl, fun x hx => hx, fun id h => h⟩
  rcases hget p hp with ⟨p0, hp0, hppr, hpsh, _⟩
  rcases hget t ht with ⟨t0, ht0, htpr, _, htids⟩
  rw [← hppr, ← htpr]
  exact hInv p0 hp0 s (hpsh s hs) t0 ht0 (htids _ hid)

theorem shadowPrioInv_castAll {q : GsPart} {os : List GsPart}
    {r : ShadowRef}
    (hOwn : r.job_id ∈ jobIds q)
    (hOth : ∀ p ∈ os, ¬ r.job_id ∈ jobIds p)
    (hInv : ShadowPrioInv (q :: os)) :
    ShadowPrioInv (q :: os.map (castShadowPart r q.priority)) := by
  intro p hp s hs t ht hid
  have tprio : ∀ t1, t1 ∈ q :: os.map (castShadowPart r q.priority) →
      s.job_id ∈ jobIds t1 →
      ∃ t0, t0 ∈ q :: os ∧ t0.priority = t1.priority ∧ s.job_id ∈ jobIds t0 := by
    intro t1 ht1 hid1
    rcases List.mem_cons.1 ht1 with rfl | ht1
    · exact ⟨t1, List.mem_cons_self _ _, rfl, hid1⟩
    · rcases List.mem_map.1 ht1 with ⟨t0, ht0, rfl⟩
      refine ⟨t0, List.mem_cons_of_mem _ ht0, (castShadowPart_priority _ _ _).symm, ?_⟩
      rw [castShadowPart_jobIds] at hid1
      exact hid1
  rcases tprio t ht hid with ⟨t0, ht0, hpr, hid0⟩
  rcases List.mem_cons.1 hp with rfl | hp
  · rw [← hpr]
    exact hInv p (List.mem_cons_self _ _) s hs t0 ht0 hid0
  · rcases List.mem_map.1 hp with ⟨p0, hp0, rfl⟩
    rcases mem_shadows_castShadowPart hs with hold | ⟨rfl, hlt⟩
    · rw [← hpr, castShadowPart_priority]
      exact hInv p0 (List.mem_cons_of_mem _ hp0) s hold t0 ht0 hid0
    · rcases List.mem_cons.1 ht0 with rfl | ht0
      · rw [← hpr, castShadowPart_priority]
        exact hlt
      · exact absurd hid0 (hOth t0 ht0)

theorem shadowPrioInv_clearAll {q : GsPart} {os : List GsPart}
    {r : ShadowRef} (hInv : ShadowPrioInv (q :: os)) :
    ShadowPrioInv (clearShadowPart r q :: os.map (clearShadowPart r)) := by
  intro p hp s hs t ht hid
  have tprio : ∀ t1, t1 ∈ clearShadowPart r q :: os.map (clearShadowPart r) →
      s.job_id ∈ jobIds t1 →
      ∃ t0, t0 ∈ q :: os ∧ t0.priority = t1.priority ∧ s.job_id ∈ jobIds t0 := by
    intro t1 ht1 hid1
    rcases List.mem_cons.1 ht1 with rfl | ht1
    · refine ⟨q, List.mem_cons_self _ _, (clearShadowPart_priority _ _).symm, ?_⟩
      rw [clearShadowPart_jobIds] at hid1
      exact hid1
    · rcases List.mem_map.1 ht1 with ⟨t0, ht0, rfl⟩
      refine ⟨t0, List.mem_cons_of_mem _ ht0, (clearShadowPart_priority _ _).symm, ?_⟩
      rw [clearShadowPart_jobIds] at hid1
      exact hid1
  rcases tprio t ht hid with ⟨t0, ht0, hpr, hid0⟩
  rcases List.mem_cons.1 hp with rfl | hp
  · rw [← hpr, clearShadowPart_priority]
    exact hInv q (List.mem_cons_self _ _) s (mem_shadows_clearShadowPart hs) t0 ht0 hid0
  · rcases List.mem_map.1 hp with ⟨p0, hp0, rfl⟩
    rw [← hpr, clearShadowPart_priority]
    exact hInv p0 (List.mem_cons_of_mem _ hp0) s (mem_shadows_clearShadowPart hs) t0 ht0 hid0

theorem shadowPrioInv_append_job {q : GsPart} {os : List GsPart} {j : GsJob}
    (hFresh : ∀ p ∈ q :: os, ¬ j.job_id ∈ shadowIds p)
    (hInv : ShadowPrioInv (q :: os)) :
    ShadowPrioInv ({q with job_list := q.job_list ++ [j]} :: os) := by
  intro p hp s hs t ht hid
  have hsid : ∀ p1 ∈ q :: os, s ∈ p1.shadows → ¬ s.job_id = j.job_id := by
    intro p1 hp1 hs1 he
    exact hFresh p1 hp1 (he ▸ List.mem_map.2 ⟨s, hs1, rfl⟩)
  have hp' : p ∈ q :: os ∧ p.priority = p.priority ∨
      (p = {q with job_list := q.job_list ++ [j]}) := by
    rcases List.mem_cons.1 hp with rfl | hp
    · exact Or.inr rfl
    · exact Or.inl ⟨List.mem_cons_of_mem _ hp, rfl⟩
  have key : ∀ p0, p0 ∈ q :: os → s ∈ p0.shadows → p0.priority < t.priority := by
    intro p0 hp0 hs0
    rcases List.mem_cons.1 ht with rfl | ht
    · have : s.job_id ∈ jobIds q := by
        have : jobIds {q with job_list := q.job_list ++ [j]} =
            jobIds q ++ [j.job_id] := by
          simp [jobIds]
        rw [this] at hid
        rcases List.mem_append.1 hid with h | h
        · exact h
        · exact absurd (List.mem_singleton.1 h) (hsid p0 hp0 hs0)
      exact hInv p0 hp0 s hs0 q (List.mem_cons_self _ _) this
    · exact hInv p0 hp0 s hs0 t (List.mem_cons_of_mem _ ht) hid
  rcases hp' with ⟨hp0, _⟩ | rfl
  · exact key p hp0 hs
  · exact key q (List.mem_cons_self _ _) hs

theorem addJobToActive_jobIds (cfg : GsConfig) (r : ShadowRef) (p : GsPart) :
    jobIds (addJobToActive cfg r p) = jobIds p := by
  unfold jobIds
  rw [addJobToActive_job_list]

theorem seatPass_inv (cfg : GsConfig) (orc : Oracle) (target : RowState) :
    ∀ (todo : List GsJob) (q : GsPart) (os : List GsPart),
      (∀ j ∈ todo, j.job_id ∈ jobIds q) →
      (∀ p ∈ os, ∀ j ∈ todo, ¬ j.job_id ∈ jobIds p) →
      ShadowPrioInv (q :: os) →
      ShadowPrioInv ((seatPass cfg orc target todo q os).q ::
          (seatPass cfg orc target todo q os).others)
      ∧ (seatPass cfg orc target todo q os).jobs.map (fun j => j.job_id) =
          todo.map (fun j => j.job_id)
      ∧ jobIds (seatPass cfg orc target todo q os).q = jobIds q
      ∧ (∀ p ∈ (seatPass cfg orc target todo q os).others,
          ∃ p0, p0 ∈ os ∧ jobIds p = jobIds p0) := by
  intro todo
  induction todo with
  | nil =>
    intro q os h1 h2 hInv
    rw [seatPass]
    exact ⟨hInv, rfl, rfl, fun p hp => ⟨p, hp, rfl⟩⟩
  | cons j rest ih =>
    intro q os h1 h2 hInv
    rw [seatPass]
    by_cases hr : j.row_state = target
    · rw [if_pos hr]
      by_cases hf : jobFitsInActiveRow cfg j q = true
      · rw [if_pos hf]
        simp only [castShadowAll, castShadowPart_self]
        have hq' : jobIds (addJobToActive cfg j.toRef q) = jobIds q :=
          addJobToActive_jobIds cfg j.toRef q
        have step1 : ShadowPrioInv (addJobToActive cfg j.toRef q :: os) := by
          refine shadowPrioInv_mono_q (addJobToActive_priority cfg j.toRef q)
            ?_ ?_ hInv
          · intro s hs
            rwa [addJobToActive_shadows] at hs
          · intro id hid
            rwa [hq'] at hid
        have hOwn : j.toRef.job_id ∈ jobIds (addJobToActive cfg j.toRef q) := by
          rw [toRef_job_id, hq']
          exact h1 j (List.mem_cons_self j rest)
        have hOth : ∀ p ∈ os, ¬ j.toRef.job_id ∈ jobIds p := by
          intro p hp
          rw [toRef_job_id]
          exact h2 p hp j (List.mem_cons_self j rest)
        have step2 := shadowPrioInv_castAll hOwn hOth step1
        have IH := ih (addJobToActive cfg j.toRef q)
          (os.map (castShadowPart j.toRef (addJobToActive cfg j.toRef q).priority))
          (fun x hx => by rw [hq']; exact h1 x (List.mem_cons_of_mem _ hx))
          (fun p hp x hx => by
            rcases List.mem_map.1 hp with ⟨p0, hp0, rfl⟩
            rw [castShadowPart_jobIds]
            exact h2 p0 hp0 x (List.mem_cons_of_mem _ hx))
          step2
        refine ⟨IH.1, ?_, ?_, ?_⟩
        · simp only [List.map_cons, IH.2.1]
        · rw [IH.2.2.1, hq']
        · intro p hp
          rcases IH.2.2.2 p hp with ⟨p1, hp1, he1⟩
          rcases List.mem_map.1 hp1 with ⟨p0, hp0, rfl⟩
          exact ⟨p0, hp0, he1.trans (castShadowPart_jobIds _ _ _)⟩
      · rw [if_neg hf]
        by_cases hs3 : j.sig_state ≠ SigState.suspend
        · rw [if_pos hs3]
          simp only [clearShadowAll]
          have IH := ih (clearShadowPart j.toRef q)
            (os.map (clearShadowPart j.toRef))
            (fun x hx => by
              rw [clearShadowPart_jobIds]
              exact h1 x (List.mem_cons_of_mem _ hx))
            (fun p hp x hx => by
              rcases List.mem_map.1 hp with ⟨p0, hp0, rfl⟩
              rw [clearShadowPart_jobIds]
              exact h2 p0 hp0 x (List.mem_cons_of_mem _ hx))
            (shadowPrioInv_clearAll hInv)
          refine ⟨IH.1, ?_, ?_, ?_⟩
          · simp only [List.map_cons, IH.2.1]
          · rw [IH.2.2.1, clearShadowPart_jobIds]
          · intro p hp
            rcases IH.2.2.2 p hp with ⟨p1, hp1, he1⟩
            rcases List.mem_map.1 hp1 with ⟨p0, hp0, rfl⟩
            exact ⟨p0, hp0, he1.trans (clearShadowPart_jobIds _ _)⟩
        · rw [if_neg hs3]
          have IH := ih q os
            (fun x hx => h1 x (List.mem_cons_of_mem _ hx))
            (fun p hp x hx => h2 p hp x (List.mem_cons_of_mem _ hx)) hInv
          refine ⟨IH.1, ?_, IH.2.2.1, IH.2.2.2⟩
          simp only [List.map_cons, IH.2.1]
    · rw [if_neg hr]
      have IH := ih q os
        (fun x hx => h1 x (List.mem_cons_of_mem _ hx))
        (fun p hp x hx => h2 p hp x (List.mem_cons_of_mem _ hx)) hInv
      refine ⟨IH.1, ?_, IH.2.2.1, IH.2.2.2⟩
      simp only [List.map_cons, IH.2.1]

theorem newPass_inv (cfg : GsConfig) (orc : Oracle) :
    ∀ (todo : List GsJob) (q : GsPart) (os : List GsPart),
      (∀ j ∈ todo, j.job_id ∈ jobIds q) →
      (∀ p ∈ os, ∀ j ∈ todo, ¬ j.job_id ∈ jobIds p) →
      ShadowPrioInv (q :: os) →
      ShadowPrioInv ((newPass cfg orc todo q os).q ::
          (newPass cfg orc todo q os).others)
      ∧ (newPass cfg orc todo q os).jobs.map (fun j => j.job_id) =
          todo.map (fun j => j.job_id)
      ∧ jobIds (newPass cfg orc todo q os).q = jobIds q
      ∧ (∀ p ∈ (newPass cfg orc todo q os).others,
          ∃ p0, p0 ∈ os ∧ jobIds p = jobIds p0) := by
  intro todo
  induction todo with
  | nil =>
    intro q os h1 h2 hInv
    rw [newPass]
    exact ⟨hInv, rfl, rfl, fun p hp => ⟨p, hp, rfl⟩⟩
  | cons j rest ih =>
    intro q os h1 h2 hInv
    rw [newPass]
    by_cases hr : j.row_state = RowState.noActive
    · rw [if_pos hr]
      by_cases hf : jobFitsInActiveRow cfg j q = true
      · rw [if_pos hf]
        simp only [castShadowAll, castShadowPart_self]
        have hq' : jobIds (addJobToActive cfg j.toRef q) = jobIds q :=
          addJobToActive_jobIds cfg j.toRef q
        have step1 : ShadowPrioInv (addJobToActive cfg j.toRef q :: os) := by
          refine shadowPrioInv_mono_q (addJobToActive_priority cfg j.toRef q)
            ?_ ?_ hInv
          · intro s hs
            rwa [addJobToActive_shadows] at hs
          · intro id hid
            rwa [hq'] at hid
        have hOwn : j.toRef.job_id ∈ jobIds (addJobToActive cfg j.toRef q) := by
          rw [toRef_job_id, hq']
          exact h1 j (List.mem_cons_self j rest)
        have hOth : ∀ p ∈ os, ¬ j.toRef.job_id ∈ jobIds p := by
          intro p hp
          rw [toRef_job_id]
          exact h2 p hp j (List.mem_cons_self j rest)
        have step2 := shadowPrioInv_castAll hOwn hOth step1
        have IH := ih (addJobToActive cfg j.toRef q)
          (os.map (castShadowPart j.toRef (addJobToActive cfg j.toRef q).priority))
          (fun x hx => by rw [hq']; exact h1 x (List.mem_cons_of_mem _ hx))
          (fun p hp x hx => by
            rcases List.mem_map.1 hp with ⟨p0, hp0, rfl⟩
            rw [castShadowPart_jobIds]
            exact h2 p0 hp0 x (List.mem_cons_of_mem _ hx))
          step2
        by_cases hs3 : j.sig_state = SigState.suspend
        · rw [if_pos hs3]
          refine ⟨IH.1, ?_, ?_, ?_⟩
          · simp only [List.map_cons, IH.2.1]
          · rw [IH.2.2.1, hq']
          · intro p hp
            rcases IH.2.2.2 p hp with ⟨p1, hp1, he1⟩
            rcases List.mem_map.1 hp1 with ⟨p0, hp0, rfl⟩
            exact ⟨p0, hp0, he1.trans (castShadowPart_jobIds _ _ _)⟩
        · rw [if_neg hs3]
          refine ⟨IH.1, ?_, ?_, ?_⟩
          · simp only [List.map_cons, IH.2.1]
          · rw [IH.2.2.1, hq']
          · intro p hp
            rcases IH.2.2.2 p hp with ⟨p1, hp1, he1⟩
            rcases List.mem_map.1 hp1 with ⟨p0, hp0, rfl⟩
            exact ⟨p0, hp0, he1.trans (castShadowPart_jobIds _ _ _)⟩
      · rw [if_neg hf]
        have IH := ih q os
          (fun x hx => h1 x (List.mem_cons_of_mem _ hx))
          (fun p hp x hx => h2 p hp x (List.mem_cons_of_mem _ hx)) hInv
        refine ⟨IH.1, ?_, IH.2.2.1, IH.2.2.2⟩
        simp only [List.map_cons, IH.2.1]
    · rw [if_neg hr]
      have IH := ih q os
        (fun x hx => h1 x (List.mem_cons_of_mem _ hx))
        (fun p hp x hx => h2 p hp x (List.mem_cons_of_mem _ hx)) hInv
      refine ⟨IH.1, ?_, IH.2.2.1, IH.2.2.2⟩
      simp only [List.map_cons, IH.2.1]

theorem cycleSuspendPass_inv (orc : Oracle) :
    ∀ (todo : List GsJob) (q : GsPart) (os : List GsPart),
      (∀ j ∈ todo, j.job_id ∈ jobIds q) →
      (∀ p ∈ os, ∀ j ∈ todo, ¬ j.job_id ∈ jobIds p) →
      ShadowPrioInv (q :: os) →
      ShadowPrioInv ((cycleSuspendPass orc todo q os).q ::
          (cycleSuspendPass orc todo q os).others)
      ∧ (cycleSuspendPass orc todo q os).jobs.map (fun j => j.job_id) =
          todo.map (fun j => j.job_id)
      ∧ jobIds (cycleSuspendPass orc todo q os).q = jobIds q
      ∧ (∀ p ∈ (cycleSuspendPass orc todo q os).others,
          ∃ p0, p0 ∈ os ∧ jobIds p = jobIds p0) := by
  intro todo
  induction todo with
  | nil =>
    intro q os h1 h2 hInv
    rw [cycleSuspendPass]
    exact ⟨hInv, rfl, rfl, fun p hp => ⟨p, hp, rfl⟩⟩
  | cons j rest ih =>
    intro q os h1 h2 hInv
    rw [cycleSuspendPass]
    by_cases hc : j.row_state = RowState.noActive ∧ j.sig_state = SigState.resume
    · rw [if_pos hc]
      simp only [clearShadowAll]
      have IH := ih (clearShadowPart j.toRef q)
        (os.map (clearShadowPart j.toRef))
        (fun x hx => by
          rw [clearShadowPart_jobIds]
          exact h1 x (List.mem_cons_of_mem _ hx))
        (fun p hp x hx => by
          rcases List.mem_map.1 hp with ⟨p0, hp0, rfl⟩
          rw [clearShadowPart_jobIds]
          exact h2 p0 hp0 x (List.mem_cons_of_mem _ hx))
        (shadowPrioInv_clearAll hInv)
      refine ⟨IH.1, ?_, ?_, ?_⟩
      · simp only [List.map_cons, IH.2.1]
      · rw [IH.2.2.1, clearShadowPart_jobIds]
      · intro p hp
        rcases IH.2.2.2 p hp with ⟨p1, hp1, he1⟩
        rcases List.mem_map.1 hp1 with ⟨p0, hp0, rfl⟩
        exact ⟨p0, hp0, he1.trans (clearShadowPart_jobIds _ _)⟩
    · rw [if_neg hc]
      have IH := ih q os
        (fun x hx => h1 x (List.mem_cons_of_mem _ hx))
        (fun p hp x hx => h2 p hp x (List.mem_cons_of_mem _ hx)) hInv
      refine ⟨IH.1, ?_, IH.2.2.1, IH.2.2.2⟩
      simp only [List.map_cons, IH.2.1]

theorem cycleResumePass_inv (orc : Oracle) :
    ∀ (todo : List GsJob) (q : GsPart) (os : List GsPart),
      (∀ j ∈ todo, j.job_id ∈ jobIds q) →
      (∀ p ∈ os, ∀ j ∈ todo, ¬ j.job_id ∈ jobIds p) →
      ShadowPrioInv (q :: os) →
      ShadowPrioInv ((cycleResumePass orc todo q os).q ::
          (cycleResumePass orc todo q os).others)
      ∧ (cycleResumePass orc todo q os).jobs.map (fun j => j.job_id) =
          todo.map (fun j => j.job_id)
      ∧ jobIds (cycleResumePass orc todo q os).q = jobIds q
      ∧ (∀ p ∈ (cycleResumePass orc todo q os).others,
          ∃ p0, p0 ∈ os ∧ jobIds p = jobIds p0) := by
  intro todo
  induction todo with
  | nil =>
    intro q os h1 h2 hInv
    rw [cycleResumePass]
    exact ⟨hInv, rfl, rfl, fun p hp => ⟨p, hp, rfl⟩⟩
  | cons j rest ih =>
    intro q os h1 h2 hInv
    rw [cycleResumePass]
    by_cases hc : j.row_state = RowState.active ∧ j.sig_state = SigState.suspend
    · rw [if_pos hc]
      simp only [castShadowAll, castShadowPart_self]
      have hOwn : j.toRef.job_id ∈ jobIds q := by
        rw [toRef_job_id]
        exact h1 j (List.mem_cons_self j rest)
      have hOth : ∀ p ∈ os, ¬ j.toRef.job_id ∈ jobIds p := by
        intro p hp
        rw [toRef_job_id]
        exact h2 p hp j (List.mem_cons_self j rest)
      have step2 := shadowPrioInv_castAll hOwn hOth hInv
      have IH := ih q (os.map (castShadowPart j.toRef q.priority))
        (fun x hx => h1 x (List.mem_cons_of_mem _ hx))
        (fun p hp x hx => by
          rcases List.mem_map.1 hp with ⟨p0, hp0, rfl⟩
          rw [castShadowPart_jobIds]
          exact h2 p0 hp0 x (List.mem_cons_of_mem _ hx))
        step2
      refine ⟨IH.1, ?_, IH.2.2.1, ?_⟩
      · simp only [List.map_cons, IH.2.1]
      · intro p hp
        rcases IH.2.2.2 p hp with ⟨p1, hp1, he1⟩
        rcases List.mem_map.1 hp1 with ⟨p0, hp0, rfl⟩
        exact ⟨p0, hp0, he1.trans (castShadowPart_jobIds _ _ _)⟩
    · rw [if_neg hc]
      have IH := ih q os
        (fun x hx => h1 x (List.mem_cons_of_mem _ hx))
        (fun p hp x hx => h2 p hp x (List.mem_cons_of_mem _ hx)) hInv
      refine ⟨IH.1, ?_, IH.2.2.1, IH.2.2.2⟩
      simp only [List.map_cons, IH.2.1]

theorem buildActiveRow_priority (cfg : GsConfig) (p : GsPart)
    (hND : ∀ j ∈ p.job_list, j.row_state = RowState.noActive) :
    (buildActiveRow cfg p).priority = p.priority := by
  rw [buildActiveRow]
  by_cases hE : p.job_list.isEmpty = true
  · rw [if_pos hE]
  · rw [if_neg hE]
    dsimp only
    rw [(buildJobsPass_spec cfg p.job_list
        (shadowPhase cfg { p with jobs_active := 0 }) hND).2.2.1,
      (shadowPhase_spec cfg { p with jobs_active := 0 }).2.2.1]

theorem buildActiveRow_inv (cfg : GsConfig) (p : GsPart) (os : List GsPart)
    (hND : ∀ j ∈ p.job_list, j.row_state = RowState.noActive)
    (hInv : ShadowPrioInv (p :: os)) :
    ShadowPrioInv (buildActiveRow cfg p :: os) := by
  have BA := buildActiveRow_spec cfg p hND
  refine shadowPrioInv_mono_q (buildActiveRow_priority cfg p hND) ?_ ?_ hInv
  · intro s hs
    rwa [BA.1] at hs
  · intro id hid
    have : id ∈ (buildActiveRow cfg p).job_list.map (fun j => j.job_id) := hid
    rw [BA.2.1] at this
    exact this

theorem updateActiveRow_inv (cfg : GsConfig) (orc : Oracle) (b : Bool)
    (q : GsPart) (os : List GsPart)
    (h2 : ∀ p ∈ os, ∀ id ∈ jobIds q, ¬ id ∈ jobIds p)
    (hInv : ShadowPrioInv (q :: os)) :
    ShadowPrioInv ((updateActiveRow cfg orc b q os).q ::
        (updateActiveRow cfg orc b q os).others) := by
  have SPs := shadowPhase_spec cfg { q with jobs_active := 0 }
  have hQ0ids : jobIds (shadowPhase cfg { q with jobs_active := 0 }) =
      jobIds q := by
    unfold jobIds
    rw [SPs.2.2.2]
  have hInv0 : ShadowPrioInv
      (shadowPhase cfg { q with jobs_active := 0 } :: os) := by
    refine shadowPrioInv_mono_q ?_ ?_ ?_ hInv
    · rw [SPs.2.2.1]
    · intro s hs
      rw [SPs.2.1] at hs
      exact hs
    · intro id hid
      rwa [hQ0ids] at hid
  have h1A : ∀ j ∈ q.job_list, j.job_id ∈
      jobIds (shadowPhase cfg { q with jobs_active := 0 }) := by
    intro j hj
    rw [hQ0ids]
    exact List.mem_map.2 ⟨j, hj, rfl⟩
  have h2A : ∀ p ∈ os, ∀ j ∈ q.job_list, ¬ j.job_id ∈ jobIds p := by
    intro p hp j hj
    exact h2 p hp j.job_id (List.mem_map.2 ⟨j, hj, rfl⟩)
  have SA := seatPass_inv cfg orc RowState.active q.job_list
    (shadowPhase cfg { q with jobs_active := 0 }) os h1A h2A hInv0
  have h1F : ∀ j ∈ (seatPass cfg orc RowState.active q.job_list
        (shadowPhase cfg { q with jobs_active := 0 }) os).jobs,
      j.job_id ∈ jobIds (seatPass cfg orc RowState.active q.job_list
        (shadowPhase cfg { q with jobs_active := 0 }) os).q := by
    intro j hj
    rw [SA.2.2.1, hQ0ids]
    have hm : j.job_id ∈ (seatPass cfg orc RowState.active q.job_list
        (shadowPhase cfg { q with jobs_active := 0 }) os).jobs.map
          (fun x => x.job_id) := List.mem_map.2 ⟨j, hj, rfl⟩
    rw [SA.2.1] at hm
    exact hm
  have h2F : ∀ p ∈ (seatPass cfg orc RowState.active q.job_list
        (shadowPhase cfg { q with jobs_active := 0 }) os).others,
      ∀ j ∈ (seatPass cfg orc RowState.active q.job_list
        (shadowPhase cfg { q with jobs_active := 0 }) os).jobs,
      ¬ j.job_id ∈ jobIds p := by
    intro p hp j hj
    rcases SA.2.2.2 p hp with ⟨p0, hp0, he⟩
    rw [he]
    have hm : j.job_id ∈ (seatPass cfg orc RowState.active q.job_list
        (shadowPhase cfg { q with jobs_active := 0 }) os).jobs.map
          (fun x => x.job_id) := List.mem_map.2 ⟨j, hj, rfl⟩
    rw [SA.2.1] at hm
    exact h2 p0 hp0 j.job_id hm
  have SF := seatPass_inv cfg orc RowState.filler
    (seatPass cfg orc RowState.active q.job_list
      (shadowPhase cfg { q with jobs_active := 0 }) os).jobs
    (seatPass cfg orc RowState.active q.job_list
      (shadowPhase cfg { q with jobs_active := 0 }) os).q
    (seatPass cfg orc RowState.active q.job_list
      (shadowPhase cfg { q with jobs_active := 0 }) os).others h1F h2F SA.1
  cases b with
  | false =>
    rw [updateActiveRow]
    simp only [Bool.false_eq_true, if_false]
    refine shadowPrioInv_mono_q ?_ ?_ ?_ SF.1
    · rfl
    · exact fun s hs => hs
    intro id hid
    have hm : id ∈ (seatPass cfg orc RowState.filler
        (seatPass cfg orc RowState.active q.job_list
          (shadowPhase cfg { q with jobs_active := 0 }) os).jobs
        (seatPass cfg orc RowState.active q.job_list
          (shadowPhase cfg { q with jobs_active := 0 }) os).q
        (seatPass cfg orc RowState.active q.job_list
          (shadowPhase cfg { q with jobs_active := 0 }) os).others).jobs.map
          (fun x => x.job_id) := hid
    rw [SF.2.1, SA.2.1] at hm
    rw [SF.2.2.1, SA.2.2.1, hQ0ids]
    exact hm
  | true =>
    rw [updateActiveRow]
    simp only [if_true]
    have h1N : ∀ j ∈ (seatPass cfg orc RowState.filler
          (seatPass cfg orc RowState.active q.job_list
            (shadowPhase cfg { q with jobs_active := 0 }) os).jobs
          (seatPass cfg orc RowState.active q.job_list
            (shadowPhase cfg { q with jobs_active := 0 }) os).q
          (seatPass cfg orc RowState.active q.job_list
            (shadowPhase cfg { q with jobs_active := 0 }) os).others).jobs,
        j.job_id ∈ jobIds (seatPass cfg orc RowState.filler
          (seatPass cfg orc RowState.active q.job_list
            (shadowPhase cfg { q with jobs_active := 0 }) os).jobs
          (seatPass cfg orc RowState.active q.job_list
            (shadowPhase cfg { q with jobs_active := 0 }) os).q
          (seatPass cfg orc RowState.active q.job_list
            (shadowPhase cfg { q with jobs_active := 0 }) os).others).q := by
      intro j hj
      rw [SF.2.2.1, SA.2.2.1, hQ0ids]
      have hm := List.mem_map_of_mem (fun x : GsJob => x.job_id) hj
      rw [SF.2.1, SA.2.1] at hm
      exact hm
    have h2N : ∀ p ∈ (seatPass cfg orc RowState.filler
          (seatPass cfg orc RowState.active q.job_list
            (shadowPhase cfg { q with jobs_active := 0 }) os).jobs
          (seatPass cfg orc RowState.active q.job_list
            (shadowPhase cfg { q with jobs_active := 0 }) os).q
          (seatPass cfg orc RowState.active q.job_list
            (shadowPhase cfg { q with jobs_active := 0 }) os).others).others,
        ∀ j ∈ (seatPass cfg orc RowState.filler
          (seatPass cfg orc RowState.active q.job_list
            (shadowPhase cfg { q with jobs_active := 0 }) os).jobs
          (seatPass cfg orc RowState.active q.job_list
            (shadowPhase cfg { q with jobs_active := 0 }) os).q
          (seatPass cfg orc RowState.active q.job_list
            (shadowPhase cfg { q with jobs_active := 0 }) os).others).jobs,
        ¬ j.job_id ∈ jobIds p := by
      intro p hp j hj
      rcases SF.2.2.2 p hp with ⟨p1, hp1, he1⟩
      rcases SA.2.2.2 p1 hp1 with ⟨p0, hp0, he0⟩
      rw [he1, he0]
      have hm := List.mem_map_of_mem (fun x : GsJob => x.job_id) hj
      rw [SF.2.1, SA.2.1] at hm
      exact h2 p0 hp0 j.job_id hm
    have SN := newPass_inv cfg orc
      (seatPass cfg orc RowState.filler
        (seatPass cfg orc RowState.active q.job_list
          (shadowPhase cfg { q with jobs_active := 0 }) os).jobs
        (seatPass cfg orc RowState.active q.job_list
          (shadowPhase cfg { q with jobs_active := 0 }) os).q
        (seatPass cfg orc RowState.active q.job_list
          (shadowPhase cfg { q with jobs_active := 0 }) os).others).jobs
      (seatPass cfg orc RowState.filler
        (seatPass cfg orc RowState.active q.job_list
          (shadowPhase cfg { q with jobs_active := 0 }) os).jobs
        (seatPass cfg orc RowState.active q.job_list
          (shadowPhase cfg { q with jobs_active := 0 }) os).q
        (seatPass cfg orc RowState.active q.job_list
          (shadowPhase cfg { q with jobs_active := 0 }) os).others).q
      (seatPass cfg orc RowState.filler
        (seatPass cfg orc RowState.active q.job_list
          (shadowPhase cfg { q with jobs_active := 0 }) os).jobs
        (seatPass cfg orc RowState.active q.job_list
          (shadowPhase cfg { q with jobs_active := 0 }) os).q
        (seatPass cfg orc RowState.active q.job_list
          (shadowPhase cfg { q with jobs_active := 0 }) os).others).others
      h1N h2N SF.1
    refine shadowPrioInv_mono_q ?_ ?_ ?_ SN.1
    · rfl
    · exact fun s hs => hs
    intro id hid
    have hm : id ∈ (newPass cfg orc
        (seatPass cfg orc RowState.filler
          (seatPass cfg orc RowState.active q.job_list
            (shadowPhase cfg { q with jobs_active := 0 }) os).jobs
          (seatPass cfg orc RowState.active q.job_list
            (shadowPhase cfg { q with jobs_active := 0 }) os).q
          (seatPass cfg orc RowState.active q.job_list
            (shadowPhase cfg { q with jobs_active := 0 }) os).others).jobs
        (seatPass cfg orc RowState.filler
          (seatPass cfg orc RowState.active q.job_list
            (shadowPhase cfg { q with jobs_active := 0 }) os).jobs
          (seatPass cfg orc RowState.active q.job_list
            (shadowPhase cfg { q with jobs_active := 0 }) os).q
          (seatPass cfg orc RowState.active q.job_list
            (shadowPhase cfg { q with jobs_active := 0 }) os).others).q
        (seatPass cfg orc RowState.filler
          (seatPass cfg orc RowState.active q.job_list
            (shadowPhase cfg { q with jobs_active := 0 }) os).jobs
          (seatPass cfg orc RowState.active q.job_list
            (shadowPhase cfg { q with jobs_active := 0 }) os).q
          (seatPass cfg orc RowState.active q.job_list
            (shadowPhase cfg { q with jobs_active := 0 }) os).others).others).jobs.map
          (fun x => x.job_id) := hid
    rw [SN.2.1, SF.2.1, SA.2.1] at hm
    rw [SN.2.2.1, SF.2.2.1, SA.2.2.1, hQ0ids]
    exact hm

theorem jobIds_eraseIdx_sub (l : List GsJob) (i : Nat) (id : Nat)
    (h : id ∈ (l.eraseIdx i).map (fun j => j.job_id)) :
    id ∈ l.map (fun j => j.job_id) := by
  rcases List.mem_map.1 h with ⟨j, hj, rfl⟩
  exact List.mem_map_of_mem _ ((List.eraseIdx_sublist l i).subset hj)

theorem cycleJobList_inv (cfg : GsConfig) (orc : Oracle) (q : GsPart)
    (os : List GsPart)
    (h2 : ∀ p ∈ os, ∀ id ∈ jobIds q, ¬ id ∈ jobIds p)
    (hInv : ShadowPrioInv (q :: os)) :
    ShadowPrioInv ((cycleJobList cfg orc q os).q ::
        (cycleJobList cfg orc q os).others) := by
  have hND : ∀ j ∈ ({ q with job_list := cycleReorder q.job_list } :
      GsPart).job_list, j.row_state = RowState.noActive :=
    fun j hj => cycleReorder_noActive q.job_list j hj
  have hIds1 : ∀ id, id ∈ jobIds { q with job_list := cycleReorder q.job_list } →
      id ∈ jobIds q := by
    intro id hid
    rcases List.mem_map.1 hid with ⟨j, hj, rfl⟩
    exact cycleReorder_id_mem q.job_list j hj
  have hInv1 : ShadowPrioInv
      ({ q with job_list := cycleReorder q.job_list } :: os) := by
    refine shadowPrioInv_mono_q ?_ ?_ hIds1 hInv
    · rfl
    · exact fun s hs => hs
  have hInv2 : ShadowPrioInv
      (buildActiveRow cfg { q with job_list := cycleReorder q.job_list } :: os) :=
    buildActiveRow_inv cfg _ os hND hInv1
  have BA := buildActiveRow_spec cfg
    { q with job_list := cycleReorder q.job_list } hND
  have hIds2 : ∀ id, id ∈
      jobIds (buildActiveRow cfg { q with job_list := cycleReorder q.job_list }) →
      id ∈ jobIds q := by
    intro id hid
    have hm : id ∈ (buildActiveRow cfg
        { q with job_list := cycleReorder q.job_list }).job_list.map
          (fun j => j.job_id) := hid
    rw [BA.2.1] at hm
    exact hIds1 id hm
  have h1S : ∀ j ∈ (buildActiveRow cfg
        { q with job_list := cycleReorder q.job_list }).job_list,
      j.job_id ∈ jobIds (buildActiveRow cfg
        { q with job_list := cycleReorder q.job_list }) :=
    fun j hj => List.mem_map_of_mem _ hj
  have h2S : ∀ p ∈ os, ∀ j ∈ (buildActiveRow cfg
        { q with job_list := cycleReorder q.job_list }).job_list,
      ¬ j.job_id ∈ jobIds p :=
    fun p hp j hj => h2 p hp j.job_id (hIds2 _ (List.mem_map_of_mem _ hj))
  have SS := cycleSuspendPass_inv orc
    (buildActiveRow cfg { q with job_list := cycleReorder q.job_list }).job_list
    (buildActiveRow cfg { q with job_list := cycleReorder q.job_list }) os
    h1S h2S hInv2
  have h1R : ∀ j ∈ (cycleSuspendPass orc
        (buildActiveRow cfg { q with job_list := cycleReorder q.job_list }).job_list
        (buildActiveRow cfg { q with job_list := cycleReorder q.job_list }) os).jobs,
      j.job_id ∈ jobIds (cycleSuspendPass orc
        (buildActiveRow cfg { q with job_list := cycleReorder q.job_list }).job_list
        (buildActiveRow cfg { q with job_list := cycleReorder q.job_list }) os).q := by
    intro j hj
    rw [SS.2.2.1]
    have hm := List.mem_map_of_mem (fun x : GsJob => x.job_id) hj
    rw [SS.2.1] at hm
    exact hm
  have h2R : ∀ p ∈ (cycleSuspendPass orc
        (buildActiveRow cfg { q with job_list := cycleReorder q.job_list }).job_list
        (buildActiveRow cfg { q with job_list := cycleReorder q.job_list }) os).others,
      ∀ j ∈ (cycleSuspendPass orc
        (buildActiveRow cfg { q with job_list := cycleReorder q.job_list }).job_list
        (buildActiveRow cfg { q with job_list := cycleReorder q.job_list }) os).jobs,
      ¬ j.job_id ∈ jobIds p := by
    intro p hp j hj
    rcases SS.2.2.2 p hp with ⟨p0, hp0, he⟩
    rw [he]
    have hm := List.mem_map_of_mem (fun x : GsJob => x.job_id) hj
    rw [SS.2.1] at hm
    exact h2 p0 hp0 j.job_id (hIds2 _ hm)
  have SR := cycleResumePass_inv orc
    (cycleSuspendPass orc
      (buildActiveRow cfg { q with job_list := cycleReorder q.job_list }).job_list
      (buildActiveRow cfg { q with job_list := cycleReorder q.job_list }) os).jobs
    (cycleSuspendPass orc
      (buildActiveRow cfg { q with job_list := cycleReorder q.job_list }).job_list
      (buildActiveRow cfg { q with job_list := cycleReorder q.job_list }) os).q
    (cycleSuspendPass orc
      (buildActiveRow cfg { q with job_list := cycleReorder q.job_list }).job_list
      (buildActiveRow cfg { q with job_list := cycleReorder q.job_list }) os).others
    h1R h2R SS.1
  rw [cycleJobList]
  refine shadowPrioInv_mono_q ?_ ?_ ?_ SR.1
  · rfl
  · exact fun s hs => hs
  · intro id hid
    have hm : id ∈ (cycleResumePass orc
        (cycleSuspendPass orc
          (buildActiveRow cfg { q with job_list := cycleReorder q.job_list }).job_list
          (buildActiveRow cfg { q with job_list := cycleReorder q.job_list }) os).jobs
        (cycleSuspendPass orc
          (buildActiveRow cfg { q with job_list := cycleReorder q.job_list }).job_list
          (buildActiveRow cfg { q with job_list := cycleReorder q.job_list }) os).q
        (cycleSuspendPass orc
          (buildActiveRow cfg { q with job_list := cycleReorder q.job_list }).job_list
          (buildActiveRow cfg { q with job_list := cycleReorder q.job_list }) os).others).jobs.map
          (fun x => x.job_id) := hid
    rw [SR.2.1, SS.2.1] at hm
    rw [SR.2.2.1, SS.2.2.1]
    exact hm

theorem removeJobFromPart_inv (orc : Oracle) (job_id : Nat) (q : GsPart)
    (os : List GsPart) (hInv : ShadowPrioInv (q :: os)) :
    ShadowPrioInv ((removeJobFromPart orc job_id q os).q ::
        (removeJobFromPart orc job_id q os).others) := by
  rw [removeJobFromPart]
  by_cases h0 : job_id = 0
  · rw [if_pos h0]
    exact hInv
  · rw [if_neg h0]
    cases hF : findJobIndex q job_id with
    | none => exact hInv
    | some i =>
      simp only [clearShadowAll]
      refine shadowPrioInv_mono_q ?_ ?_ ?_
        (shadowPrioInv_clearAll (r := (q.job_list.getD i default).toRef) hInv)
      · rfl
      · exact fun s hs => hs
      · intro id hid
        have hm : id ∈ ((clearShadowPart (q.job_list.getD i default).toRef
            q).job_list.eraseIdx i).map (fun j => j.job_id) := hid
        have := jobIds_eraseIdx_sub _ i id hm
        exact this

theorem addJobToPart_inv (cfg : GsConfig) (orc : Oracle) (q : GsPart)
    (os : List GsPart) (job_id : Nat) (bitmap : List Bool)
    (hF : findJobIndex q job_id = none)
    (hSh : ∀ p ∈ q :: os, ¬ job_id ∈ shadowIds p)
    (hNew : ∀ p ∈ os, ¬ job_id ∈ jobIds p)
    (hInv : ShadowPrioInv (q :: os)) :
    ShadowPrioInv ((addJobToPart cfg orc q os job_id bitmap).1.q ::
        (addJobToPart cfg orc q os job_id bitmap).1.others) := by
  rw [addJobToPart]
  simp only [hF, Option.isSome_none, Bool.false_eq_true, if_false]
  by_cases hfit : jobFitsInActiveRow cfg (mkGsJob cfg job_id bitmap) q = true
  · rw [if_pos hfit]
    simp only [castShadowAll, castShadowPart_self]
    have InvA : ShadowPrioInv ({ q with job_list := q.job_list ++
        [{ mkGsJob cfg job_id bitmap with row_state := RowState.filler }] } :: os) :=
      shadowPrioInv_append_job (fun p hp => hSh p hp) hInv
    have hqAids : job_id ∈ jobIds { q with job_list := q.job_list ++
        [{ mkGsJob cfg job_id bitmap with row_state := RowState.filler }] } := by
      simp [jobIds, mkGsJob]
    have InvB : ShadowPrioInv (addJobToActive cfg (mkGsJob cfg job_id bitmap).toRef
        { q with job_list := q.job_list ++
          [{ mkGsJob cfg job_id bitmap with row_state := RowState.filler }] } :: os) := by
      refine shadowPrioInv_mono_q (addJobToActive_priority _ _ _) ?_ ?_ InvA
      · intro s hs
        rwa [addJobToActive_shadows] at hs
      · intro id hid
        rwa [addJobToActive_jobIds] at hid
    have hOwn : (mkGsJob cfg job_id bitmap).toRef.job_id ∈
        jobIds (addJobToActive cfg (mkGsJob cfg job_id bitmap).toRef
          { q with job_list := q.job_list ++
            [{ mkGsJob cfg job_id bitmap with row_state := RowState.filler }] }) := by
      rw [addJobToActive_jobIds]
      exact hqAids
    have hOth : ∀ p ∈ os, ¬ (mkGsJob cfg job_id bitmap).toRef.job_id ∈ jobIds p :=
      fun p hp => hNew p hp
    exact shadowPrioInv_castAll hOwn hOth InvB
  · rw [if_neg hfit]
    exact shadowPrioInv_append_job (fun p hp => hSh p hp) hInv

def c6Q : GsPart :=
  ⟨"hi", 9, [⟨7, SigState.resume, RowState.noActive, [true, false], none⟩],
    [], 0, none, none⟩

def c6P : GsPart := ⟨"lo", 3, [], [⟨7, [true, false], none⟩], 0, none, none⟩

/-- C6: priority monotonicity is an invariant: if every shadow entry's
owning partition has strictly higher priority than the partition
holding the shadow (and the partitions' job lists are disjoint, as they
are in the gang scheduler where a job belongs to one partition), then
the invariant is preserved by `_update_active_row`, `_cycle_job_list`,
`_remove_job_from_part`, and `_add_job_to_part` (for a fresh job id
with no stale shadow entries); and `_cast_shadow` never adds a shadow
to a partition whose priority equals or exceeds the owner's, because
its priority filter skips such partitions. -/
theorem c6_shadow_priority_invariant :
    (∀ (r : ShadowRef) (prio : Nat) (p : GsPart),
        prio ≤ p.priority → castShadowPart r prio p = p)
    ∧ ∀ (cfg : GsConfig) (orc : Oracle) (b : Bool) (job_id : Nat)
        (bitmap : List Bool) (q : GsPart) (os : List GsPart),
        ShadowPrioInv (q :: os) →
        (∀ p ∈ os, ∀ id ∈ jobIds q, ¬ id ∈ jobIds p) →
        ShadowPrioInv ((updateActiveRow cfg orc b q os).q ::
            (updateActiveRow cfg orc b q os).others)
        ∧ ShadowPrioInv ((cycleJobList cfg orc q os).q ::
            (cycleJobList cfg orc q os).others)
        ∧ ShadowPrioInv ((removeJobFromPart orc job_id q os).q ::
            (removeJobFromPart orc job_id q os).others)
        ∧ (findJobIndex q job_id = none →
            (∀ p ∈ q :: os, ¬ job_id ∈ shadowIds p) →
            (∀ p ∈ os, ¬ job_id ∈ jobIds p) →
            ShadowPrioInv ((addJobToPart cfg orc q os job_id bitmap).1.q ::
                (addJobToPart cfg orc q os job_id bitmap).1.others)) := by
  refine ⟨?_, ?_⟩
  · intro r prio p h
    rw [castShadowPart, if_pos h]
  · intro cfg orc b job_id bitmap q os hInv h2
    exact ⟨updateActiveRow_inv cfg orc b q os h2 hInv,
      cycleJobList_inv cfg orc q os h2 hInv,
      removeJobFromPart_inv orc job_id q os hInv,
      fun hF hSh hNew =>
        addJobToPart_inv cfg orc q os job_id bitmap hF hSh hNew hInv⟩

/-- Witness for C6: a high-priority partition owning job 7 and a
low-priority partition holding its shadow satisfy the invariant, and a
cycle of the high partition preserves it. -/
theorem c6_shadow_priority_invariant_witness :
    ShadowPrioInv (c6Q :: [c6P]) ∧
    ShadowPrioInv ((cycleJobList cfgNodeT orcZero c6Q [c6P]).q ::
        (cycleJobList cfgNodeT orcZero c6Q [c6P]).others) :=
  ⟨by decide, (c6_shadow_priority_invariant.2 cfgNodeT orcZero true 5 [] c6Q
      [c6P] (by decide) (by decide)).2.1⟩

/-! ## C5 amended: idempotence for an isolated Node/Socket partition -/

def bitGet (m : List Bool) (i : Nat) : Bool := m.getD i false

def rowHas (ms : List (List Bool)) (i : Nat) : Bool :=
  ms.any (fun m => bitGet m i)

/-- Resource maps of the jobs currently seated in row state `s`, in
job-list order. -/
def stateMaps (s : RowState) (js : List GsJob) : List (List Bool) :=
  (js.filter (fun j => j.row_state = s)).map (fun j => j.resmap)

/-- All active-row contributions of a job list: active jobs then
filler jobs, each in list order. -/
def contribs (js : List GsJob) : List (List Bool) :=
  stateMaps RowState.active js ++ stateMaps RowState.filler js

def DisjB (a b : List Bool) : Prop :=
  ∀ i, bitGet a i = true → bitGet b i = false

theorem disjB_symm : ∀ {a b : List Bool}, DisjB a b → DisjB b a := by
  intro a b h i hb
  cases ha : bitGet a i with
  | false => rfl
  | true => rw [h i ha] at hb; cases hb

theorem bitGet_nil (i : Nat) : bitGet [] i = false := by
  cases i <;> rfl

theorem bitGet_cons_zero (x : Bool) (xs : List Bool) :
    bitGet (x :: xs) 0 = x := rfl

theorem bitGet_cons_succ (x : Bool) (xs : List Bool) (i : Nat) :
    bitGet (x :: xs) (i + 1) = bitGet xs i := rfl

theorem bitGet_of_le_length {m : List Bool} {i : Nat}
    (h : m.length ≤ i) : bitGet m i = false := by
  induction m generalizing i with
  | nil => exact bitGet_nil i
  | cons x xs ih =>
    cases i with
    | zero => simp at h
    | succ n =>
      rw [bitGet_cons_succ]
      exact ih (by simpa using h)

theorem popcount_bitAnd_zero_iff (a b : List Bool) :
    popcount (bitAnd a b) = 0 ↔ DisjB a b := by
  induction a generalizing b with
  | nil =>
    simp only [bitAnd, popcount, List.zipWith_nil_left, List.count_nil]
    constructor
    · intro _ i hi
      rw [bitGet_nil] at hi
      cases hi
    · intro _
      trivial
  | cons x xs ih =>
    cases b with
    | nil =>
      simp only [bitAnd, popcount, List.zipWith_nil_right, List.count_nil]
      constructor
      · intro _ i hi
        exact bitGet_nil i
      · intro _
        trivial
    | cons y ys =>
      simp only [bitAnd, popcount, List.zipWith_cons_cons, List.count_cons]
      constructor
      · intro h
        have h1 : (xs.zipWith and ys).count true = 0 := by omega
        have h2 : and x y = false := by
          cases hc : and x y with
          | false => rfl
          | true => simp [hc] at h
        intro i hi
        cases i with
        | zero =>
          rw [bitGet_cons_zero] at hi ⊢
          cases y with
          | false => rfl
          | true =>
            rw [hi] at h2
            cases h2
        | succ n =>
          rw [bitGet_cons_succ] at hi ⊢
          exact (ih ys).1 h1 n hi
      · intro h
        have h0 : and x y = false := by
          cases hx : x with
          | false => rfl
          | true =>
            have h0 := h 0 (by rw [bitGet_cons_zero]; exact hx)
            rw [bitGet_cons_zero] at h0
            rw [h0]
            rfl
        have h2 : popcount (bitAnd xs ys) = 0 :=
          (ih ys).2 (fun i hi => h (i + 1) hi)
        simp only [popcount, bitAnd] at h2
        rw [h0, h2]
        simp

theorem bitOr_length (a b : List Bool) :
    (bitOr a b).length = min a.length b.length := by
  simp [bitOr]

theorem bitGet_bitOr {a b : List Bool} (h : a.length = b.length) (i : Nat) :
    bitGet (bitOr a b) i = (bitGet a i || bitGet b i) := by
  induction a generalizing b i with
  | nil =>
    cases b with
    | nil => simp [bitOr, bitGet_nil]
    | cons y ys => simp at h
  | cons x xs ih =>
    cases b with
    | nil => simp at h
    | cons y ys =>
      cases i with
      | zero => rfl
      | succ n =>
        simp only [bitOr, List.zipWith_cons_cons, bitGet_cons_succ]
        exact ih (by simpa using h) n

theorem rowHas_nil (i : Nat) : rowHas [] i = false := rfl

theorem rowHas_cons (m : List Bool) (ms : List (List Bool)) (i : Nat) :
    rowHas (m :: ms) i = (bitGet m i || rowHas ms i) := by
  simp [rowHas]

theorem rowHas_append (l1 l2 : List (List Bool)) (i : Nat) :
    rowHas (l1 ++ l2) i = (rowHas l1 i || rowHas l2 i) := by
  simp [rowHas, List.any_append]

theorem rowHas_eq_of_mem_iff {l1 l2 : List (List Bool)}
    (h : ∀ m, m ∈ l1 ↔ m ∈ l2) (i : Nat) : rowHas l1 i = rowHas l2 i := by
  cases h1 : rowHas l1 i with
  | true =>
    rcases List.any_eq_true.1 h1 with ⟨m, hm, hb⟩
    exact (List.any_eq_true.2 ⟨m, (h m).1 hm, hb⟩).symm
  | false =>
    cases h2 : rowHas l2 i with
    | false => rfl
    | true =>
      rcases List.any_eq_true.1 h2 with ⟨m, hm, hb⟩
      rw [← h1]
      exact List.any_eq_true.2 ⟨m, (h m).2 hm, hb⟩

theorem list_eq_of_getD : ∀ (a b : List Bool), a.length = b.length →
    (∀ i, bitGet a i = bitGet b i) → a = b
  | [], [], _, _ => rfl
  | [], y :: ys, hl, _ => by simp at hl
  | x :: xs, [], hl, _ => by simp at hl
  | x :: xs, y :: ys, hl, h => by
    have hx : x = y := h 0
    have ht : xs = ys :=
      list_eq_of_getD xs ys (by simpa using hl) (fun i => h (i + 1))
    rw [hx, ht]

theorem gsPart_ext {a b : GsPart} (h1 : a.part_name = b.part_name)
    (h2 : a.priority = b.priority) (h3 : a.job_list = b.job_list)
    (h4 : a.shadows = b.shadows) (h5 : a.jobs_active = b.jobs_active)
    (h6 : a.active_resmap = b.active_resmap)
    (h7 : a.active_cpus = b.active_cpus) : a = b := by
  cases a
  cases b
  simp_all

/-! Fit and add characterisations at Node/Socket granularity. -/

theorem fits_of_jobs_active_zero (cfg : GsConfig) (j : GsJob) (p : GsPart)
    (h : p.jobs_active = 0) : jobFitsInActiveRow cfg j p = true := by
  rw [jobFitsInActiveRow]
  cases hr : p.active_resmap with
  | none => rfl
  | some act =>
    try dsimp only
    rw [if_pos h]

theorem fits_of_disj (cfg : GsConfig) (j : GsJob) (p : GsPart)
    {act : List Bool} (hr : p.active_resmap = some act)
    (h : DisjB j.resmap act) : jobFitsInActiveRow cfg j p = true := by
  rw [jobFitsInActiveRow, hr]
  try dsimp only
  by_cases h0 : p.jobs_active = 0
  · rw [if_pos h0]
  · rw [if_neg h0]
    try dsimp only
    rw [if_pos ((popcount_bitAnd_zero_iff j.resmap act).2 h)]

theorem not_fits_of_overlap (cfg : GsConfig) (j : GsJob) (p : GsPart)
    {act : List Bool}
    (hgr : cfg.gr = GrType.node ∨ cfg.gr = GrType.socket)
    (hr : p.active_resmap = some act) (h0 : p.jobs_active ≠ 0)
    (h : ¬ DisjB j.resmap act) : jobFitsInActiveRow cfg j p = false := by
  rw [jobFitsInActiveRow, hr]
  try dsimp only
  rw [if_neg h0]
  try dsimp only
  rw [if_neg (fun hc => h ((popcount_bitAnd_zero_iff j.resmap act).1 hc))]
  rw [if_pos hgr]

theorem addJobToActive_part_name (cfg : GsConfig) (r : ShadowRef)
    (p : GsPart) : (addJobToActive cfg r p).part_name = p.part_name := by
  unfold addJobToActive
  repeat' split
  all_goals rfl

theorem addJobToActive_active_cpus (cfg : GsConfig) (r : ShadowRef)
    (p : GsPart) (hgr : cfg.gr = GrType.node ∨ cfg.gr = GrType.socket) :
    (addJobToActive cfg r p).active_cpus = p.active_cpus := by
  have hne : ¬ (cfg.gr = GrType.cpu ∨ cfg.gr = GrType.core) := by
    rcases hgr with h | h <;> rw [h] <;> intro hc <;> rcases hc with h1 | h1 <;>
      cases h1
  unfold addJobToActive
  try dsimp only
  rw [if_neg hne]

theorem addJobToActive_resmap_overwrite (cfg : GsConfig) (r : ShadowRef)
    (p : GsPart) (h : p.jobs_active = 0)
    (hgr : cfg.gr = GrType.node ∨ cfg.gr = GrType.socket) :
    (addJobToActive cfg r p).active_resmap = some r.resmap := by
  have hne : ¬ (cfg.gr = GrType.cpu ∨ cfg.gr = GrType.core) := by
    rcases hgr with h1 | h1 <;> rw [h1] <;> intro hc <;> rcases hc with h2 | h2 <;>
      cases h2
  unfold addJobToActive
  try dsimp only
  rw [if_neg hne]
  cases hr : p.active_resmap with
  | none => rfl
  | some a0 =>
    try dsimp only
    rw [if_pos h]

theorem addJobToActive_resmap_accum (cfg : GsConfig) (r : ShadowRef)
    (p : GsPart) {a0 : List Bool} (h : ¬ p.jobs_active = 0)
    (hr : p.active_resmap = some a0)
    (hgr : cfg.gr = GrType.node ∨ cfg.gr = GrType.socket) :
    (addJobToActive cfg r p).active_resmap = some (bitOr a0 r.resmap) := by
  have hne : ¬ (cfg.gr = GrType.cpu ∨ cfg.gr = GrType.core) := by
    rcases hgr with h1 | h1 <;> rw [h1] <;> intro hc <;> rcases hc with h2 | h2 <;>
      cases h2
  unfold addJobToActive
  try dsimp only
  rw [if_neg hne, hr]
  try dsimp only
  rw [if_neg h]

theorem stateMaps_nil (s : RowState) : stateMaps s [] = [] := rfl

theorem stateMaps_cons_pos {j : GsJob} {s : RowState} (rest : List GsJob)
    (h : j.row_state = s) :
    stateMaps s (j :: rest) = j.resmap :: stateMaps s rest := by
  simp [stateMaps, List.filter_cons, h]

theorem stateMaps_cons_neg {j : GsJob} {s : RowState} (rest : List GsJob)
    (h : ¬ j.row_state = s) :
    stateMaps s (j :: rest) = stateMaps s rest := by
  simp [stateMaps, List.filter_cons, h]

theorem disjB_rowHas {j : List Bool} {done : List (List Bool)}
    {R : List Bool} (hR : ∀ i, bitGet R i = rowHas done i)
    (h : ∀ m ∈ done, DisjB j m) : DisjB j R := by
  intro i hi
  rw [hR i]
  cases hrh : rowHas done i with
  | false => rfl
  | true =>
    rcases List.any_eq_true.1 hrh with ⟨m, hm, hb⟩
    rw [h m hm i hi] at hb
    cases hb

theorem rowHas_singleton (m : List Bool) (i : Nat) :
    rowHas [m] i = bitGet m i := by
  simp [rowHas]

theorem seatPass_replay (cfg : GsConfig) (orc : Oracle) (target : RowState)
    (w : Nat) (hgr : cfg.gr = GrType.node ∨ cfg.gr = GrType.socket) :
    ∀ (todo : List GsJob) (qc : GsPart) (done : List (List Bool)),
      (∀ j ∈ todo, j.resmap.length = w) →
      (∀ m ∈ done, m.length = w) →
      qc.jobs_active = done.length →
      (done ≠ [] → ∃ R, qc.active_resmap = some R ∧ R.length = w ∧
        (∀ i, bitGet R i = rowHas done i)) →
      List.Pairwise DisjB (done ++ stateMaps target todo) →
      (seatPass cfg orc target todo qc []).jobs = todo
      ∧ (seatPass cfg orc target todo qc []).others = []
      ∧ (seatPass cfg orc target todo qc []).sigs = []
      ∧ (seatPass cfg orc target todo qc []).logs = []
      ∧ (seatPass cfg orc target todo qc []).q.part_name = qc.part_name
      ∧ (seatPass cfg orc target todo qc []).q.priority = qc.priority
      ∧ (seatPass cfg orc target todo qc []).q.shadows = qc.shadows
      ∧ (seatPass cfg orc target todo qc []).q.job_list = qc.job_list
      ∧ (seatPass cfg orc target todo qc []).q.active_cpus = qc.active_cpus
      ∧ (seatPass cfg orc target todo qc []).q.jobs_active =
          (done ++ stateMaps target todo).length
      ∧ (done ++ stateMaps target todo ≠ [] →
          ∃ R, (seatPass cfg orc target todo qc []).q.active_resmap = some R
            ∧ R.length = w
            ∧ (∀ i, bitGet R i = rowHas (done ++ stateMaps target todo) i))
      ∧ (done ++ stateMaps target todo = [] →
          (seatPass cfg orc target todo qc []).q.active_resmap =
            qc.active_resmap) := by
  intro todo
  induction todo with
  | nil =>
    intro qc done hwt hwd hQ hrow hpw
    rw [seatPass]
    simp only [stateMaps_nil, List.append_nil]
    exact ⟨by trivial, by trivial, by trivial, by trivial, by trivial,
      by trivial, by trivial, by trivial, by trivial, hQ, hrow,
      fun _ => by trivial⟩
  | cons j rest ih =>
    intro qc done hwt hwd hQ hrow hpw
    rw [seatPass]
    by_cases hrs : j.row_state = target
    · rw [if_pos hrs]
      rw [stateMaps_cons_pos rest hrs] at hpw ⊢
      have hcross := (List.pairwise_append.1 hpw).2.2
      have hfit : jobFitsInActiveRow cfg j qc = true := by
        rcases eq_or_ne done [] with hd | hd
        · refine fits_of_jobs_active_zero cfg j qc ?_
          rw [hQ, hd]
          rfl
        · rcases hrow hd with ⟨R, hRr, hRl, hRp⟩
          refine fits_of_disj cfg j qc hRr (disjB_rowHas hRp ?_)
          intro m1 hm1
          exact disjB_symm (hcross m1 hm1 j.resmap
            (List.mem_cons_self _ _))
      rw [if_pos hfit]
      simp only [castShadowAll, castShadowPart_self, List.map_nil]
      have hq1ja : (addJobToActive cfg j.toRef qc).jobs_active =
          done.length + 1 := by
        rw [addJobToActive_jobs_active, hQ]
      have hrow' : done ++ [j.resmap] ≠ [] → ∃ R,
          (addJobToActive cfg j.toRef qc).active_resmap = some R ∧
          R.length = w ∧
          (∀ i, bitGet R i = rowHas (done ++ [j.resmap]) i) := by
        intro _
        rcases eq_or_ne done [] with hd | hdne
        · refine ⟨j.resmap, ?_, hwt j (List.mem_cons_self _ _), ?_⟩
          · refine addJobToActive_resmap_overwrite cfg j.toRef qc ?_ hgr
            rw [hQ, hd]
            rfl
          · intro i
            rw [hd]
            rw [List.nil_append, rowHas_singleton]
        · rcases hrow hdne with ⟨R, hRr, hRl, hRp⟩
          have hjw : j.resmap.length = w := hwt j (List.mem_cons_self _ _)
          refine ⟨bitOr R j.resmap, ?_, ?_, ?_⟩
          · refine addJobToActive_resmap_accum cfg j.toRef qc ?_ hRr hgr
            rw [hQ]
            intro hc
            rw [List.length_eq_zero] at hc
            exact hdne hc
          · rw [bitOr_length, hRl, hjw]
            exact Nat.min_self w
          · intro i
            rw [bitGet_bitOr (by rw [hRl, hjw]) i, hRp i, rowHas_append,
              rowHas_singleton]
      have IH := ih (addJobToActive cfg j.toRef qc) (done ++ [j.resmap])
        (fun x hx => hwt x (List.mem_cons_of_mem _ hx))
        (by
          intro m hm
          rcases List.mem_append.1 hm with h | h
          · exact hwd m h
          · rw [List.mem_singleton.1 h]
            exact hwt j (List.mem_cons_self _ _))
        (by rw [hq1ja, List.length_append]; rfl)
        hrow'
        (by rw [List.append_assoc, List.singleton_append]; exact hpw)
      refine ⟨?_, IH.2.1, IH.2.2.1, IH.2.2.2.1, ?_, ?_, ?_, ?_, ?_, ?_, ?_, ?_⟩
      · simp only [IH.1]
      · rw [IH.2.2.2.2.1, addJobToActive_part_name]
      · rw [IH.2.2.2.2.2.1, addJobToActive_priority]
      · rw [IH.2.2.2.2.2.2.1, addJobToActive_shadows]
      · rw [IH.2.2.2.2.2.2.2.1, addJobToActive_job_list]
      · rw [IH.2.2.2.2.2.2.2.2.1, addJobToActive_active_cpus cfg j.toRef qc hgr]
      · rw [IH.2.2.2.2.2.2.2.2.2.1, List.append_assoc, List.singleton_append]
      · intro _
        rcases IH.2.2.2.2.2.2.2.2.2.2.1 (by
            intro hc
            have := congrArg List.length hc
            simp at this) with ⟨R, h1, h2, h3⟩
        refine ⟨R, h1, h2, ?_⟩
        intro i
        rw [h3 i, List.append_assoc, List.singleton_append]
      · intro hc
        have := congrArg List.length hc
        simp at this
    · rw [if_neg hrs]
      rw [stateMaps_cons_neg rest hrs] at hpw ⊢
      have IH := ih qc done
        (fun x hx => hwt x (List.mem_cons_of_mem _ hx)) hwd hQ hrow hpw
      refine ⟨?_, IH.2.1, IH.2.2.1, IH.2.2.2.1, IH.2.2.2.2.1,
        IH.2.2.2.2.2.1, IH.2.2.2.2.2.2.1, IH.2.2.2.2.2.2.2.1,
        IH.2.2.2.2.2.2.2.2.1, IH.2.2.2.2.2.2.2.2.2.1,
        IH.2.2.2.2.2.2.2.2.2.2.1, IH.2.2.2.2.2.2.2.2.2.2.2⟩
      simp only [IH.1]

theorem newPass_replay (cfg : GsConfig) (orc : Oracle)
    (hgr : cfg.gr = GrType.node ∨ cfg.gr = GrType.socket) :
    ∀ (todo : List GsJob) (qc : GsPart) (done : List (List Bool)) (R : List Bool),
      done ≠ [] →
      qc.jobs_active = done.length →
      qc.active_resmap = some R →
      (∀ i, bitGet R i = rowHas done i) →
      (∀ j ∈ todo, j.row_state = RowState.noActive →
        ∃ i, bitGet j.resmap i = true ∧ rowHas done i = true) →
      newPass cfg orc todo qc [] = ⟨todo, qc, [], [], []⟩ := by
  intro todo
  induction todo with
  | nil =>
    intro qc done R hd hQ hr hRp hov
    rw [newPass]
  | cons j rest ih =>
    intro qc done R hd hQ hr hRp hov
    rw [newPass]
    have IH := ih qc done R hd hQ hr hRp
      (fun x hx hna => hov x (List.mem_cons_of_mem _ hx) hna)
    by_cases hrs : j.row_state = RowState.noActive
    · rw [if_pos hrs]
      have hfit : jobFitsInActiveRow cfg j qc = false := by
        refine not_fits_of_overlap cfg j qc hgr hr ?_ ?_
        · rw [hQ]
          intro hc
          rw [List.length_eq_zero] at hc
          exact hd hc
        · intro hdisj
          rcases hov j (List.mem_cons_self _ _) hrs with ⟨i, h1, h2⟩
          have := hdisj i h1
          rw [hRp i, h2] at this
          cases this
      rw [hfit]
      simp only [Bool.false_eq_true, if_false]
      rw [IH]
    · rw [if_neg hrs]
      rw [IH]

/-- A partition state that `_update_active_row` cannot change: the run
count matches the seated contributions, the active row is exactly
their union, seated maps are pairwise disjoint, and every unseated job
conflicts with the row. -/
def StablePart (w : Nat) (Q : GsPart) : Prop :=
  Q.shadows = []
  ∧ (∀ j ∈ Q.job_list, j.resmap.length = w)
  ∧ Q.jobs_active = (contribs Q.job_list).length
  ∧ List.Pairwise DisjB (contribs Q.job_list)
  ∧ (contribs Q.job_list = [] → Q.job_list = [])
  ∧ (contribs Q.job_list ≠ [] → ∃ U, Q.active_resmap = some U ∧
      U.length = w ∧ (∀ i, bitGet U i = rowHas (contribs Q.job_list) i))
  ∧ (∀ j ∈ Q.job_list, j.row_state = RowState.noActive →
      ∃ i, bitGet j.resmap i = true ∧ rowHas (contribs Q.job_list) i = true)

theorem shadowPhase_of_no_shadows (cfg : GsConfig) (q : GsPart)
    (h : q.shadows = []) : shadowPhase cfg q = q := by
  rw [shadowPhase, h]
  rfl

theorem stateMaps_width {w : Nat} {s : RowState} {js : List GsJob}
    (hw : ∀ j ∈ js, j.resmap.length = w) :
    ∀ m ∈ stateMaps s js, m.length = w := by
  intro m hm
  rcases List.mem_map.1 hm with ⟨j, hj, rfl⟩
  exact hw j (List.mem_filter.1 hj).1

theorem updateActiveRow_stable (cfg : GsConfig) (orc : Oracle) (w : Nat)
    (Q : GsPart) (hgr : cfg.gr = GrType.node ∨ cfg.gr = GrType.socket)
    (hst : StablePart w Q) :
    updateActiveRow cfg orc true Q [] = ⟨Q, [], [], []⟩ := by
  obtain ⟨hsh, hw, hja, hpw, hemp, hrow, hov⟩ := hst
  have hsp : shadowPhase cfg { Q with jobs_active := 0 } =
      { Q with jobs_active := 0 } :=
    shadowPhase_of_no_shadows cfg _ hsh
  have sA := seatPass_replay cfg orc RowState.active w hgr Q.job_list
    { Q with jobs_active := 0 } []
    hw (fun m hm => absurd hm (List.not_mem_nil m)) rfl
    (fun h => absurd rfl h)
    (by
      rw [List.nil_append]
      exact (List.pairwise_append.1 hpw).1)
  have eqF : seatPass cfg orc RowState.filler
      (seatPass cfg orc RowState.active Q.job_list
        { Q with jobs_active := 0 } []).jobs
      (seatPass cfg orc RowState.active Q.job_list
        { Q with jobs_active := 0 } []).q
      (seatPass cfg orc RowState.active Q.job_list
        { Q with jobs_active := 0 } []).others =
    seatPass cfg orc RowState.filler Q.job_list
      (seatPass cfg orc RowState.active Q.job_list
        { Q with jobs_active := 0 } []).q [] := by
    rw [sA.1, sA.2.1]
  have sF := seatPass_replay cfg orc RowState.filler w hgr Q.job_list
    (seatPass cfg orc RowState.active Q.job_list
      { Q with jobs_active := 0 } []).q
    (stateMaps RowState.active Q.job_list)
    hw (stateMaps_width hw)
    sA.2.2.2.2.2.2.2.2.2.1
    sA.2.2.2.2.2.2.2.2.2.2.1
    hpw
  rw [updateActiveRow, hsp]
  simp only [if_true]
  rw [eqF]
  rcases eq_or_ne (contribs Q.job_list) [] with hC | hC
  · have hjl : Q.job_list = [] := hemp hC
    have hN : newPass cfg orc
        (seatPass cfg orc RowState.filler Q.job_list
          (seatPass cfg orc RowState.active Q.job_list
            { Q with jobs_active := 0 } []).q []).jobs
        (seatPass cfg orc RowState.filler Q.job_list
          (seatPass cfg orc RowState.active Q.job_list
            { Q with jobs_active := 0 } []).q []).q
        (seatPass cfg orc RowState.filler Q.job_list
          (seatPass cfg orc RowState.active Q.job_list
            { Q with jobs_active := 0 } []).q []).others =
        ⟨Q.job_list,
          (seatPass cfg orc RowState.filler Q.job_list
            (seatPass cfg orc RowState.active Q.job_list
              { Q with jobs_active := 0 } []).q []).q, [], [], []⟩ := by
      rw [sF.1, sF.2.1, hjl, newPass]
    rw [hN]
    simp only [OpRes.mk.injEq]
    refine ⟨?_, ?_, ?_, ?_⟩
    · refine gsPart_ext ?_ ?_ ?_ ?_ ?_ ?_ ?_
      · show (seatPass cfg orc RowState.filler Q.job_list
            (seatPass cfg orc RowState.active Q.job_list
              { Q with jobs_active := 0 } []).q []).q.part_name = Q.part_name
        rw [sF.2.2.2.2.1, sA.2.2.2.2.1]
      · show (seatPass cfg orc RowState.filler Q.job_list
            (seatPass cfg orc RowState.active Q.job_list
              { Q with jobs_active := 0 } []).q []).q.priority = Q.priority
        rw [sF.2.2.2.2.2.1, sA.2.2.2.2.2.1]
      · show Q.job_list = Q.job_list
        rfl
      · show (seatPass cfg orc RowState.filler Q.job_list
            (seatPass cfg orc RowState.active Q.job_list
              { Q with jobs_active := 0 } []).q []).q.shadows = Q.shadows
        rw [sF.2.2.2.2.2.2.1, sA.2.2.2.2.2.2.1]
      · show (seatPass cfg orc RowState.filler Q.job_list
            (seatPass cfg orc RowState.active Q.job_list
              { Q with jobs_active := 0 } []).q []).q.jobs_active =
          Q.jobs_active
        rw [sF.2.2.2.2.2.2.2.2.2.1, hja, hC]
        have hA : stateMaps RowState.active Q.job_list = [] := by
          rw [hjl]
          rfl
        have hF : stateMaps RowState.filler Q.job_list = [] := by
          rw [hjl]
          rfl
        rw [hA, hF]
        rfl
      · show (seatPass cfg orc RowState.filler Q.job_list
            (seatPass cfg orc RowState.active Q.job_list
              { Q with jobs_active := 0 } []).q []).q.active_resmap =
          Q.active_resmap
        have hA : stateMaps RowState.active Q.job_list = [] := by
          rw [hjl]
          rfl
        have hF : stateMaps RowState.filler Q.job_list = [] := by
          rw [hjl]
          rfl
        rw [sF.2.2.2.2.2.2.2.2.2.2.2 (by rw [hA, hF]; rfl),
          sA.2.2.2.2.2.2.2.2.2.2.2 (by rw [hA]; rfl)]
      · show (seatPass cfg orc RowState.filler Q.job_list
            (seatPass cfg orc RowState.active Q.job_list
              { Q with jobs_active := 0 } []).q []).q.active_cpus =
          Q.active_cpus
        rw [sF.2.2.2.2.2.2.2.2.1, sA.2.2.2.2.2.2.2.2.1]
    · trivial
    · rw [sA.2.2.1, sF.2.2.1]
      rfl
    · rw [sA.2.2.2.1, sF.2.2.2.1]
      rfl
  · rcases sF.2.2.2.2.2.2.2.2.2.2.1 hC with ⟨R, hRr, hRl, hRp⟩
    have hN := newPass_replay cfg orc hgr Q.job_list
      (seatPass cfg orc RowState.filler Q.job_list
        (seatPass cfg orc RowState.active Q.job_list
          { Q with jobs_active := 0 } []).q []).q
      (contribs Q.job_list) R hC
      sF.2.2.2.2.2.2.2.2.2.1 hRr hRp hov
    have hN' : newPass cfg orc
        (seatPass cfg orc RowState.filler Q.job_list
          (seatPass cfg orc RowState.active Q.job_list
            { Q with jobs_active := 0 } []).q []).jobs
        (seatPass cfg orc RowState.filler Q.job_list
          (seatPass cfg orc RowState.active Q.job_list
            { Q with jobs_active := 0 } []).q []).q
        (seatPass cfg orc RowState.filler Q.job_list
          (seatPass cfg orc RowState.active Q.job_list
            { Q with jobs_active := 0 } []).q []).others =
        ⟨Q.job_list,
          (seatPass cfg orc RowState.filler Q.job_list
            (seatPass cfg orc RowState.active Q.job_list
              { Q with jobs_active := 0 } []).q []).q, [], [], []⟩ := by
      rw [sF.1, sF.2.1]
      exact hN
    rw [hN']
    simp only [OpRes.mk.injEq]
    refine ⟨?_, ?_, ?_, ?_⟩
    · refine gsPart_ext ?_ ?_ ?_ ?_ ?_ ?_ ?_
      · show (seatPass cfg orc RowState.filler Q.job_list
            (seatPass cfg orc RowState.active Q.job_list
              { Q with jobs_active := 0 } []).q []).q.part_name = Q.part_name
        rw [sF.2.2.2.2.1, sA.2.2.2.2.1]
      · show (seatPass cfg orc RowState.filler Q.job_list
            (seatPass cfg orc RowState.active Q.job_list
              { Q with jobs_active := 0 } []).q []).q.priority = Q.priority
        rw [sF.2.2.2.2.2.1, sA.2.2.2.2.2.1]
      · show Q.job_list = Q.job_list
        rfl
      · show (seatPass cfg orc RowState.filler Q.job_list
            (seatPass cfg orc RowState.active Q.job_list
              { Q with jobs_active := 0 } []).q []).q.shadows = Q.shadows
        rw [sF.2.2.2.2.2.2.1, sA.2.2.2.2.2.2.1]
      · show (seatPass cfg orc RowState.filler Q.job_list
            (seatPass cfg orc RowState.active Q.job_list
              { Q with jobs_active := 0 } []).q []).q.jobs_active =
          Q.jobs_active
        rw [sF.2.2.2.2.2.2.2.2.2.1, hja]
        rfl
      · show (seatPass cfg orc RowState.filler Q.job_list
            (seatPass cfg orc RowState.active Q.job_list
              { Q with jobs_active := 0 } []).q []).q.active_resmap =
          Q.active_resmap
        rcases hrow hC with ⟨U, hUr, hUl, hUp⟩
        rw [hRr, hUr]
        have : R = U := by
          refine list_eq_of_getD R U (by rw [hRl, hUl]) ?_
          intro i
          rw [hRp i, hUp i]
          rfl
        rw [this]
      · show (seatPass cfg orc RowState.filler Q.job_list
            (seatPass cfg orc RowState.active Q.job_list
              { Q with jobs_active := 0 } []).q []).q.active_cpus =
          Q.active_cpus
        rw [sF.2.2.2.2.2.2.2.2.1, sA.2.2.2.2.2.2.2.2.1]
    · trivial
    · rw [sA.2.2.1, sF.2.2.1]
      rfl
    · rw [sA.2.2.2.1, sF.2.2.2.1]
      rfl

theorem not_disjB_iff (a b : List Bool) :
    ¬ DisjB a b ↔ ∃ i, bitGet a i = true ∧ bitGet b i = true := by
  constructor
  · intro h
    by_contra hc
    push_neg at hc
    refine h ?_
    intro i hi
    cases hb : bitGet b i with
    | false => rfl
    | true => exact absurd hb (hc i hi)
  · rintro ⟨i, h1, h2⟩ hd
    rw [hd i h1] at h2
    cases h2

theorem overlap_of_not_fits (cfg : GsConfig) (j : GsJob) (p : GsPart)
    (hfit : jobFitsInActiveRow cfg j p = false) :
    ∃ act, p.active_resmap = some act ∧ p.jobs_active ≠ 0 ∧
      ¬ DisjB j.resmap act := by
  rw [jobFitsInActiveRow] at hfit
  cases hr : p.active_resmap with
  | none =>
    rw [hr] at hfit
    cases hfit
  | some act =>
    rw [hr] at hfit
    dsimp only at hfit
    by_cases h0 : p.jobs_active = 0
    · rw [if_pos h0] at hfit
      cases hfit
    · rw [if_neg h0] at hfit
      by_cases hpc : popcount (bitAnd j.resmap act) = 0
      · rw [if_pos hpc] at hfit
        cases hfit
      · exact ⟨act, rfl, h0,
          fun hd => hpc ((popcount_bitAnd_zero_iff j.resmap act).2 hd)⟩

theorem disjB_of_rowHas {j m R : List Bool} {done : List (List Bool)}
    (hR : ∀ i, bitGet R i = rowHas done i) (hm : m ∈ done)
    (h : DisjB j R) : DisjB j m := by
  intro i hi
  have h1 := h i hi
  rw [hR i] at h1
  cases hb : bitGet m i with
  | false => rfl
  | true =>
    have h2 : rowHas done i = true := List.any_eq_true.2 ⟨m, hm, hb⟩
    rw [h1] at h2
    cases h2

theorem pairwise_snoc_of_disj {done : List (List Bool)} {m : List Bool}
    (hpw : List.Pairwise DisjB done) (h : ∀ x ∈ done, DisjB x m) :
    List.Pairwise DisjB (done ++ [m]) := by
  rw [List.pairwise_append]
  refine ⟨hpw, List.pairwise_singleton _ _, ?_⟩
  intro x hx y hy
  rw [List.mem_singleton.1 hy]
  exact h x hx

theorem stateMaps_eq_nil_no_state {s : RowState} {l : List GsJob}
    (h : stateMaps s l = []) : ∀ j ∈ l, ¬ j.row_state = s := by
  intro j hj hc
  have : j.resmap ∈ stateMaps s l :=
    List.mem_map_of_mem _ (List.mem_filter.2 ⟨hj, by rw [hc]; simp⟩)
  rw [h] at this
  cases this

theorem seatPass_estab (cfg : GsConfig) (orc : Oracle) (target : RowState)
    (w : Nat) (hgr : cfg.gr = GrType.node ∨ cfg.gr = GrType.socket)
    (hT : target ≠ RowState.noActive) :
    ∀ (todo : List GsJob) (qc : GsPart) (done : List (List Bool)),
      (∀ j ∈ todo, j.resmap.length = w) →
      (∀ m ∈ done, m.length = w) →
      qc.shadows = [] →
      qc.jobs_active = done.length →
      (done ≠ [] → ∃ R, qc.active_resmap = some R ∧ R.length = w ∧
        (∀ i, bitGet R i = rowHas done i)) →
      List.Pairwise DisjB done →
      (seatPass cfg orc target todo qc []).others = []
      ∧ (seatPass cfg orc target todo qc []).q.part_name = qc.part_name
      ∧ (seatPass cfg orc target todo qc []).q.priority = qc.priority
      ∧ (seatPass cfg orc target todo qc []).q.shadows = []
      ∧ (seatPass cfg orc target todo qc []).q.job_list = qc.job_list
      ∧ (seatPass cfg orc target todo qc []).q.active_cpus = qc.active_cpus
      ∧ (∀ j ∈ (seatPass cfg orc target todo qc []).jobs, j.resmap.length = w)
      ∧ (∀ s, s ≠ target → s ≠ RowState.noActive →
          stateMaps s (seatPass cfg orc target todo qc []).jobs =
            stateMaps s todo)
      ∧ (∀ m ∈ done ++ stateMaps target (seatPass cfg orc target todo qc []).jobs,
          m.length = w)
      ∧ List.Pairwise DisjB
          (done ++ stateMaps target (seatPass cfg orc target todo qc []).jobs)
      ∧ (seatPass cfg orc target todo qc []).q.jobs_active =
          (done ++ stateMaps target (seatPass cfg orc target todo qc []).jobs).length
      ∧ (done ++ stateMaps target (seatPass cfg orc target todo qc []).jobs ≠ [] →
          ∃ R, (seatPass cfg orc target todo qc []).q.active_resmap = some R
            ∧ R.length = w
            ∧ (∀ i, bitGet R i = rowHas
                (done ++ stateMaps target (seatPass cfg orc target todo qc []).jobs) i))
      ∧ (done ++ stateMaps target (seatPass cfg orc target todo qc []).jobs = [] →
          (seatPass cfg orc target todo qc []).q.active_resmap = qc.active_resmap)
      ∧ (∀ j ∈ (seatPass cfg orc target todo qc []).jobs,
          j.row_state = RowState.noActive →
          j ∈ todo ∨ ∃ i, bitGet j.resmap i = true ∧
            rowHas (done ++ stateMaps target (seatPass cfg orc target todo qc []).jobs) i
              = true) := by
  intro todo
  induction todo with
  | nil =>
    intro qc done hwt hwd hsh hQ hrow hpw
    rw [seatPass]
    refine ⟨by trivial, by trivial, by trivial, ?_, by trivial, by trivial,
      ?_, ?_, ?_, ?_, ?_, ?_, ?_, ?_⟩
    · exact hsh
    · intro j hj
      cases hj
    · intro s h1 h2
      rfl
    · simp only [stateMaps_nil, List.append_nil]
      exact hwd
    · simp only [stateMaps_nil, List.append_nil]
      exact hpw
    · simp only [stateMaps_nil, List.append_nil]
      exact hQ
    · simp only [stateMaps_nil, List.append_nil]
      exact hrow
    · intro _
      rfl
    · intro j hj
      cases hj
  | cons j rest ih =>
    intro qc done hwt hwd hsh hQ hrow hpw
    rw [seatPass]
    by_cases hrs : j.row_state = target
    · rw [if_pos hrs]
      by_cases hfit : jobFitsInActiveRow cfg j qc = true
      · rw [if_pos hfit]
        simp only [castShadowAll, castShadowPart_self, List.map_nil]
        have hjw : j.resmap.length = w := hwt j (List.mem_cons_self _ _)
        have hdisj : ∀ m ∈ done, DisjB j.resmap m := by
          intro m hm
          rcases eq_or_ne done [] with hd | hd
          · rw [hd] at hm
            cases hm
          · rcases hrow hd with ⟨R, hRr, hRl, hRp⟩
            have hja0 : ¬ qc.jobs_active = 0 := by
              rw [hQ]
              intro hc
              rw [List.length_eq_zero] at hc
              exact hd hc
            have hdj : DisjB j.resmap R := by
              rw [jobFitsInActiveRow, hRr] at hfit
              dsimp only at hfit
              rw [if_neg hja0] at hfit
              by_cases hpc : popcount (bitAnd j.resmap R) = 0
              · exact (popcount_bitAnd_zero_iff _ _).1 hpc
              · rw [if_neg hpc, if_pos hgr] at hfit
                cases hfit
            exact disjB_of_rowHas hRp hm hdj
        have hq1ja : (addJobToActive cfg j.toRef qc).jobs_active =
            done.length + 1 := by
          rw [addJobToActive_jobs_active, hQ]
        have hrow' : done ++ [j.resmap] ≠ [] → ∃ R,
            (addJobToActive cfg j.toRef qc).active_resmap = some R ∧
            R.length = w ∧
            (∀ i, bitGet R i = rowHas (done ++ [j.resmap]) i) := by
          intro _
          rcases eq_or_ne done [] with hd | hdne
          · refine ⟨j.resmap, ?_, hjw, ?_⟩
            · refine addJobToActive_resmap_overwrite cfg j.toRef qc ?_ hgr
              rw [hQ, hd]
              rfl
            · intro i
              rw [hd]
              rw [List.nil_append, rowHas_singleton]
          · rcases hrow hdne with ⟨R, hRr, hRl, hRp⟩
            refine ⟨bitOr R j.resmap, ?_, ?_, ?_⟩
            · refine addJobToActive_resmap_accum cfg j.toRef qc ?_ hRr hgr
              rw [hQ]
              intro hc
              rw [List.length_eq_zero] at hc
              exact hdne hc
            · rw [bitOr_length, hRl, hjw]
              exact Nat.min_self w
            · intro i
              rw [bitGet_bitOr (by rw [hRl, hjw]) i, hRp i, rowHas_append,
                rowHas_singleton]
        have IH := ih (addJobToActive cfg j.toRef qc) (done ++ [j.resmap])
          (fun x hx => hwt x (List.mem_cons_of_mem _ hx))
          (by
            intro m hm
            rcases List.mem_append.1 hm with h | h
            · exact hwd m h
            · rw [List.mem_singleton.1 h]
              exact hjw)
          (by rw [addJobToActive_shadows]; exact hsh)
          (by rw [hq1ja, List.length_append]; rfl)
          hrow'
          (pairwise_snoc_of_disj hpw (fun x hx => disjB_symm (hdisj x hx)))
        rw [List.append_assoc, List.singleton_append] at IH
        have hsm : stateMaps target
            (j :: (seatPass cfg orc target rest
              (addJobToActive cfg j.toRef qc) []).jobs) =
            j.resmap :: stateMaps target (seatPass cfg orc target rest
              (addJobToActive cfg j.toRef qc) []).jobs :=
          stateMaps_cons_pos _ hrs
        refine ⟨IH.1, ?_, ?_, IH.2.2.2.1, ?_, ?_, ?_, ?_, ?_, ?_, ?_, ?_, ?_, ?_⟩
        · rw [IH.2.1, addJobToActive_part_name]
        · rw [IH.2.2.1, addJobToActive_priority]
        · rw [IH.2.2.2.2.1, addJobToActive_job_list]
        · rw [IH.2.2.2.2.2.1, addJobToActive_active_cpus cfg j.toRef qc hgr]
        · intro x hx
          rcases List.mem_cons.1 hx with he | hx
          · rw [he]
            exact hjw
          · exact IH.2.2.2.2.2.2.1 x hx
        · intro s h1 h2
          rw [stateMaps_cons_neg _ (by rw [hrs]; exact fun hc => h1 hc.symm),
            stateMaps_cons_neg rest (by rw [hrs]; exact fun hc => h1 hc.symm),
            IH.2.2.2.2.2.2.2.1 s h1 h2]
        · rw [hsm]
          exact IH.2.2.2.2.2.2.2.2.1
        · rw [hsm]
          exact IH.2.2.2.2.2.2.2.2.2.1
        · rw [hsm]
          exact IH.2.2.2.2.2.2.2.2.2.2.1
        · rw [hsm]
          exact IH.2.2.2.2.2.2.2.2.2.2.2.1
        · rw [hsm]
          intro hc
          rcases List.append_eq_nil.mp hc with ⟨h1, h2⟩
          cases h2
        · rw [hsm]
          intro x hx hna
          rcases List.mem_cons.1 hx with he | hx
          · rw [he] at hna
            rw [hna] at hrs
            exact absurd hrs.symm hT
          · rcases IH.2.2.2.2.2.2.2.2.2.2.2.2.2 x hx hna with h | h
            · exact Or.inl (List.mem_cons_of_mem _ h)
            · exact Or.inr h
      · rw [if_neg hfit]
        have hoverlap : ∃ i, bitGet j.resmap i = true ∧
            rowHas done i = true := by
          rcases overlap_of_not_fits cfg j qc
            (by rw [← Bool.not_eq_true]; exact hfit) with ⟨act, hr1, h01, hnd⟩
          have hdne : done ≠ [] := by
            intro hc
            rw [hQ, hc] at h01
            exact h01 rfl
          rcases hrow hdne with ⟨R, hRr, hRl, hRp⟩
          rw [hr1] at hRr
          have hact : act = R := by
            injection hRr
          rw [hact] at hnd
          rcases (not_disjB_iff _ _).1 hnd with ⟨i, h1, h2⟩
          rw [hRp i] at h2
          exact ⟨i, h1, h2⟩
        have IH := ih qc done
          (fun x hx => hwt x (List.mem_cons_of_mem _ hx))
          hwd hsh hQ hrow hpw
        by_cases hsg : j.sig_state ≠ SigState.suspend
        · rw [if_pos hsg]
          simp only [clearShadowAll, List.map_nil]
          have hcl : clearShadowPart j.toRef qc = qc := by
            refine clearShadowPart_absent j.toRef qc ?_
            rw [shadowHasId, hsh]
            rfl
          rw [hcl]
          have hsm : stateMaps target
              (({ j with
                  sig_state := SigState.suspend,
                  row_state := RowState.noActive } : GsJob) ::
                (seatPass cfg orc target rest qc []).jobs) =
              stateMaps target (seatPass cfg orc target rest qc []).jobs :=
            stateMaps_cons_neg _ (show ¬ RowState.noActive = target from
              fun hc => hT hc.symm)
          refine ⟨IH.1, IH.2.1, IH.2.2.1, IH.2.2.2.1, IH.2.2.2.2.1,
            IH.2.2.2.2.2.1, ?_, ?_, ?_, ?_, ?_, ?_, ?_, ?_⟩
          · intro x hx
            rcases List.mem_cons.1 hx with he | hx
            · rw [he]
              exact hwt j (List.mem_cons_self _ _)
            · exact IH.2.2.2.2.2.2.1 x hx
          · intro s h1 h2
            rw [stateMaps_cons_neg _ (show ¬ RowState.noActive = s from
                fun hc => h2 hc.symm),
              stateMaps_cons_neg rest (by rw [hrs]; exact fun hc => h1 hc.symm),
              IH.2.2.2.2.2.2.2.1 s h1 h2]
          · rw [hsm]
            exact IH.2.2.2.2.2.2.2.2.1
          · rw [hsm]
            exact IH.2.2.2.2.2.2.2.2.2.1
          · rw [hsm]
            exact IH.2.2.2.2.2.2.2.2.2.2.1
          · rw [hsm]
            exact IH.2.2.2.2.2.2.2.2.2.2.2.1
          · rw [hsm]
            exact IH.2.2.2.2.2.2.2.2.2.2.2.2.1
          · rw [hsm]
            intro x hx hna
            rcases List.mem_cons.1 hx with he | hx
            · refine Or.inr ?_
              rcases hoverlap with ⟨i, h1, h2⟩
              rw [he]
              refine ⟨i, h1, ?_⟩
              rw [rowHas_append, h2]
              rfl
            · rcases IH.2.2.2.2.2.2.2.2.2.2.2.2.2 x hx hna with h | h
              · exact Or.inl (List.mem_cons_of_mem _ h)
              · exact Or.inr h
        · rw [if_neg hsg]
          have hsm : stateMaps target
              (({ j with row_state := RowState.noActive } : GsJob) ::
                (seatPass cfg orc target rest qc []).jobs) =
              stateMaps target (seatPass cfg orc target rest qc []).jobs :=
            stateMaps_cons_neg _ (show ¬ RowState.noActive = target from
              fun hc => hT hc.symm)
          refine ⟨IH.1, IH.2.1, IH.2.2.1, IH.2.2.2.1, IH.2.2.2.2.1,
            IH.2.2.2.2.2.1, ?_, ?_, ?_, ?_, ?_, ?_, ?_, ?_⟩
          · intro x hx
            rcases List.mem_cons.1 hx with he | hx
            · rw [he]
              exact hwt j (List.mem_cons_self _ _)
            · exact IH.2.2.2.2.2.2.1 x hx
          · intro s h1 h2
            rw [stateMaps_cons_neg _ (show ¬ RowState.noActive = s from
                fun hc => h2 hc.symm),
              stateMaps_cons_neg rest (by rw [hrs]; exact fun hc => h1 hc.symm),
              IH.2.2.2.2.2.2.2.1 s h1 h2]
          · rw [hsm]
            exact IH.2.2.2.2.2.2.2.2.1
          · rw [hsm]
            exact IH.2.2.2.2.2.2.2.2.2.1
          · rw [hsm]
            exact IH.2.2.2.2.2.2.2.2.2.2.1
          · rw [hsm]
            exact IH.2.2.2.2.2.2.2.2.2.2.2.1
          · rw [hsm]
            exact IH.2.2.2.2.2.2.2.2.2.2.2.2.1
          · rw [hsm]
            intro x hx hna
            rcases List.mem_cons.1 hx with he | hx
            · refine Or.inr ?_
              rcases hoverlap with ⟨i, h1, h2⟩
              rw [he]
              refine ⟨i, h1, ?_⟩
              rw [rowHas_append, h2]
              rfl
            · rcases IH.2.2.2.2.2.2.2.2.2.2.2.2.2 x hx hna with h | h
              · exact Or.inl (List.mem_cons_of_mem _ h)
              · exact Or.inr h
    · rw [if_neg hrs]
      have IH := ih qc done
        (fun x hx => hwt x (List.mem_cons_of_mem _ hx))
        hwd hsh hQ hrow hpw
      have hsm : stateMaps target
          (j :: (seatPass cfg orc target rest qc []).jobs) =
          stateMaps target (seatPass cfg orc target rest qc []).jobs :=
        stateMaps_cons_neg _ hrs
      refine ⟨IH.1, IH.2.1, IH.2.2.1, IH.2.2.2.1, IH.2.2.2.2.1,
        IH.2.2.2.2.2.1, ?_, ?_, ?_, ?_, ?_, ?_, ?_, ?_⟩
      · intro x hx
        rcases List.mem_cons.1 hx with he | hx
        · rw [he]
          exact hwt j (List.mem_cons_self _ _)
        · exact IH.2.2.2.2.2.2.1 x hx
      · intro s h1 h2
        by_cases hjs : j.row_state = s
        · rw [stateMaps_cons_pos _ hjs, stateMaps_cons_pos rest hjs,
            IH.2.2.2.2.2.2.2.1 s h1 h2]
        · rw [stateMaps_cons_neg _ hjs, stateMaps_cons_neg rest hjs,
            IH.2.2.2.2.2.2.2.1 s h1 h2]
      · rw [hsm]
        exact IH.2.2.2.2.2.2.2.2.1
      · rw [hsm]
        exact IH.2.2.2.2.2.2.2.2.2.1
      · rw [hsm]
        exact IH.2.2.2.2.2.2.2.2.2.2.1
      · rw [hsm]
        exact IH.2.2.2.2.2.2.2.2.2.2.2.1
      · rw [hsm]
        exact IH.2.2.2.2.2.2.2.2.2.2.2.2.1
      · rw [hsm]
        intro x hx hna
        rcases List.mem_cons.1 hx with he | hx
        · rw [he]
          exact Or.inl (List.mem_cons_self _ _)
        · rcases IH.2.2.2.2.2.2.2.2.2.2.2.2.2 x hx hna with h | h
          · exact Or.inl (List.mem_cons_of_mem _ h)
          · exact Or.inr h

theorem newPass_estab (cfg : GsConfig) (orc : Oracle) (w : Nat)
    (hgr : cfg.gr = GrType.node ∨ cfg.gr = GrType.socket) :
    ∀ (todo : List GsJob) (qc : GsPart) (done : List (List Bool)),
      (∀ j ∈ todo, j.resmap.length = w) →
      (∀ m ∈ done, m.length = w) →
      qc.shadows = [] →
      qc.jobs_active = done.length →
      (done ≠ [] → ∃ R, qc.active_resmap = some R ∧ R.length = w ∧
        (∀ i, bitGet R i = rowHas done i)) →
      List.Pairwise DisjB done →
      ∃ adm : List (List Bool),
        (newPass cfg orc todo qc []).others = []
        ∧ (newPass cfg orc todo qc []).q.part_name = qc.part_name
        ∧ (newPass cfg orc todo qc []).q.priority = qc.priority
        ∧ (newPass cfg orc todo qc []).q.shadows = []
        ∧ (newPass cfg orc todo qc []).q.job_list = qc.job_list
        ∧ (newPass cfg orc todo qc []).q.active_cpus = qc.active_cpus
        ∧ (∀ j ∈ (newPass cfg orc todo qc []).jobs, j.resmap.length = w)
        ∧ stateMaps RowState.active (newPass cfg orc todo qc []).jobs =
            stateMaps RowState.active todo
        ∧ (stateMaps RowState.filler (newPass cfg orc todo qc []).jobs).Perm
            (stateMaps RowState.filler todo ++ adm)
        ∧ (∀ m ∈ done ++ adm, m.length = w)
        ∧ List.Pairwise DisjB (done ++ adm)
        ∧ (newPass cfg orc todo qc []).q.jobs_active = (done ++ adm).length
        ∧ (done ++ adm ≠ [] → ∃ R,
            (newPass cfg orc todo qc []).q.active_resmap = some R ∧
            R.length = w ∧ (∀ i, bitGet R i = rowHas (done ++ adm) i))
        ∧ (done ++ adm = [] →
            (newPass cfg orc todo qc []).q.active_resmap = qc.active_resmap)
        ∧ (∀ j ∈ (newPass cfg orc todo qc []).jobs,
            j.row_state = RowState.noActive →
            ∃ i, bitGet j.resmap i = true ∧ rowHas (done ++ adm) i = true) := by
  intro todo
  induction todo with
  | nil =>
    intro qc done hwt hwd hsh hQ hrow hpw
    rw [newPass]
    refine ⟨[], by trivial, by trivial, by trivial, ?_, by trivial, by trivial,
      ?_, ?_, ?_, ?_, ?_, ?_, ?_, ?_, ?_⟩
    · exact hsh
    · intro j hj
      cases hj
    · rfl
    · simp only [stateMaps_nil, List.nil_append]
      exact List.Perm.refl _
    · simp only [List.append_nil]
      exact hwd
    · simp only [List.append_nil]
      exact hpw
    · simp only [List.append_nil]
      exact hQ
    · simp only [List.append_nil]
      exact hrow
    · intro _
      rfl
    · intro j hj
      cases hj
  | cons j rest ih =>
    intro qc done hwt hwd hsh hQ hrow hpw
    rw [newPass]
    by_cases hrs : j.row_state = RowState.noActive
    · rw [if_pos hrs]
      by_cases hfit : jobFitsInActiveRow cfg j qc = true
      · rw [if_pos hfit]
        simp only [castShadowAll, castShadowPart_self, List.map_nil]
        have hjw : j.resmap.length = w := hwt j (List.mem_cons_self _ _)
        have hdisj : ∀ m ∈ done, DisjB j.resmap m := by
          intro m hm
          rcases eq_or_ne done [] with hd | hd
          · rw [hd] at hm
            cases hm
          · rcases hrow hd with ⟨R, hRr, hRl, hRp⟩
            have hja0 : ¬ qc.jobs_active = 0 := by
              rw [hQ]
              intro hc
              rw [List.length_eq_zero] at hc
              exact hd hc
            have hdj : DisjB j.resmap R := by
              rw [jobFitsInActiveRow, hRr] at hfit
              dsimp only at hfit
              rw [if_neg hja0] at hfit
              by_cases hpc : popcount (bitAnd j.resmap R) = 0
              · exact (popcount_bitAnd_zero_iff _ _).1 hpc
              · rw [if_neg hpc, if_pos hgr] at hfit
                cases hfit
            exact disjB_of_rowHas hRp hm hdj
        have hq1ja : (addJobToActive cfg j.toRef qc).jobs_active =
            done.length + 1 := by
          rw [addJobToActive_jobs_active, hQ]
        have hrow' : done ++ [j.resmap] ≠ [] → ∃ R,
            (addJobToActive cfg j.toRef qc).active_resmap = some R ∧
            R.length = w ∧
            (∀ i, bitGet R i = rowHas (done ++ [j.resmap]) i) := by
          intro _
          rcases eq_or_ne done [] with hd | hdne
          · refine ⟨j.resmap, ?_, hjw, ?_⟩
            · refine addJobToActive_resmap_overwrite cfg j.toRef qc ?_ hgr
              rw [hQ, hd]
              rfl
            · intro i
              rw [hd]
              rw [List.nil_append, rowHas_singleton]
          · rcases hrow hdne with ⟨R, hRr, hRl, hRp⟩
            refine ⟨bitOr R j.resmap, ?_, ?_, ?_⟩
            · refine addJobToActive_resmap_accum cfg j.toRef qc ?_ hRr hgr
              rw [hQ]
              intro hc
              rw [List.length_eq_zero] at hc
              exact hdne hc
            · rw [bitOr_length, hRl, hjw]
              exact Nat.min_self w
            · intro i
              rw [bitGet_bitOr (by rw [hRl, hjw]) i, hRp i, rowHas_append,
                rowHas_singleton]
        rcases ih (addJobToActive cfg j.toRef qc) (done ++ [j.resmap])
          (fun x hx => hwt x (List.mem_cons_of_mem _ hx))
          (by
            intro m hm
            rcases List.mem_append.1 hm with h | h
            · exact hwd m h
            · rw [List.mem_singleton.1 h]
              exact hjw)
          (by rw [addJobToActive_shadows]; exact hsh)
          (by rw [hq1ja, List.length_append]; rfl)
          hrow'
          (pairwise_snoc_of_disj hpw (fun x hx => disjB_symm (hdisj x hx)))
          with ⟨adm0, IH⟩
        rw [List.append_assoc, List.singleton_append] at IH
        have hSMFrest : stateMaps RowState.filler (j :: rest) =
            stateMaps RowState.filler rest :=
          stateMaps_cons_neg rest (by rw [hrs]; intro hc; cases hc)
        have hSMArest : stateMaps RowState.active (j :: rest) =
            stateMaps RowState.active rest :=
          stateMaps_cons_neg rest (by rw [hrs]; intro hc; cases hc)
        by_cases hsg : j.sig_state = SigState.suspend
        · rw [if_pos hsg]
          refine ⟨j.resmap :: adm0, IH.1, ?_, ?_, IH.2.2.2.1, ?_, ?_, ?_,
            ?_, ?_, IH.2.2.2.2.2.2.2.2.2.1, IH.2.2.2.2.2.2.2.2.2.2.1,
            IH.2.2.2.2.2.2.2.2.2.2.2.1, IH.2.2.2.2.2.2.2.2.2.2.2.2.1, ?_, ?_⟩
          · rw [IH.2.1, addJobToActive_part_name]
          · rw [IH.2.2.1, addJobToActive_priority]
          · rw [IH.2.2.2.2.1, addJobToActive_job_list]
          · rw [IH.2.2.2.2.2.1, addJobToActive_active_cpus cfg j.toRef qc hgr]
          · intro x hx
            rcases List.mem_cons.1 hx with he | hx
            · rw [he]
              exact hjw
            · exact IH.2.2.2.2.2.2.1 x hx
          · rw [stateMaps_cons_neg _ (by intro hc; cases hc), hSMArest,
              IH.2.2.2.2.2.2.2.1]
          · rw [stateMaps_cons_pos _ (by rfl), hSMFrest]
            refine List.Perm.trans (List.Perm.cons _ IH.2.2.2.2.2.2.2.2.1) ?_
            exact List.perm_middle.symm
          · intro hc
            rcases List.append_eq_nil.mp hc with ⟨h1, h2⟩
            cases h2
          · intro x hx hna
            rcases List.mem_cons.1 hx with he | hx
            · rw [he] at hna
              cases hna
            · exact IH.2.2.2.2.2.2.2.2.2.2.2.2.2.2 x hx hna
        · rw [if_neg hsg]
          refine ⟨j.resmap :: adm0, IH.1, ?_, ?_, IH.2.2.2.1, ?_, ?_, ?_,
            ?_, ?_, IH.2.2.2.2.2.2.2.2.2.1, IH.2.2.2.2.2.2.2.2.2.2.1,
            IH.2.2.2.2.2.2.2.2.2.2.2.1, IH.2.2.2.2.2.2.2.2.2.2.2.2.1, ?_, ?_⟩
          · rw [IH.2.1, addJobToActive_part_name]
          · rw [IH.2.2.1, addJobToActive_priority]
          · rw [IH.2.2.2.2.1, addJobToActive_job_list]
          · rw [IH.2.2.2.2.2.1, addJobToActive_active_cpus cfg j.toRef qc hgr]
          · intro x hx
            rcases List.mem_cons.1 hx with he | hx
            · rw [he]
              exact hjw
            · exact IH.2.2.2.2.2.2.1 x hx
          · rw [stateMaps_cons_neg _ (by intro hc; cases hc), hSMArest,
              IH.2.2.2.2.2.2.2.1]
          · rw [stateMaps_cons_pos _ (by rfl), hSMFrest]
            refine List.Perm.trans (List.Perm.cons _ IH.2.2.2.2.2.2.2.2.1) ?_
            exact List.perm_middle.symm
          · intro hc
            rcases List.append_eq_nil.mp hc with ⟨h1, h2⟩
            cases h2
          · intro x hx hna
            rcases List.mem_cons.1 hx with he | hx
            · rw [he] at hna
              cases hna
            · exact IH.2.2.2.2.2.2.2.2.2.2.2.2.2.2 x hx hna
      · rw [if_neg hfit]
        have hoverlap : ∃ i, bitGet j.resmap i = true ∧
            rowHas done i = true := by
          rcases overlap_of_not_fits cfg j qc
            (by rw [← Bool.not_eq_true]; exact hfit) with ⟨act, hr1, h01, hnd⟩
          have hdne : done ≠ [] := by
            intro hc
            rw [hQ, hc] at h01
            exact h01 rfl
          rcases hrow hdne with ⟨R, hRr, hRl, hRp⟩
          rw [hr1] at hRr
          have hact : act = R := by
            injection hRr
          rw [hact] at hnd
          rcases (not_disjB_iff _ _).1 hnd with ⟨i, h1, h2⟩
          rw [hRp i] at h2
          exact ⟨i, h1, h2⟩
        rcases ih qc done
          (fun x hx => hwt x (List.mem_cons_of_mem _ hx))
          hwd hsh hQ hrow hpw with ⟨adm0, IH⟩
        have hSMFrest : stateMaps RowState.filler (j :: rest) =
            stateMaps RowState.filler rest :=
          stateMaps_cons_neg rest (by rw [hrs]; intro hc; cases hc)
        have hSMArest : stateMaps RowState.active (j :: rest) =
            stateMaps RowState.active rest :=
          stateMaps_cons_neg rest (by rw [hrs]; intro hc; cases hc)
        refine ⟨adm0, IH.1, IH.2.1, IH.2.2.1, IH.2.2.2.1, IH.2.2.2.2.1,
          IH.2.2.2.2.2.1, ?_, ?_, ?_, IH.2.2.2.2.2.2.2.2.2.1,
          IH.2.2.2.2.2.2.2.2.2.2.1, IH.2.2.2.2.2.2.2.2.2.2.2.1,
          IH.2.2.2.2.2.2.2.2.2.2.2.2.1, IH.2.2.2.2.2.2.2.2.2.2.2.2.2.1, ?_⟩
        · intro x hx
          rcases List.mem_cons.1 hx with he | hx
          · rw [he]
            exact hwt j (List.mem_cons_self _ _)
          · exact IH.2.2.2.2.2.2.1 x hx
        · rw [stateMaps_cons_neg _ (by rw [hrs]; intro hc; cases hc),
            hSMArest, IH.2.2.2.2.2.2.2.1]
        · rw [stateMaps_cons_neg _ (by rw [hrs]; intro hc; cases hc),
            hSMFrest]
          exact IH.2.2.2.2.2.2.2.2.1
        · intro x hx hna
          rcases List.mem_cons.1 hx with he | hx
          · rcases hoverlap with ⟨i, h1, h2⟩
            rw [he]
            refine ⟨i, h1, ?_⟩
            rw [rowHas_append, h2]
            rfl
          · exact IH.2.2.2.2.2.2.2.2.2.2.2.2.2.2 x hx hna
    · rw [if_neg hrs]
      rcases ih qc done
        (fun x hx => hwt x (List.mem_cons_of_mem _ hx))
        hwd hsh hQ hrow hpw with ⟨adm0, IH⟩
      refine ⟨adm0, IH.1, IH.2.1, IH.2.2.1, IH.2.2.2.1, IH.2.2.2.2.1,
        IH.2.2.2.2.2.1, ?_, ?_, ?_, IH.2.2.2.2.2.2.2.2.2.1,
        IH.2.2.2.2.2.2.2.2.2.2.1, IH.2.2.2.2.2.2.2.2.2.2.2.1,
        IH.2.2.2.2.2.2.2.2.2.2.2.2.1, IH.2.2.2.2.2.2.2.2.2.2.2.2.2.1, ?_⟩
      · intro x hx
        rcases List.mem_cons.1 hx with he | hx
        · rw [he]
          exact hwt j (List.mem_cons_self _ _)
        · exact IH.2.2.2.2.2.2.1 x hx
      · by_cases hja : j.row_state = RowState.active
        · rw [stateMaps_cons_pos _ hja, stateMaps_cons_pos rest hja,
            IH.2.2.2.2.2.2.2.1]
        · rw [stateMaps_cons_neg _ hja, stateMaps_cons_neg rest hja,
            IH.2.2.2.2.2.2.2.1]
      · by_cases hjf : j.row_state = RowState.filler
        · rw [stateMaps_cons_pos _ hjf, stateMaps_cons_pos rest hjf]
          rw [List.cons_append]
          exact List.Perm.cons _ IH.2.2.2.2.2.2.2.2.1
        · rw [stateMaps_cons_neg _ hjf, stateMaps_cons_neg rest hjf]
          exact IH.2.2.2.2.2.2.2.2.1
      · intro x hx hna
        rcases List.mem_cons.1 hx with he | hx
        · rw [he] at hna
          exact absurd hna hrs
        · exact IH.2.2.2.2.2.2.2.2.2.2.2.2.2.2 x hx hna

theorem updateActiveRow_establishes (cfg : GsConfig) (orc : Oracle) (w : Nat)
    (q : GsPart) (hgr : cfg.gr = GrType.node ∨ cfg.gr = GrType.socket)
    (hsh : q.shadows = [])
    (hw : ∀ j ∈ q.job_list, j.resmap.length = w) :
    StablePart w (updateActiveRow cfg orc true q []).q
    ∧ (updateActiveRow cfg orc true q []).others = [] := by
  have hsp : shadowPhase cfg { q with jobs_active := 0 } =
      { q with jobs_active := 0 } :=
    shadowPhase_of_no_shadows cfg _ hsh
  have sA := seatPass_estab cfg orc RowState.active w hgr
    (by intro h; cases h) q.job_list { q with jobs_active := 0 } []
    hw (fun m hm => absurd hm (List.not_mem_nil m)) hsh rfl
    (fun h => absurd rfl h) List.Pairwise.nil
  simp only [List.nil_append] at sA
  have sF := seatPass_estab cfg orc RowState.filler w hgr
    (by intro h; cases h)
    (seatPass cfg orc RowState.active q.job_list
      { q with jobs_active := 0 } []).jobs
    (seatPass cfg orc RowState.active q.job_list
      { q with jobs_active := 0 } []).q
    (stateMaps RowState.active (seatPass cfg orc RowState.active q.job_list
      { q with jobs_active := 0 } []).jobs)
    sA.2.2.2.2.2.2.1 sA.2.2.2.2.2.2.2.2.1 sA.2.2.2.1
    sA.2.2.2.2.2.2.2.2.2.2.1 sA.2.2.2.2.2.2.2.2.2.2.2.1
    sA.2.2.2.2.2.2.2.2.2.1
  rcases newPass_estab cfg orc w hgr
    (seatPass cfg orc RowState.filler
      (seatPass cfg orc RowState.active q.job_list
        { q with jobs_active := 0 } []).jobs
      (seatPass cfg orc RowState.active q.job_list
        { q with jobs_active := 0 } []).q []).jobs
    (seatPass cfg orc RowState.filler
      (seatPass cfg orc RowState.active q.job_list
        { q with jobs_active := 0 } []).jobs
      (seatPass cfg orc RowState.active q.job_list
        { q with jobs_active := 0 } []).q []).q
    (stateMaps RowState.active (seatPass cfg orc RowState.active q.job_list
        { q with jobs_active := 0 } []).jobs ++
      stateMaps RowState.filler (seatPass cfg orc RowState.filler
        (seatPass cfg orc RowState.active q.job_list
          { q with jobs_active := 0 } []).jobs
        (seatPass cfg orc RowState.active q.job_list
          { q with jobs_active := 0 } []).q []).jobs)
    sF.2.2.2.2.2.2.1 sF.2.2.2.2.2.2.2.2.1 sF.2.2.2.1
    sF.2.2.2.2.2.2.2.2.2.2.1 sF.2.2.2.2.2.2.2.2.2.2.2.1
    sF.2.2.2.2.2.2.2.2.2.1 with ⟨adm, sN⟩
  have eqF : seatPass cfg orc RowState.filler
      (seatPass cfg orc RowState.active q.job_list
        { q with jobs_active := 0 } []).jobs
      (seatPass cfg orc RowState.active q.job_list
        { q with jobs_active := 0 } []).q
      (seatPass cfg orc RowState.active q.job_list
        { q with jobs_active := 0 } []).others =
    seatPass cfg orc RowState.filler
      (seatPass cfg orc RowState.active q.job_list
        { q with jobs_active := 0 } []).jobs
      (seatPass cfg orc RowState.active q.job_list
        { q with jobs_active := 0 } []).q [] := by
    rw [sA.1]
  have eqN : newPass cfg orc
      (seatPass cfg orc RowState.filler
        (seatPass cfg orc RowState.active q.job_list
          { q with jobs_active := 0 } []).jobs
        (seatPass cfg orc RowState.active q.job_list
          { q with jobs_active := 0 } []).q []).jobs
      (seatPass cfg orc RowState.filler
        (seatPass cfg orc RowState.active q.job_list
          { q with jobs_active := 0 } []).jobs
        (seatPass cfg orc RowState.active q.job_list
          { q with jobs_active := 0 } []).q []).q
      (seatPass cfg orc RowState.filler
        (seatPass cfg orc RowState.active q.job_list
          { q with jobs_active := 0 } []).jobs
        (seatPass cfg orc RowState.active q.job_list
          { q with jobs_active := 0 } []).q []).others =
    newPass cfg orc
      (seatPass cfg orc RowState.filler
        (seatPass cfg orc RowState.active q.job_list
          { q with jobs_active := 0 } []).jobs
        (seatPass cfg orc RowState.active q.job_list
          { q with jobs_active := 0 } []).q []).jobs
      (seatPass cfg orc RowState.filler
        (seatPass cfg orc RowState.active q.job_list
          { q with jobs_active := 0 } []).jobs
        (seatPass cfg orc RowState.active q.job_list
          { q with jobs_active := 0 } []).q []).q [] := by
    rw [sF.1]
  have hperm : (contribs (newPass cfg orc
      (seatPass cfg orc RowState.filler
        (seatPass cfg orc RowState.active q.job_list
          { q with jobs_active := 0 } []).jobs
        (seatPass cfg orc RowState.active q.job_list
          { q with jobs_active := 0 } []).q []).jobs
      (seatPass cfg orc RowState.filler
        (seatPass cfg orc RowState.active q.job_list
          { q with jobs_active := 0 } []).jobs
        (seatPass cfg orc RowState.active q.job_list
          { q with jobs_active := 0 } []).q []).q []).jobs).Perm
      ((stateMaps RowState.active (seatPass cfg orc RowState.active q.job_list
          { q with jobs_active := 0 } []).jobs ++
        stateMaps RowState.filler (seatPass cfg orc RowState.filler
          (seatPass cfg orc RowState.active q.job_list
            { q with jobs_active := 0 } []).jobs
          (seatPass cfg orc RowState.active q.job_list
            { q with jobs_active := 0 } []).q []).jobs) ++ adm) := by
    rw [contribs, sN.2.2.2.2.2.2.2.1, sF.2.2.2.2.2.2.2.1 RowState.active
      (by intro h; cases h) (by intro h; cases h), List.append_assoc]
    exact List.Perm.append_left _ sN.2.2.2.2.2.2.2.2.1
  rw [updateActiveRow, hsp]
  simp only [if_true]
  rw [eqF, eqN]
  constructor
  · refine ⟨sN.2.2.2.1, sN.2.2.2.2.2.2.1, ?_, ?_, ?_, ?_, ?_⟩
    · rw [hperm.length_eq]
      exact sN.2.2.2.2.2.2.2.2.2.2.2.1
    · exact (hperm.pairwise_iff disjB_symm).2 sN.2.2.2.2.2.2.2.2.2.2.1
    · intro hC0
      have hd3 : (stateMaps RowState.active (seatPass cfg orc RowState.active
            q.job_list { q with jobs_active := 0 } []).jobs ++
          stateMaps RowState.filler (seatPass cfg orc RowState.filler
            (seatPass cfg orc RowState.active q.job_list
              { q with jobs_active := 0 } []).jobs
            (seatPass cfg orc RowState.active q.job_list
              { q with jobs_active := 0 } []).q []).jobs) ++ adm = [] := by
        have := hperm.length_eq
        rw [hC0] at this
        rw [← List.length_eq_zero, ← this]
        rfl
      rcases List.append_eq_nil.mp hC0 with ⟨hA0, hF0⟩
      cases hjn : (newPass cfg orc
          (seatPass cfg orc RowState.filler
            (seatPass cfg orc RowState.active q.job_list
              { q with jobs_active := 0 } []).jobs
            (seatPass cfg orc RowState.active q.job_list
              { q with jobs_active := 0 } []).q []).jobs
          (seatPass cfg orc RowState.filler
            (seatPass cfg orc RowState.active q.job_list
              { q with jobs_active := 0 } []).jobs
            (seatPass cfg orc RowState.active q.job_list
              { q with jobs_active := 0 } []).q []).q []).jobs with
      | nil => rfl
      | cons x xs =>
        exfalso
        have hx : x ∈ (newPass cfg orc
            (seatPass cfg orc RowState.filler
              (seatPass cfg orc RowState.active q.job_list
                { q with jobs_active := 0 } []).jobs
              (seatPass cfg orc RowState.active q.job_list
                { q with jobs_active := 0 } []).q []).jobs
            (seatPass cfg orc RowState.filler
              (seatPass cfg orc RowState.active q.job_list
                { q with jobs_active := 0 } []).jobs
              (seatPass cfg orc RowState.active q.job_list
                { q with jobs_active := 0 } []).q []).q []).jobs := by
          rw [hjn]
          exact List.mem_cons_self _ _
        cases hxs : x.row_state with
        | active =>
          refine stateMaps_eq_nil_no_state ?_ x hx hxs
          rw [hjn] at hA0 ⊢
          exact hA0
        | filler =>
          refine stateMaps_eq_nil_no_state ?_ x hx hxs
          rw [hjn] at hF0 ⊢
          exact hF0
        | noActive =>
          rcases sN.2.2.2.2.2.2.2.2.2.2.2.2.2.2 x hx hxs with ⟨i, h1, h2⟩
          rw [hd3] at h2
          rw [rowHas_nil] at h2
          cases h2
    · intro hC
      have hd3ne : (stateMaps RowState.active (seatPass cfg orc RowState.active
            q.job_list { q with jobs_active := 0 } []).jobs ++
          stateMaps RowState.filler (seatPass cfg orc RowState.filler
            (seatPass cfg orc RowState.active q.job_list
              { q with jobs_active := 0 } []).jobs
            (seatPass cfg orc RowState.active q.job_list
              { q with jobs_active := 0 } []).q []).jobs) ++ adm ≠ [] := by
        intro hc
        refine hC ?_
        have := hperm.length_eq
        rw [hc] at this
        rw [← List.length_eq_zero]
        rw [this]
        rfl
      rcases sN.2.2.2.2.2.2.2.2.2.2.2.2.1 hd3ne with ⟨R, h1, h2, h3⟩
      refine ⟨R, h1, h2, ?_⟩
      intro i
      rw [h3 i]
      exact rowHas_eq_of_mem_iff (fun m => (hperm.mem_iff).symm) i
    · intro j hj hna
      rcases sN.2.2.2.2.2.2.2.2.2.2.2.2.2.2 j hj hna with ⟨i, h1, h2⟩
      refine ⟨i, h1, ?_⟩
      rw [rowHas_eq_of_mem_iff (fun m => hperm.mem_iff) i]
      exact h2
  · exact sN.1

theorem updateAllActiveRows_singleton (cfg : GsConfig) (orc : Oracle)
    (q : GsPart) :
    updateAllActiveRows cfg orc [q] =
      ((updateActiveRow cfg orc true q []).q ::
          (updateActiveRow cfg orc true q []).others,
        (updateActiveRow cfg orc true q []).sigs,
        (updateActiveRow cfg orc true q []).logs) := by
  have hsi : sortedIndices [q] = [0] := rfl
  rw [updateAllActiveRows, hsi]
  simp only [List.foldl_cons, List.foldl_nil]
  rw [updateRowAt]
  simp

def c5WQ : GsPart :=
  ⟨"w", 5,
    [⟨1, SigState.resume, RowState.active, [true, false], none⟩,
     ⟨2, SigState.suspend, RowState.noActive, [true, true], none⟩,
     ⟨3, SigState.resume, RowState.filler, [false, true], none⟩],
    [], 7, some [true, false], none⟩

/-- C5: rebuild_all (`_update_all_active_rows`) is NOT idempotent for
every scheduler state (see the counterexample); for an isolated
partition -- a one-element partition list, hence no shadows -- under
Node or Socket granularity, with all job resource maps of one common
width, a second rebuild_all returns the state of the first unchanged
and emits no suspend or resume signals. -/
theorem c5_amended_single_part_idempotent (cfg : GsConfig)
    (orc1 orc2 : Oracle) (q : GsPart) (w : Nat)
    (hgr : cfg.gr = GrType.node ∨ cfg.gr = GrType.socket)
    (hsh : q.shadows = [])
    (hw : ∀ j ∈ q.job_list, j.resmap.length = w) :
    (updateAllActiveRows cfg orc2 (updateAllActiveRows cfg orc1 [q]).1).1 =
      (updateAllActiveRows cfg orc1 [q]).1
    ∧ (updateAllActiveRows cfg orc2
        (updateAllActiveRows cfg orc1 [q]).1).2.1 = [] := by
  rcases updateActiveRow_establishes cfg orc1 w q hgr hsh hw with ⟨hst, hos⟩
  have h1 := updateAllActiveRows_singleton cfg orc1 q
  have h2fix := updateActiveRow_stable cfg orc2 w
    (updateActiveRow cfg orc1 true q []).q hgr hst
  have h2 := updateAllActiveRows_singleton cfg orc2
    (updateActiveRow cfg orc1 true q []).q
  rw [h1, hos]
  dsimp only
  rw [h2, h2fix]
  exact ⟨rfl, rfl⟩

/-- Witness for C5's amended theorem: a two-node partition with an
active, an unseatable, and a filler job, plus stale bookkeeping
fields, reaches a fixed point after one rebuild_all. -/
theorem c5_amended_single_part_idempotent_witness :
    (cfgNodeT.gr = GrType.node ∨ cfgNodeT.gr = GrType.socket) ∧
    c5WQ.shadows = [] ∧
    (∀ j ∈ c5WQ.job_list, j.resmap.length = 2) ∧
    (updateAllActiveRows cfgNodeT orcZero
        (updateAllActiveRows cfgNodeT orcZero [c5WQ]).1).1 =
      (updateAllActiveRows cfgNodeT orcZero [c5WQ]).1 :=
  ⟨Or.inl rfl, rfl, by decide,
    (c5_amended_single_part_idempotent cfgNodeT orcZero orcZero c5WQ 2
      (Or.inl rfl) rfl (by decide)).1⟩
